import Mathlib

/-!
sc4-bulldoze-extensions: diagonal region geometry and mode state.

Shallow embedding of `src/cSC4ViewInputControlDemolishHooks.cpp` and of the message
handler of `src/BulldozeExtensionsDllDirector.cpp`.

Conventions of the embedding:

* `int32_t` values are `Int`.  The embedding is exact for every run in which no
  signed 32-bit overflow happens (signed overflow is undefined behaviour in C++).
  The two sums of the centre of the box, which can leave the range of `int32_t`
  for coordinates that are themselves in range, are reduced modulo 2^32
  (`wrapInt32`), as the two's complement target does.
* `uint32_t` bit sets (`modifiers`) are `Nat`, masked with `&&&` as in the source.
* The `while (true)` line walk is a structurally recursive loop over a fuel
  counter that returns `none` when the fuel is exhausted; results are always
  stated as "every sufficiently large fuel returns `some`".
* The file-level globals `occupantFilterType`, `diagonalMode`,
  `diagonalThickness`, `currentViewControl` are the fields of `ModeState`,
  passed explicitly.
* Calls into the host executable (`SetCursor`, `UpdateSelectedRegion`,
  `EndInput`) are recorded as events; their effect on host memory is outside the
  repository.  The host routine `UpdateSelectedRegion` comes back into the
  repository through its patched call site; `OnMouseWheelHookRedraw` runs the
  preview hook there, with what the host passes as a parameter.
-/

namespace Bulldoze

/-! ## Cell regions -/

/-- Modelled from the spec: the membership map type of `SC4CellRegion.h`, which is not
part of the sources.  A two-dimensional boolean grid with explicit width and height and
bounds-checked accessors (spec section 3 and section 9). -/
structure CellMap where
  width : Nat
  height : Nat
  cells : Nat → Nat → Bool

/-- Bounds-checked read of a membership value; cells outside the grid read as `false`. -/
def CellMap.GetValue (m : CellMap) (x z : Nat) : Bool :=
  if x < m.width ∧ z < m.height then m.cells x z else false

/-- Bounds-checked write of a membership value; the dimensions never change. -/
def CellMap.SetValue (m : CellMap) (x z : Nat) (v : Bool) : CellMap :=
  if x < m.width ∧ z < m.height then
    { width := m.width
      height := m.height
      cells := fun i j => if i = x ∧ j = z then v else m.cells i j }
  else m

/-- Modelled from the spec: the bounding rectangle of `SC4CellRegion.h` (inclusive cell
coordinates; `Y` is the Z axis of the city grid). -/
structure SC4Rect where
  topLeftX : Int
  topLeftY : Int
  bottomRightX : Int
  bottomRightY : Int
deriving DecidableEq, Repr

/-- Modelled from the spec: `SC4CellRegion<int32_t>` of `SC4CellRegion.h`, a bounding box
plus a membership map. -/
structure SC4CellRegion where
  bounds : SC4Rect
  cellMap : CellMap

/-- Modelled from the spec: the constructor `SC4CellRegion(minX, minZ, maxX, maxZ, value)`
of `SC4CellRegion.h`.  The map gets the dimensions of the box (spec section 3: map
dimensions == box dimensions) and every cell holds `value`. -/
def SC4CellRegion.create (minX minZ maxX maxZ : Int) (value : Bool) : SC4CellRegion :=
  { bounds := { topLeftX := minX, topLeftY := minZ, bottomRightX := maxX, bottomRightY := maxZ }
    cellMap :=
      { width := (maxX - minX + 1).toNat
        height := (maxZ - minZ + 1).toNat
        cells := fun _ _ => value } }

/-- A cell, given in city coordinates, is selected iff it lies in the box and its map
entry is true (spec section 3). -/
def SC4CellRegion.selected (r : SC4CellRegion) (x z : Int) : Bool :=
  decide (r.bounds.topLeftX ≤ x) && decide (r.bounds.topLeftY ≤ z) &&
    r.cellMap.GetValue (x - r.bounds.topLeftX).toNat (z - r.bounds.topLeftY).toNat

/-- All selected cells of a region in city coordinates, column by column. -/
def SC4CellRegion.selectedCells (r : SC4CellRegion) : List (Int × Int) :=
  (List.range r.cellMap.width).flatMap fun (i : Nat) =>
    ((List.range r.cellMap.height).filter fun j => r.cellMap.GetValue i j).map fun (j : Nat) =>
      (r.bounds.topLeftX + (i : Int), r.bounds.topLeftY + (j : Int))

/-! ## CreateDiagonalRegion -/

/-- The C library `abs` on `int`. -/
def cabs (v : Int) : Int := if v < 0 then -v else v

/-- The `int32_t` value of an arithmetic expression whose exact value is `v`: the exact
value reduced modulo 2^32 into the range of `int32_t` (two's complement). -/
def wrapInt32 (v : Int) : Int := (v + 2147483648) % 4294967296 - 2147483648

/-- The value `v` lies in the range of `int32_t`. -/
def fitsInt32 (v : Int) : Prop := -2147483648 ≤ v ∧ v ≤ 2147483647

instance (v : Int) : Decidable (fitsInt32 v) := by
  unfold fitsInt32
  infer_instance

/-- Start and end corner of the diagonal, lines 129-169 of `CreateDiagonalRegion`.
Returns `(diagStartX, diagStartZ, diagEndX, diagEndZ)`.  The sums `minX + maxX` and
`minZ + maxZ` of lines 136-137 are `int32_t` sums. -/
def diagonalEndpoints (minX minZ maxX maxZ startX startZ : Int) : Int × Int × Int × Int :=
  if startX ≠ -1 ∧ startZ ≠ -1 then
    let centerX := Int.tdiv (wrapInt32 (minX + maxX)) 2
    let centerZ := Int.tdiv (wrapInt32 (minZ + maxZ)) 2
    if startX ≤ centerX ∧ startZ ≤ centerZ then
      (minX, minZ, maxX, maxZ)
    else if startX > centerX ∧ startZ ≤ centerZ then
      (maxX, minZ, minX, maxZ)
    else if startX ≤ centerX ∧ startZ > centerZ then
      (minX, maxZ, maxX, minZ)
    else
      (maxX, maxZ, minX, minZ)
  else
    (minX, minZ, maxX, maxZ)

/-- The values of `thickOffset` visited by the loop
`for (thickOffset = startOffset; thickOffset <= endOffset; thickOffset++)`, lines 187-197. -/
def thicknessOffsets (diagonalThickness : Int) : List Int :=
  let startOffset := if diagonalThickness > 0 then 0 else diagonalThickness + 1
  let endOffset := if diagonalThickness > 0 then diagonalThickness - 1 else 0
  (List.range (endOffset - startOffset + 1).toNat).map fun (k : Nat) => startOffset + (k : Int)

/-- The constants of one walk of the line: the bounding box, the spans, the step signs and
the end corner. -/
structure LineParams where
  minX : Int
  minZ : Int
  maxX : Int
  maxZ : Int
  dx : Int
  dz : Int
  sx : Int
  sz : Int
  diagEndX : Int
  diagEndZ : Int
  diagonalThickness : Int

/-- The mutable variables of the `while (true)` loop.  `visited` is a ghost variable: it
records `(currentX, currentZ)` of every iteration and influences nothing. -/
structure LineState where
  cellMap : CellMap
  tileCount : Int
  err : Int
  currentX : Int
  currentZ : Int
  visited : List (Int × Int)

/-- The cell `(perpX, perpZ)` of the perpendicular run, lines 199-209: a line that is
strictly wider than high gets its thickness along Z, every other line along X. -/
def perpCell (p : LineParams) (currentX currentZ thickOffset : Int) : Int × Int :=
  if cabs p.dx > cabs p.dz then
    (currentX, currentZ + thickOffset)
  else
    (currentX + thickOffset, currentZ)

/-- Body of the thickness loop, lines 199-217: mark one cell of the perpendicular run if
it lies inside the box. -/
def markOffset (p : LineParams) (currentX currentZ : Int) (acc : CellMap × Int)
    (thickOffset : Int) : CellMap × Int :=
  let perp := perpCell p currentX currentZ thickOffset
  let cellX := perp.1 - p.minX
  let cellZ := perp.2 - p.minZ
  if cellX ≥ 0 ∧ cellX < p.maxX - p.minX + 1 ∧ cellZ ≥ 0 ∧ cellZ < p.maxZ - p.minZ + 1 then
    (acc.1.SetValue cellX.toNat cellZ.toNat true, acc.2 + 1)
  else acc

/-- The thickness loop of one iteration, lines 185-218. -/
def markThickness (p : LineParams) (currentX currentZ : Int) (acc : CellMap × Int) :
    CellMap × Int :=
  (thicknessOffsets p.diagonalThickness).foldl (markOffset p currentX currentZ) acc

/-- The update of `err`, `currentX`, `currentZ` at the end of an iteration, lines 222-232. -/
def lineAdvance (p : LineParams) (err currentX currentZ : Int) : Int × Int × Int :=
  let e2 := 2 * err
  let err1 := if e2 > -p.dz then err - p.dz else err
  let x1 := if e2 > -p.dz then currentX + p.sx else currentX
  let err2 := if e2 < p.dx then err1 + p.dx else err1
  let z1 := if e2 < p.dx then currentZ + p.sz else currentZ
  (err2, x1, z1)

/-- The `while (true)` loop of `CreateDiagonalRegion`, lines 183-233.  One unit of fuel is
one iteration; `none` means the fuel ran out before the `break`. -/
def lineLoop (p : LineParams) : Nat → LineState → Option LineState
  | 0, _ => none
  | fuel + 1, s =>
    let marked := markThickness p s.currentX s.currentZ (s.cellMap, s.tileCount)
    let seen := s.visited ++ [(s.currentX, s.currentZ)]
    if s.currentX = p.diagEndX ∧ s.currentZ = p.diagEndZ then
      some { cellMap := marked.1, tileCount := marked.2, err := s.err,
             currentX := s.currentX, currentZ := s.currentZ, visited := seen }
    else
      let next := lineAdvance p s.err s.currentX s.currentZ
      lineLoop p fuel
        { cellMap := marked.1, tileCount := marked.2, err := next.1,
          currentX := next.2.1, currentZ := next.2.2, visited := seen }

/-- The parameters of the walk as computed in lines 121-176. -/
def lineParams (x1 z1 x2 z2 startX startZ diagonalThickness : Int) : LineParams :=
  let minX := min x1 x2
  let maxX := max x1 x2
  let minZ := min z1 z2
  let maxZ := max z1 z2
  let ends := diagonalEndpoints minX minZ maxX maxZ startX startZ
  let diagStartX := ends.1
  let diagStartZ := ends.2.1
  let diagEndX := ends.2.2.1
  let diagEndZ := ends.2.2.2
  { minX := minX, minZ := minZ, maxX := maxX, maxZ := maxZ
    dx := cabs (diagEndX - diagStartX)
    dz := cabs (diagEndZ - diagStartZ)
    sx := if diagStartX < diagEndX then 1 else -1
    sz := if diagStartZ < diagEndZ then 1 else -1
    diagEndX := diagEndX
    diagEndZ := diagEndZ
    diagonalThickness := diagonalThickness }

/-- The whole of `CreateDiagonalRegion` with its loop variables at the `break`; the
global `diagonalThickness` it reads is the last argument.  Returns the region and the
final loop state (with the ghost list of traced cells). -/
def CreateDiagonalRegionRun (fuel : Nat) (x1 z1 x2 z2 startX startZ diagonalThickness : Int) :
    Option (SC4CellRegion × LineState) :=
  let p := lineParams x1 z1 x2 z2 startX startZ diagonalThickness
  let region := SC4CellRegion.create p.minX p.minZ p.maxX p.maxZ false
  let ends := diagonalEndpoints p.minX p.minZ p.maxX p.maxZ startX startZ
  let s0 : LineState :=
    { cellMap := region.cellMap, tileCount := 0, err := p.dx - p.dz
      currentX := ends.1, currentZ := ends.2.1, visited := [] }
  (lineLoop p fuel s0).map fun s => ({ bounds := region.bounds, cellMap := s.cellMap }, s)

/-- Embedding of `CreateDiagonalRegion(x1, z1, x2, z2, startX, startZ)`, lines 118-236,
reading the global `diagonalThickness`. -/
def CreateDiagonalRegion (fuel : Nat) (x1 z1 x2 z2 startX startZ diagonalThickness : Int) :
    Option SC4CellRegion :=
  (CreateDiagonalRegionRun fuel x1 z1 x2 z2 startX startZ diagonalThickness).map Prod.fst

/-- The cells `(currentX, currentZ)` traced by the line walk of `CreateDiagonalRegion`, in
order. -/
def CreateDiagonalTrace (fuel : Nat) (x1 z1 x2 z2 startX startZ diagonalThickness : Int) :
    Option (List (Int × Int)) :=
  (CreateDiagonalRegionRun fuel x1 z1 x2 z2 startX startZ diagonalThickness).map
    fun r => r.2.visited

/-! ## Predicates used in the statements -/

/-- A map whose dimensions are those of the box of the walk. -/
def boxDims (p : LineParams) (m : CellMap) : Prop :=
  m.width = (p.maxX - p.minX + 1).toNat ∧ m.height = (p.maxZ - p.minZ + 1).toNat

/-- The cell `c` lies in the box of the walk and has map indices `(u, v)`. -/
def cellAt (p : LineParams) (c : Int × Int) (u v : Nat) : Prop :=
  p.minX ≤ c.1 ∧ c.1 ≤ p.maxX ∧ p.minZ ≤ c.2 ∧ c.2 ≤ p.maxZ ∧
    (u : Int) = c.1 - p.minX ∧ (v : Int) = c.2 - p.minZ

/-- The line walk of `CreateDiagonalRegion` returns, its first traced cell is `a` and its
last traced cell is `b`: the line is traced from `a` to `b`. -/
def tracesLine (fuel : Nat) (x1 z1 x2 z2 startX startZ diagonalThickness : Int)
    (a b : Int × Int) : Prop :=
  ∃ tr, CreateDiagonalTrace fuel x1 z1 x2 z2 startX startZ diagonalThickness = some tr ∧
    tr.head? = some a ∧ tr.getLast? = some b

/-! ## Mode state and hook handlers -/

/-- The enum `OccupantFilterType`, lines 103-108. -/
inductive OccupantFilterType where
  | None
  | Flora
  | Network
deriving DecidableEq, Repr

/-- The values of the enum `BulldozeCursor`.  The enum is declared in
`cSC4ViewInputControlDemolishHooks.h`, which is not part of the sources, so the numeric
values are parameters of the embedding. -/
structure BulldozeCursorIds where
  BulldozeCursorDefault : Nat
  BulldozeCursorDefaultDiagonal : Nat
  BulldozeCursorFlora : Nat
  BulldozeCursorFloraDiagonal : Nat
  BulldozeCursorNetwork : Nat
  BulldozeCursorNetworkDiagonal : Nat
deriving DecidableEq, Repr

/-- The five `case` labels of the `switch` in `Activate` are pairwise different; C++
rejects a `switch` with two equal labels. -/
def BulldozeCursorIds.caseLabelsDistinct (ids : BulldozeCursorIds) : Prop :=
  [ids.BulldozeCursorFlora, ids.BulldozeCursorFloraDiagonal, ids.BulldozeCursorNetwork,
    ids.BulldozeCursorNetworkDiagonal, ids.BulldozeCursorDefaultDiagonal].Nodup

instance (ids : BulldozeCursorIds) : Decidable ids.caseLabelsDistinct := by
  unfold BulldozeCursorIds.caseLabelsDistinct
  infer_instance

/-- The file-level variables `occupantFilterType`, `diagonalMode`, `diagonalThickness` and
`currentViewControl`, lines 110-114.  A control instance is identified by its address. -/
structure ModeState where
  occupantFilterType : OccupantFilterType
  diagonalMode : Bool
  diagonalThickness : Int
  currentViewControl : Option Nat
deriving DecidableEq, Repr

/-- The values of the file-level variables at load time, lines 110-114. -/
def ModeState.initial : ModeState :=
  { occupantFilterType := OccupantFilterType.None
    diagonalMode := false
    diagonalThickness := 1
    currentViewControl := none }

/-- The variable `maxDiagonalThickness`, line 113; it is never assigned. -/
def maxDiagonalThickness : Int := 9

/-- The fields of the host object `cSC4ViewInputControlDemolish` (lines 51-89) that the
handlers read or write. -/
structure cSC4ViewInputControlDemolish where
  cursorIID : Nat
  bCellPicked : Bool
  clickX : Int
  clickZ : Int
  pCellRegion : Option SC4CellRegion

/-- A call into the host executable, with the address of the control it is made on. -/
inductive HostCall where
  | SetCursor (pThis : Nat) (cursor : Nat)
  | UpdateSelectedRegion (pThis : Nat)
  | EndInput (pThis : Nat)
deriving DecidableEq, Repr

/-- What a handler leaves behind: the file-level variables, the fields of the control and
the host calls it made, in order. -/
structure HookOutcome where
  mode : ModeState
  ctl : cSC4ViewInputControlDemolish
  calls : List HostCall

/-- Conversion `static_cast<uint32_t>` of an `int32_t`. -/
def toUInt32 (v : Int) : Nat := (v % 4294967296).toNat

/-- The copy loops of lines 313-320: every cell `(x, z)` with `x < width`, `z < height` of
the existing map is overwritten with the value of the diagonal map. -/
def copyCellMap (existingCellMap diagonalCellMap : CellMap) (width height : Nat) : CellMap :=
  (List.range width).foldl
    (fun m x => (List.range height).foldl
      (fun m z => m.SetValue x z (diagonalCellMap.GetValue x z)) m)
    existingCellMap

/-- The cursor chosen by the `switch` of lines 259-277. -/
def cursorFor (ids : BulldozeCursorIds) (type : OccupantFilterType) (diagonalMode : Bool) :
    Nat :=
  match type with
  | OccupantFilterType.Flora =>
    if diagonalMode then ids.BulldozeCursorFloraDiagonal else ids.BulldozeCursorFlora
  | OccupantFilterType.Network =>
    if diagonalMode then ids.BulldozeCursorNetworkDiagonal else ids.BulldozeCursorNetwork
  | OccupantFilterType.None =>
    if diagonalMode then ids.BulldozeCursorDefaultDiagonal else ids.BulldozeCursorDefault

/-- The in-place rewrite of the host region, lines 282-322: compute the diagonal region
over the bounds of the host region with the click anchor, and copy it into the host map if
the bounds agree. -/
def rewriteRegion (fuel : Nat) (region : SC4CellRegion) (clickX clickZ diagonalThickness : Int) :
    Option SC4CellRegion :=
  let bounds := region.bounds
  match CreateDiagonalRegion fuel bounds.topLeftX bounds.topLeftY bounds.bottomRightX
      bounds.bottomRightY clickX clickZ diagonalThickness with
  | none => none
  | some diagonalRegion =>
    let width := toUInt32 (bounds.bottomRightX - bounds.topLeftX + 1)
    let height := toUInt32 (bounds.bottomRightY - bounds.topLeftY + 1)
    if region.bounds.topLeftX = diagonalRegion.bounds.topLeftX ∧
        region.bounds.topLeftY = diagonalRegion.bounds.topLeftY ∧
        region.bounds.bottomRightX = diagonalRegion.bounds.bottomRightX ∧
        region.bounds.bottomRightY = diagonalRegion.bounds.bottomRightY then
      some { bounds := region.bounds
             cellMap := copyCellMap region.cellMap diagonalRegion.cellMap width height }
    else
      some region

/-- Embedding of `SetOccupantFilterOption(pThis, type, diagonal)`, lines 248-327. -/
def SetOccupantFilterOption (ids : BulldozeCursorIds) (fuel : Nat) (mode : ModeState)
    (pThis : Nat) (ctl : cSC4ViewInputControlDemolish) (type : OccupantFilterType)
    (diagonal : Bool) : Option HookOutcome :=
  let mode1 : ModeState := { mode with currentViewControl := some pThis }
  if mode1.occupantFilterType ≠ type ∨ mode1.diagonalMode ≠ diagonal then
    let mode2 : ModeState := { mode1 with occupantFilterType := type, diagonalMode := diagonal }
    let setCursor := HostCall.SetCursor pThis
      (cursorFor ids mode2.occupantFilterType mode2.diagonalMode)
    if ctl.bCellPicked then
      match (if diagonal then ctl.pCellRegion else none) with
      | some region =>
        match rewriteRegion fuel region ctl.clickX ctl.clickZ mode2.diagonalThickness with
        | none => none
        | some region1 =>
          some { mode := mode2
                 ctl := { ctl with pCellRegion := some region1 }
                 calls := [setCursor, HostCall.UpdateSelectedRegion pThis] }
      | none =>
        some { mode := mode2, ctl := ctl
               calls := [setCursor, HostCall.UpdateSelectedRegion pThis] }
    else
      some { mode := mode2, ctl := ctl, calls := [setCursor] }
  else
    some { mode := mode1, ctl := ctl, calls := [] }

/-- The enum `ModifierKeysFlags`, lines 329-336. -/
def ModifierKeyFlagNone : Nat := 0

/-- The Shift bit of `ModifierKeysFlags`. -/
def ModifierKeyFlagShift : Nat := 1

/-- The Control bit of `ModifierKeysFlags`. -/
def ModifierKeyFlagControl : Nat := 2

/-- The Alt bit of `ModifierKeysFlags`. -/
def ModifierKeyFlagAlt : Nat := 4

/-- All three modifier bits of `ModifierKeysFlags`. -/
def ModifierKeyFlagAll : Nat :=
  ModifierKeyFlagShift ||| ModifierKeyFlagControl ||| ModifierKeyFlagAlt

/-- The new value of `diagonalThickness` after a wheel notch, lines 352-363. -/
def wheelThickness (diagonalThickness wheelDelta : Int) : Int :=
  if wheelDelta > 0 then
    if diagonalThickness = -1 then 1
    else min (diagonalThickness + 1) maxDiagonalThickness
  else if wheelDelta < 0 then
    if diagonalThickness = 1 then -1
    else max (diagonalThickness - 1) (-maxDiagonalThickness)
  else diagonalThickness

/-- Embedding of `OnMouseWheelHook(pThis, x, z, modifiers, wheelDelta)`, lines 338-384.
The first component of the result is the returned flag.  The host call
`UpdateSelectedRegion(pThis)` of line 374 is recorded only; `OnMouseWheelHookRedraw` runs
the host routine as well. -/
def OnMouseWheelHook (ids : BulldozeCursorIds) (fuel : Nat) (mode : ModeState) (pThis : Nat)
    (ctl : cSC4ViewInputControlDemolish) (x z : Int) (modifiers : Nat) (wheelDelta : Int) :
    Option (Bool × HookOutcome) :=
  if mode.diagonalMode = true ∧ (modifiers &&& ModifierKeyFlagAlt) ≠ 0 then
    let oldThickness := mode.diagonalThickness
    let mode1 : ModeState :=
      { mode with diagonalThickness := wheelThickness mode.diagonalThickness wheelDelta }
    if mode1.diagonalThickness ≠ oldThickness then
      if ctl.bCellPicked = true ∧ ctl.pCellRegion.isSome = true then
        match SetOccupantFilterOption ids fuel mode1 pThis ctl mode1.occupantFilterType
            mode1.diagonalMode with
        | none => none
        | some out =>
          some (true, { mode := out.mode, ctl := out.ctl
                        calls := out.calls ++ [HostCall.UpdateSelectedRegion pThis] })
      else
        some (true, { mode := mode1, ctl := ctl, calls := [] })
    else
      some (true, { mode := mode1, ctl := ctl, calls := [] })
  else
    some (false, { mode := mode, ctl := ctl, calls := [] })

/-- The Windows virtual key code `VK_ESCAPE`. -/
def VK_ESCAPE : Int := 27

/-- The character constant `'B'`. -/
def keyB : Int := 66

/-- Embedding of `OnKeyDownHook(pThis, vkCode, modifiers)`, lines 386-435.  `isOnTop` is
the answer of the host function `IsOnTop(pThis)`; the first component of the result is
`handled`. -/
def OnKeyDownHook (ids : BulldozeCursorIds) (fuel : Nat) (mode : ModeState) (pThis : Nat)
    (ctl : cSC4ViewInputControlDemolish) (isOnTop : Bool) (vkCode modifiers : Int) :
    Option (Bool × HookOutcome) :=
  if isOnTop then
    if vkCode = VK_ESCAPE then
      if ctl.bCellPicked then
        some (true, { mode := mode, ctl := ctl, calls := [HostCall.EndInput pThis] })
      else
        some (false, { mode := mode, ctl := ctl, calls := [] })
    else if vkCode = keyB then
      let activeModifiers : Nat := toUInt32 modifiers &&& ModifierKeyFlagAll
      let isDiagonal : Bool :=
        decide ((activeModifiers &&& ModifierKeyFlagAlt) = ModifierKeyFlagAlt)
      if activeModifiers = ModifierKeyFlagNone then
        (SetOccupantFilterOption ids fuel mode pThis ctl OccupantFilterType.None false).map
          fun out => (true, out)
      else if activeModifiers = ModifierKeyFlagAlt then
        (SetOccupantFilterOption ids fuel mode pThis ctl OccupantFilterType.None true).map
          fun out => (true, out)
      else if (activeModifiers &&& ModifierKeyFlagControl) = ModifierKeyFlagControl then
        (SetOccupantFilterOption ids fuel mode pThis ctl OccupantFilterType.Flora
          isDiagonal).map fun out => (true, out)
      else if (activeModifiers &&& ModifierKeyFlagShift) = ModifierKeyFlagShift then
        (SetOccupantFilterOption ids fuel mode pThis ctl OccupantFilterType.Network
          isDiagonal).map fun out => (true, out)
      else
        some (true, { mode := mode, ctl := ctl, calls := [] })
    else
      some (false, { mode := mode, ctl := ctl, calls := [] })
  else
    some (false, { mode := mode, ctl := ctl, calls := [] })

/-- Embedding of `Activate(pThis)`, lines 437-464. -/
def Activate (ids : BulldozeCursorIds) (mode : ModeState) (pThis : Nat)
    (ctl : cSC4ViewInputControlDemolish) : ModeState :=
  let mode0 : ModeState :=
    { mode with
      occupantFilterType := OccupantFilterType.None
      diagonalMode := false
      diagonalThickness := 1
      currentViewControl := some pThis }
  if ctl.cursorIID = ids.BulldozeCursorFlora then
    { mode0 with occupantFilterType := OccupantFilterType.Flora }
  else if ctl.cursorIID = ids.BulldozeCursorFloraDiagonal then
    { mode0 with occupantFilterType := OccupantFilterType.Flora, diagonalMode := true }
  else if ctl.cursorIID = ids.BulldozeCursorNetwork then
    { mode0 with occupantFilterType := OccupantFilterType.Network }
  else if ctl.cursorIID = ids.BulldozeCursorNetworkDiagonal then
    { mode0 with occupantFilterType := OccupantFilterType.Network, diagonalMode := true }
  else if ctl.cursorIID = ids.BulldozeCursorDefaultDiagonal then
    { mode0 with diagonalMode := true }
  else
    mode0

/-- The longer span of the bounds of a region: the number of steps of the line walk over
these bounds. -/
def regionSpan (r : SC4CellRegion) : Int :=
  max (max r.bounds.topLeftX r.bounds.bottomRightX - min r.bounds.topLeftX r.bounds.bottomRightX)
    (max r.bounds.topLeftY r.bounds.bottomRightY - min r.bounds.topLeftY r.bounds.bottomRightY)

/-- A wheel event: the control `OnMouseWheelHook` is called on, the fields of that control
at the time of the call, and the arguments `x`, `z`, `modifiers`, `wheelDelta`. -/
structure WheelEvent where
  pThis : Nat
  ctl : cSC4ViewInputControlDemolish
  x : Int
  z : Int
  modifiers : Nat
  wheelDelta : Int

/-- Consecutive calls of `OnMouseWheelHook`, one per event; the result is the mode state
after the last call. -/
def wheelEvents (ids : BulldozeCursorIds) (fuel : Nat) : List WheelEvent → ModeState →
    Option ModeState
  | [], mode => some mode
  | e :: es, mode =>
    match OnMouseWheelHook ids fuel mode e.pThis e.ctl e.x e.z e.modifiers e.wheelDelta with
    | none => none
    | some res => wheelEvents ids fuel es res.2.mode

/-- The mode states reachable from the load-time state by calls of `Activate`,
`OnKeyDownHook` and `OnMouseWheelHook` with arbitrary arguments, on arbitrary control
states. -/
inductive Reachable (ids : BulldozeCursorIds) : ModeState → Prop where
  | initial : Reachable ids ModeState.initial
  | activate (mode : ModeState) (pThis : Nat) (ctl : cSC4ViewInputControlDemolish) :
      Reachable ids mode → Reachable ids (Activate ids mode pThis ctl)
  | keyDown (mode : ModeState) (fuel pThis : Nat) (ctl : cSC4ViewInputControlDemolish)
      (isOnTop : Bool) (vkCode modifiers : Int) (res : Bool × HookOutcome) :
      Reachable ids mode →
      OnKeyDownHook ids fuel mode pThis ctl isOnTop vkCode modifiers = some res →
      Reachable ids res.2.mode
  | mouseWheel (mode : ModeState) (fuel pThis : Nat) (ctl : cSC4ViewInputControlDemolish)
      (x z : Int) (modifiers : Nat) (wheelDelta : Int) (res : Bool × HookOutcome) :
      Reachable ids mode →
      OnMouseWheelHook ids fuel mode pThis ctl x z modifiers wheelDelta = some res →
      Reachable ids res.2.mode

/-! ## Demolition hooks -/

/-- The enum `NetworkTypeFlags` of `NetworkOccupantFilter.h`, which is not part of the
sources; only the enumerator the sources use is named. -/
inductive NetworkTypeFlags where
  | AllTransportationNetworks
  | other (bits : Nat)
deriving DecidableEq, Repr

/-- An occupant filter pointer: null, a filter object made by `DemolishRegion` (lines
483-488), or a filter object owned by the host such as the one a call site supplies. -/
inductive OccupantFilterPtr where
  | null
  | newFloraOccupantFilter
  | newNetworkOccupantFilter (flags : NetworkTypeFlags)
  | hostFilter (address : Nat)
deriving DecidableEq, Repr

/-- The arguments the hooks pass through unchanged to the host routine: `totalCost`,
`demolishedOccupantSet`, `pDemolishEffectOccupant`, `demolishEffectX`, `demolishEffectZ`. -/
structure DemolishPassThrough where
  totalCost : Nat
  demolishedOccupantSet : Int
  pDemolishEffectOccupant : Nat
  demolishEffectX : Int
  demolishEffectZ : Int
deriving DecidableEq, Repr

/-- One call of the host routine `cISC4Demolition::DemolishRegion`, lines 494-505, with
all its arguments. -/
structure DemolishCall where
  pDemolition : Nat
  demolish : Bool
  cellRegion : SC4CellRegion
  privilegeType : Nat
  flags : Nat
  clearZonedArea : Bool
  occupantFilter : OccupantFilterPtr
  rest : DemolishPassThrough

/-- The occupant filter made by the `switch` of lines 481-492. -/
def occupantFilterFor (type : OccupantFilterType) : OccupantFilterPtr :=
  match type with
  | OccupantFilterType.Flora => OccupantFilterPtr.newFloraOccupantFilter
  | OccupantFilterType.Network =>
    OccupantFilterPtr.newNetworkOccupantFilter NetworkTypeFlags.AllTransportationNetworks
  | OccupantFilterType.None => OccupantFilterPtr.null

/-- Embedding of the helper `DemolishRegion`, lines 466-506: the call it makes and the
answer of the host routine, which is what it returns.  `host` is the host routine. -/
def DemolishRegion (mode : ModeState) (host : DemolishCall → Bool) (pDemolition : Nat)
    (demolish : Bool) (cellRegion : SC4CellRegion) (privilegeType flags : Nat)
    (clearZonedArea : Bool) (rest : DemolishPassThrough) : Bool × DemolishCall :=
  let call : DemolishCall :=
    { pDemolition := pDemolition
      demolish := demolish
      cellRegion := cellRegion
      privilegeType := privilegeType
      flags := flags
      clearZonedArea := clearZonedArea
      occupantFilter := occupantFilterFor mode.occupantFilterType
      rest := rest }
  (host call, call)

/-- The three colour arrays of lines 525-527; the float channels are not modelled. -/
inductive PreviewColor where
  | floraColor
  | networkColor
  | normalColor
deriving DecidableEq, Repr

/-- What a demolition hook leaves behind: its return value, the fields of the control
`currentViewControl` points to, the colour written to `demolishOK` of that control (if
any) and the call of the host routine. -/
structure DemolishHookOutcome where
  result : Bool
  viewControl : cSC4ViewInputControlDemolish
  demolishOK : Option PreviewColor
  call : DemolishCall

/-- The colour chosen by the `switch` of lines 531-543. -/
def previewColorFor (type : OccupantFilterType) : PreviewColor :=
  match type with
  | OccupantFilterType.Flora => PreviewColor.floraColor
  | OccupantFilterType.Network => PreviewColor.networkColor
  | OccupantFilterType.None => PreviewColor.normalColor

/-- The copy of lines 568-594: the map of the region of the view control after the
diagonal pattern, computed over `bounds`, was copied into it if the bounds agree. -/
def previewCopy (existing : SC4CellRegion) (bounds : SC4Rect) (diagonalRegion : SC4CellRegion) :
    SC4CellRegion :=
  let width := toUInt32 (bounds.bottomRightX - bounds.topLeftX + 1)
  let height := toUInt32 (bounds.bottomRightY - bounds.topLeftY + 1)
  if existing.bounds.topLeftX = diagonalRegion.bounds.topLeftX ∧
      existing.bounds.topLeftY = diagonalRegion.bounds.topLeftY ∧
      existing.bounds.bottomRightX = diagonalRegion.bounds.bottomRightX ∧
      existing.bounds.bottomRightY = diagonalRegion.bounds.bottomRightY then
    { bounds := existing.bounds
      cellMap := copyCellMap existing.cellMap diagonalRegion.cellMap width height }
  else
    existing

/-- Embedding of the preview hook `UpdateSelectedRegionDemolishRegion`, lines 508-626.
`viewControl` holds the fields of the control `currentViewControl` points to; it is only
read when that pointer is not null.  `pOccupantFilter` is the filter argument of the call
site, `unused` the overwritten privilege argument. -/
def UpdateSelectedRegionDemolishRegion (fuel : Nat) (mode : ModeState)
    (viewControl : cSC4ViewInputControlDemolish) (host : DemolishCall → Bool)
    (pDemolition : Nat) (cellRegion : SC4CellRegion) (unused : Int) (flags : Nat)
    (clearZonedArea : Bool) (pOccupantFilter : OccupantFilterPtr)
    (rest : DemolishPassThrough) : Option DemolishHookOutcome :=
  let demolishOK : Option PreviewColor :=
    if mode.currentViewControl.isSome then some (previewColorFor mode.occupantFilterType)
    else none
  match (if mode.diagonalMode = true ∧ mode.currentViewControl.isSome = true then
      viewControl.pCellRegion else none) with
  | some existing =>
    let bounds := cellRegion.bounds
    match CreateDiagonalRegion fuel bounds.topLeftX bounds.topLeftY bounds.bottomRightX
        bounds.bottomRightY viewControl.clickX viewControl.clickZ mode.diagonalThickness with
    | none => none
    | some diagonalRegion =>
      let res := DemolishRegion mode host pDemolition false diagonalRegion 1 flags
        clearZonedArea rest
      some { result := res.1
             viewControl :=
               { viewControl with
                 pCellRegion := some (previewCopy existing bounds diagonalRegion) }
             demolishOK := demolishOK
             call := res.2 }
  | none =>
    let res := DemolishRegion mode host pDemolition false cellRegion 1 flags
      clearZonedArea rest
    some { result := res.1, viewControl := viewControl, demolishOK := demolishOK
           call := res.2 }

/-- Embedding of the commit hook `OnMouseUpLDemolishRegion`, lines 628-684, with the same
conventions as the preview hook. -/
def OnMouseUpLDemolishRegion (fuel : Nat) (mode : ModeState)
    (viewControl : cSC4ViewInputControlDemolish) (host : DemolishCall → Bool)
    (pDemolition : Nat) (cellRegion : SC4CellRegion) (unused : Int) (flags : Nat)
    (clearZonedArea : Bool) (pOccupantFilter : OccupantFilterPtr)
    (rest : DemolishPassThrough) : Option DemolishHookOutcome :=
  if mode.diagonalMode = true then
    let bounds := cellRegion.bounds
    match CreateDiagonalRegion fuel bounds.topLeftX bounds.topLeftY bounds.bottomRightX
        bounds.bottomRightY
        (if mode.currentViewControl.isSome then viewControl.clickX else -1)
        (if mode.currentViewControl.isSome then viewControl.clickZ else -1)
        mode.diagonalThickness with
    | none => none
    | some diagonalRegion =>
      let res := DemolishRegion mode host pDemolition true diagonalRegion 1 flags
        clearZonedArea rest
      some { result := res.1, viewControl := viewControl, demolishOK := none, call := res.2 }
  else
    let res := DemolishRegion mode host pDemolition true cellRegion 1 flags
      clearZonedArea rest
    some { result := res.1, viewControl := viewControl, demolishOK := none, call := res.2 }

/-! ## The redraw of the wheel handler -/

/-- The arguments with which the host routine `UpdateSelectedRegion` (0x4b93b0) reaches its
call of the demolition routine at 0x4b97ef, and the fields of the control at that moment.
The routine belongs to the host executable: what it passes is a parameter of the
embedding. -/
structure RedrawSite where
  viewControl : cSC4ViewInputControlDemolish
  host : DemolishCall → Bool
  pDemolition : Nat
  cellRegion : SC4CellRegion
  unused : Int
  flags : Nat
  clearZonedArea : Bool
  pOccupantFilter : OccupantFilterPtr
  rest : DemolishPassThrough

/-- The host call `UpdateSelectedRegion(pThis)` (line 245) in the program after `Install`:
the host routine reaches the call site 0x4b97ef, which
`InstallUpdateSelectedRegionDemolishRegionHook` (lines 686-700) redirects to the preview
hook `UpdateSelectedRegionDemolishRegion`. -/
def UpdateSelectedRegion (fuel : Nat) (mode : ModeState) (site : RedrawSite) :
    Option DemolishHookOutcome :=
  UpdateSelectedRegionDemolishRegion fuel mode site.viewControl site.host site.pDemolition
    site.cellRegion site.unused site.flags site.clearZonedArea site.pOccupantFilter site.rest

/-- The wheel handler together with the host routine it calls at line 374.  `redraw` gives,
for the fields of the control the handler leaves, the state in which the host routine
reaches the patched call site.  The result holds the returned flag, what the handler
leaves behind and, if `UpdateSelectedRegion(pThis)` was called, what the preview hook
leaves behind. -/
def OnMouseWheelHookRedraw (ids : BulldozeCursorIds) (fuel : Nat) (mode : ModeState)
    (pThis : Nat) (ctl : cSC4ViewInputControlDemolish) (x z : Int) (modifiers : Nat)
    (wheelDelta : Int) (redraw : cSC4ViewInputControlDemolish → RedrawSite) :
    Option (Bool × HookOutcome × Option DemolishHookOutcome) :=
  match OnMouseWheelHook ids fuel mode pThis ctl x z modifiers wheelDelta with
  | none => none
  | some res =>
    if HostCall.UpdateSelectedRegion pThis ∈ res.2.calls then
      match UpdateSelectedRegion fuel res.2.mode (redraw res.2.ctl) with
      | none => none
      | some preview => some (res.1, res.2, some preview)
    else
      some (res.1, res.2, none)

/-! ## Patch installer -/

/-- The five handlers whose addresses are installed. -/
inductive HookFunction where
  | OnKeyDownHook
  | OnMouseWheelHook
  | Activate
  | UpdateSelectedRegionDemolishRegion
  | OnMouseUpLDemolishRegion
deriving DecidableEq, Repr

/-- One call of the `Patcher` of `Patcher.h`, which is not part of the sources. -/
inductive PatchWrite where
  | InstallJumpTableHook (address : Nat) (hook : HookFunction)
  | OverwriteMemory (address : Nat) (value : Nat)
  | InstallCallHook (address : Nat) (hook : HookFunction)
deriving DecidableEq, Repr

/-- How a call of the `Patcher` ends: it returns after the write, it throws a
`wil::ResultException`, or it throws something else.  The `Patcher` is a parameter of the
embedding. -/
inductive PatchResult where
  | written
  | resultException
  | otherException
deriving DecidableEq, Repr

/-- A line handed to the logger by `Install`. -/
inductive LogLine where
  | installed
  | failedToInstall
  | unsupportedGameVersion (gameVersion : Nat)
deriving DecidableEq, Repr

/-- The calls of the `Patcher` made by `Install` on a supported version, in program order:
lines 744-746, then `InstallUpdateSelectedRegionDemolishRegionHook` (lines 697-699), then
`InstallOnMouseUpLDemolishRegionHook` (line 704). -/
def installWrites : List PatchWrite :=
  [ PatchWrite.InstallJumpTableHook 0xa901d8 HookFunction.OnKeyDownHook
  , PatchWrite.InstallJumpTableHook 0xa901f4 HookFunction.OnMouseWheelHook
  , PatchWrite.InstallJumpTableHook 0xa901fc HookFunction.Activate
  , PatchWrite.OverwriteMemory 0x4b97ed 0x56
  , PatchWrite.OverwriteMemory 0x4b97ee 0x50
  , PatchWrite.InstallCallHook 0x4b97ef HookFunction.UpdateSelectedRegionDemolishRegion
  , PatchWrite.InstallCallHook 0x4b9d02 HookFunction.OnMouseUpLDemolishRegion ]

/-- The statements of the `try` block up to the first exception: the writes that were
made, and how the block ended. -/
def runWrites (patcher : PatchWrite → PatchResult) :
    List PatchWrite → List PatchWrite × PatchResult
  | [] => ([], PatchResult.written)
  | w :: ws =>
    match patcher w with
    | PatchResult.written => ((w :: (runWrites patcher ws).1), (runWrites patcher ws).2)
    | PatchResult.resultException => ([], PatchResult.resultException)
    | PatchResult.otherException => ([], PatchResult.otherException)

/-- What `Install` leaves behind: the returned flag (`none` when an exception leaves the
function), the writes made and the lines logged. -/
structure InstallOutcome where
  returned : Option Bool
  writes : List PatchWrite
  log : List LogLine
deriving DecidableEq, Repr

/-- Embedding of `cSC4ViewInputControlDemolishHooks::Install`, lines 733-770.
`gameVersion` is the answer of `GetGameVersion`. -/
def Install (gameVersion : Nat) (patcher : PatchWrite → PatchResult) : InstallOutcome :=
  if gameVersion = 641 then
    match runWrites patcher installWrites with
    | (writes, PatchResult.written) =>
      { returned := some true, writes := writes, log := [LogLine.installed] }
    | (writes, PatchResult.resultException) =>
      { returned := some false, writes := writes, log := [LogLine.failedToInstall] }
    | (writes, PatchResult.otherException) =>
      { returned := none, writes := writes, log := [] }
  else
    { returned := some false, writes := [], log := [LogLine.unsupportedGameVersion gameVersion] }

/-! ## Patch installer: the calls made -/

/-- The calls of the `Patcher` made by the statements of the `try` block, in order: every
call up to and including the first one that throws (ghost trace of `runWrites`). -/
def attemptedWrites (patcher : PatchWrite → PatchResult) : List PatchWrite → List PatchWrite
  | [] => []
  | w :: ws =>
    match patcher w with
    | PatchResult.written => w :: attemptedWrites patcher ws
    | PatchResult.resultException => [w]
    | PatchResult.otherException => [w]

/-- The calls of the `Patcher` made by `Install`, lines 733-770: none on an unsupported
version. -/
def InstallAttempts (gameVersion : Nat) (patcher : PatchWrite → PatchResult) :
    List PatchWrite :=
  if gameVersion = 641 then attemptedWrites patcher installWrites else []

/-- The handler a call of the `Patcher` redirects the host to, if it installs one. -/
def PatchWrite.installedHook : PatchWrite → Option HookFunction
  | PatchWrite.InstallJumpTableHook _ hook => some hook
  | PatchWrite.OverwriteMemory _ _ => none
  | PatchWrite.InstallCallHook _ hook => some hook

/-! ## The in-place copy: index pairs -/

/-- The index pairs `(x, z)` at which the copy loops of lines 313-320 and 585-592 call
`GetValue` on the diagonal map and `SetValue` on the host map, in order. -/
def copyIndices (width height : Nat) : List (Nat × Nat) :=
  (List.range width).flatMap fun x => (List.range height).map fun z => (x, z)

/-- The index pairs accessed by the in-place rewrite of lines 282-322 (ghost trace of
`rewriteRegion`): those of the copy loops when the bounds agree, none otherwise. -/
def rewriteIndices (fuel : Nat) (region : SC4CellRegion) (clickX clickZ diagonalThickness : Int) :
    Option (List (Nat × Nat)) :=
  let bounds := region.bounds
  match CreateDiagonalRegion fuel bounds.topLeftX bounds.topLeftY bounds.bottomRightX
      bounds.bottomRightY clickX clickZ diagonalThickness with
  | none => none
  | some diagonalRegion =>
    let width := toUInt32 (bounds.bottomRightX - bounds.topLeftX + 1)
    let height := toUInt32 (bounds.bottomRightY - bounds.topLeftY + 1)
    if region.bounds.topLeftX = diagonalRegion.bounds.topLeftX ∧
        region.bounds.topLeftY = diagonalRegion.bounds.topLeftY ∧
        region.bounds.bottomRightX = diagonalRegion.bounds.bottomRightX ∧
        region.bounds.bottomRightY = diagonalRegion.bounds.bottomRightY then
      some (copyIndices width height)
    else
      some []

/-- The index pairs accessed by the copy of lines 568-594 (ghost trace of `previewCopy`). -/
def previewCopyIndices (existing : SC4CellRegion) (bounds : SC4Rect)
    (diagonalRegion : SC4CellRegion) : List (Nat × Nat) :=
  let width := toUInt32 (bounds.bottomRightX - bounds.topLeftX + 1)
  let height := toUInt32 (bounds.bottomRightY - bounds.topLeftY + 1)
  if existing.bounds.topLeftX = diagonalRegion.bounds.topLeftX ∧
      existing.bounds.topLeftY = diagonalRegion.bounds.topLeftY ∧
      existing.bounds.bottomRightX = diagonalRegion.bounds.bottomRightX ∧
      existing.bounds.bottomRightY = diagonalRegion.bounds.bottomRightY then
    copyIndices width height
  else
    []

/-- An index pair lies within the dimensions of a map. -/
def CellMap.inRange (m : CellMap) (c : Nat × Nat) : Prop :=
  c.1 < m.width ∧ c.2 < m.height

instance (m : CellMap) (c : Nat × Nat) : Decidable (m.inRange c) := by
  unfold CellMap.inRange
  infer_instance

/-- The index pairs accessed by the copy loops in a call of `SetOccupantFilterOption`
(ghost trace, lines 248-327): those of the in-place rewrite when it runs, none otherwise. -/
def SetOccupantFilterOptionIndices (fuel : Nat) (mode : ModeState)
    (ctl : cSC4ViewInputControlDemolish) (type : OccupantFilterType) (diagonal : Bool) :
    Option (List (Nat × Nat)) :=
  if mode.occupantFilterType ≠ type ∨ mode.diagonalMode ≠ diagonal then
    if ctl.bCellPicked then
      match (if diagonal then ctl.pCellRegion else none) with
      | some region => rewriteIndices fuel region ctl.clickX ctl.clickZ mode.diagonalThickness
      | none => some []
    else
      some []
  else
    some []

/-- The index pairs accessed by the copy loops in a call of the preview hook
`UpdateSelectedRegionDemolishRegion` (ghost trace, lines 508-626). -/
def UpdateSelectedRegionDemolishRegionIndices (fuel : Nat) (mode : ModeState)
    (viewControl : cSC4ViewInputControlDemolish) (cellRegion : SC4CellRegion) :
    Option (List (Nat × Nat)) :=
  match (if mode.diagonalMode = true ∧ mode.currentViewControl.isSome = true then
      viewControl.pCellRegion else none) with
  | some existing =>
    let bounds := cellRegion.bounds
    match CreateDiagonalRegion fuel bounds.topLeftX bounds.topLeftY bounds.bottomRightX
        bounds.bottomRightY viewControl.clickX viewControl.clickZ mode.diagonalThickness with
    | none => none
    | some diagonalRegion => some (previewCopyIndices existing bounds diagonalRegion)
  | none => some []

/-! ## The director -/

/-- The message type `kSC4MessagePostCityInit`, line 48 of
`BulldozeExtensionsDllDirector.cpp`. -/
def kSC4MessagePostCityInit : Nat := 0x26D31EC1

/-- The message type `kSC4MessagePreCityShutdown`, line 49. -/
def kSC4MessagePreCityShutdown : Nat := 0x26D31EC2

/-- The message type `kSC4MessageCityEstablished`, line 50. -/
def kSC4MessageCityEstablished : Nat := 0x26D31EC4

/-- The shortcut message `BulldozeDiagonalShortcutID`, line 52. -/
def BulldozeDiagonalShortcutID : Nat := 0x6A935D37

/-- The shortcut message `BulldozeFloraShortcutID`, line 53. -/
def BulldozeFloraShortcutID : Nat := 0x755C6E40

/-- The shortcut message `BulldozeFloraDiagonalShortcutID`, line 54. -/
def BulldozeFloraDiagonalShortcutID : Nat := 0x755C6E41

/-- The shortcut message `BulldozeNetworkShortcutID`, line 55. -/
def BulldozeNetworkShortcutID : Nat := 0x5ECED6AE

/-- The shortcut message `BulldozeNetworkDiagonalShortcutID`, line 56. -/
def BulldozeNetworkDiagonalShortcutID : Nat := 0x5ECED6AF

/-- The constant `BulldozeControlID` of `ActivateBulldozeTool`, line 75. -/
def BulldozeControlID : Nat := 0x46ddb5f1

/-- The answers of the host that the director and `CreateViewInputControl` read.  The host
is a parameter of the embedding. -/
structure DirectorHost where
  /-- The answer of `GetID` on the control that `GetCurrentViewInputControl` returns, `none`
  when that control is null. -/
  currentControlID : Option Nat
  /-- The address returned by `Allocate` of the allocator service, `none` when the service
  is missing or the allocation returns null. -/
  allocated : Option Nat
  /-- The fields of a control after the host constructor and `Init` ran on it. -/
  constructed : cSC4ViewInputControlDemolish
  /-- The host method `SetCursor` as a function on the fields of a control. -/
  SetCursor : cSC4ViewInputControlDemolish → Nat → cSC4ViewInputControlDemolish
  /-- The 3D view that the window lookups of `PostCityInit` yield, `none` when one of them
  fails. -/
  foundView3D : Option Nat

/-- A call into the host made by the director; a control is given by its address and its
fields, `none` is the null instance. -/
inductive DirectorCall where
  | SetCurrentViewInputControlRemoveAllControls (pView3D : Nat)
      (pControl : Option (Nat × cSC4ViewInputControlDemolish))
  | Release (pView3D : Nat)

/-- What `DoMessage` leaves behind: the returned flag, the member `pView3D` and the calls
made on the 3D view, in order.  Calls on the message server and the resource manager are
not recorded. -/
structure DirectorOutcome where
  returned : Bool
  pView3D : Option Nat
  calls : List DirectorCall

/-- Embedding of `cSC4ViewInputControlDemolishHooks::CreateViewInputControl(cursor)`, lines
707-731 of `cSC4ViewInputControlDemolishHooks.cpp`: the address and the fields of the new
control, `none` for the null instance. -/
def CreateViewInputControl (host : DirectorHost) (cursor : Nat) :
    Option (Nat × cSC4ViewInputControlDemolish) :=
  match host.allocated with
  | some pControl => some (pControl, host.SetCursor host.constructed cursor)
  | none => none

/-- Embedding of `ActivateBulldozeTool(cursorID)`, lines 71-86: the calls it makes. -/
def ActivateBulldozeTool (host : DirectorHost) (pView3D : Option Nat) (cursorID : Nat) :
    List DirectorCall :=
  match pView3D with
  | some view =>
    if host.currentControlID = none ∨ host.currentControlID ≠ some BulldozeControlID then
      [DirectorCall.SetCurrentViewInputControlRemoveAllControls view
        (CreateViewInputControl host cursorID)]
    else
      []
  | none => []

/-- The member `pView3D` after `PostCityInit`, lines 143-184: `GetChildAs` stores the view
when every lookup succeeds. -/
def PostCityInit (host : DirectorHost) (pView3D : Option Nat) : Option Nat :=
  match host.foundView3D with
  | some view => some view
  | none => pView3D

/-- Embedding of `PreCityShutdown`, lines 186-197: `pView3D` is cleared and the view it
pointed to is released. -/
def PreCityShutdown (pView3D : Option Nat) : Option Nat × List DirectorCall :=
  match pView3D with
  | some localView3D => (none, [DirectorCall.Release localView3D])
  | none => (none, [])

/-- Embedding of `DoMessage(pMsg)`, lines 199-229; `msgType` is the answer of
`pMsg->GetType()`. -/
def DoMessage (ids : BulldozeCursorIds) (host : DirectorHost) (pView3D : Option Nat)
    (msgType : Nat) : DirectorOutcome :=
  if msgType = kSC4MessageCityEstablished then
    { returned := true, pView3D := pView3D, calls := [] }
  else if msgType = kSC4MessagePostCityInit then
    { returned := true, pView3D := PostCityInit host pView3D, calls := [] }
  else if msgType = kSC4MessagePreCityShutdown then
    { returned := true, pView3D := (PreCityShutdown pView3D).1
      calls := (PreCityShutdown pView3D).2 }
  else if msgType = BulldozeDiagonalShortcutID then
    { returned := true, pView3D := pView3D
      calls := ActivateBulldozeTool host pView3D ids.BulldozeCursorDefaultDiagonal }
  else if msgType = BulldozeFloraShortcutID then
    { returned := true, pView3D := pView3D
      calls := ActivateBulldozeTool host pView3D ids.BulldozeCursorFlora }
  else if msgType = BulldozeFloraDiagonalShortcutID then
    { returned := true, pView3D := pView3D
      calls := ActivateBulldozeTool host pView3D ids.BulldozeCursorFloraDiagonal }
  else if msgType = BulldozeNetworkShortcutID then
    { returned := true, pView3D := pView3D
      calls := ActivateBulldozeTool host pView3D ids.BulldozeCursorNetwork }
  else if msgType = BulldozeNetworkDiagonalShortcutID then
    { returned := true, pView3D := pView3D
      calls := ActivateBulldozeTool host pView3D ids.BulldozeCursorNetworkDiagonal }
  else
    { returned := true, pView3D := pView3D, calls := [] }

/-! ## Sample data and reference tables -/

/-- Cursor identifiers 1..6 used in the witnesses. -/
def sampleIds : BulldozeCursorIds :=
  { BulldozeCursorDefault := 1
    BulldozeCursorDefaultDiagonal := 2
    BulldozeCursorFlora := 3
    BulldozeCursorFloraDiagonal := 4
    BulldozeCursorNetwork := 5
    BulldozeCursorNetworkDiagonal := 6 }

/-- A control with an active selection over the box (0,0)-(4,4) clicked at (1,1). -/
def sampleControl : cSC4ViewInputControlDemolish :=
  { cursorIID := 2
    bCellPicked := true
    clickX := 1
    clickZ := 1
    pCellRegion := some (SC4CellRegion.create 0 0 4 4 true) }

/-- The toggle-key table of spec section 4.2, by Shift, Ctrl and Alt: no modifier selects
(None, off), Alt alone (None, on), every set with Ctrl Flora and every set with Shift but
without Ctrl Network, diagonal iff Alt is held. -/
def toggleTable : Bool → Bool → Bool → OccupantFilterType × Bool
  | false, false, false => (OccupantFilterType.None, false)
  | false, false, true => (OccupantFilterType.None, true)
  | _, true, alt => (OccupantFilterType.Flora, alt)
  | true, false, alt => (OccupantFilterType.Network, alt)

/-- The mode state (None, diagonal on, thickness 1) with the control at address 7 current. -/
def sampleDiagonalMode : ModeState :=
  { occupantFilterType := OccupantFilterType.None
    diagonalMode := true
    diagonalThickness := 1
    currentViewControl := some 7 }

/-- A control clicked at (1,1) that owns no region. -/
def sampleControlNoRegion : cSC4ViewInputControlDemolish :=
  { cursorIID := 2
    bCellPicked := false
    clickX := 1
    clickZ := 1
    pCellRegion := none }

/-- Sample pass-through arguments of a demolition call. -/
def samplePassThrough : DemolishPassThrough :=
  { totalCost := 100
    demolishedOccupantSet := 0
    pDemolishEffectOccupant := 0
    demolishEffectX := 2
    demolishEffectZ := 3 }

/-- The five shortcut messages with the cursor each one names and the filter kind and
diagonal flag of that cursor. -/
def shortcutTable (ids : BulldozeCursorIds) : List (Nat × Nat × OccupantFilterType × Bool) :=
  [ (BulldozeDiagonalShortcutID, ids.BulldozeCursorDefaultDiagonal, OccupantFilterType.None, true)
  , (BulldozeFloraShortcutID, ids.BulldozeCursorFlora, OccupantFilterType.Flora, false)
  , (BulldozeFloraDiagonalShortcutID, ids.BulldozeCursorFloraDiagonal,
      OccupantFilterType.Flora, true)
  , (BulldozeNetworkShortcutID, ids.BulldozeCursorNetwork, OccupantFilterType.Network, false)
  , (BulldozeNetworkDiagonalShortcutID, ids.BulldozeCursorNetworkDiagonal,
      OccupantFilterType.Network, true) ]

/-- A host in which a bulldoze control is current, the allocation yields address 9 and
`SetCursor` stores the cursor id. -/
def sampleHostBulldoze : DirectorHost :=
  { currentControlID := some BulldozeControlID
    allocated := some 9
    constructed := sampleControlNoRegion
    SetCursor := fun c cursor => { c with cursorIID := cursor }
    foundView3D := none }

/-- A host in which no control is current, the allocation yields address 9 and `SetCursor`
stores the cursor id. -/
def sampleHostIdle : DirectorHost :=
  { currentControlID := none
    allocated := some 9
    constructed := sampleControlNoRegion
    SetCursor := fun c cursor => { c with cursorIID := cursor }
    foundView3D := none }

/-- The patcher that throws a `wil::ResultException` at the call hook of the preview call
site and makes every other write. -/
def samplePatcher (w : PatchWrite) : PatchResult :=
  if w = PatchWrite.InstallCallHook 0x4b97ef HookFunction.UpdateSelectedRegionDemolishRegion
  then PatchResult.resultException else PatchResult.written

/-- A host routine that reaches the call site with the control as the handler left it and
passes the rectangle (0,0)-(4,4). -/
def sampleRedraw (ctl : cSC4ViewInputControlDemolish) : RedrawSite :=
  { viewControl := ctl
    host := fun _ => true
    pDemolition := 0
    cellRegion := SC4CellRegion.create 0 0 4 4 true
    unused := 0
    flags := 0
    clearZonedArea := false
    pOccupantFilter := OccupantFilterPtr.null
    rest := samplePassThrough }

/-! ## Lemmas on the membership map -/

theorem CellMap.SetValue_width (m : CellMap) (x z : Nat) (v : Bool) :
    (m.SetValue x z v).width = m.width := by
  unfold CellMap.SetValue
  split <;> rfl

theorem CellMap.SetValue_height (m : CellMap) (x z : Nat) (v : Bool) :
    (m.SetValue x z v).height = m.height := by
  unfold CellMap.SetValue
  split <;> rfl

theorem CellMap.GetValue_SetValue (m : CellMap) (x z i j : Nat) (v : Bool) :
    (m.SetValue x z v).GetValue i j =
      if i = x ∧ j = z ∧ x < m.width ∧ z < m.height then v else m.GetValue i j := by
  unfold CellMap.SetValue CellMap.GetValue
  by_cases hb : x < m.width ∧ z < m.height
  · by_cases hij : i = x ∧ j = z
    · obtain ⟨rfl, rfl⟩ := hij
      simp [hb]
    · have h1 : ¬ (i = x ∧ j = z ∧ x < m.width ∧ z < m.height) := fun h => hij ⟨h.1, h.2.1⟩
      rw [if_pos hb, if_neg h1]
      dsimp only
      rw [if_neg hij]
  · have h1 : ¬ (i = x ∧ j = z ∧ x < m.width ∧ z < m.height) := fun h => hb h.2.2
    rw [if_neg hb, if_neg h1]

theorem markOffset_dims (p : LineParams) (cx cz : Int) (acc : CellMap × Int) (k : Int) :
    (markOffset p cx cz acc k).1.width = acc.1.width ∧
      (markOffset p cx cz acc k).1.height = acc.1.height := by
  unfold markOffset
  dsimp only
  split
  · exact ⟨CellMap.SetValue_width _ _ _ _, CellMap.SetValue_height _ _ _ _⟩
  · exact ⟨rfl, rfl⟩

theorem foldl_markOffset_dims (p : LineParams) (cx cz : Int) (ks : List Int) :
    ∀ acc : CellMap × Int,
      (ks.foldl (markOffset p cx cz) acc).1.width = acc.1.width ∧
        (ks.foldl (markOffset p cx cz) acc).1.height = acc.1.height := by
  induction ks with
  | nil => intro acc; exact ⟨rfl, rfl⟩
  | cons k ks ih =>
    intro acc
    have h1 := ih (markOffset p cx cz acc k)
    have h2 := markOffset_dims p cx cz acc k
    simp only [List.foldl_cons]
    exact ⟨h1.1.trans h2.1, h1.2.trans h2.2⟩

theorem markThickness_dims (p : LineParams) (cx cz : Int) (acc : CellMap × Int) :
    (markThickness p cx cz acc).1.width = acc.1.width ∧
      (markThickness p cx cz acc).1.height = acc.1.height :=
  foldl_markOffset_dims p cx cz _ acc

/-- Whenever the line walk returns, it stopped at the end corner, the ghost list grew by
the cells traced from the current cell on, and the map is the result of running the
thickness loop at each of them in order. -/
theorem lineLoop_spec (p : LineParams) :
    ∀ (fuel : Nat) (s r : LineState), lineLoop p fuel s = some r →
      ∃ tail : List (Int × Int),
        r.visited = s.visited ++ (s.currentX, s.currentZ) :: tail ∧
        ((s.currentX, s.currentZ) :: tail).getLast? = some (p.diagEndX, p.diagEndZ) ∧
        (r.cellMap, r.tileCount) =
          ((s.currentX, s.currentZ) :: tail).foldl
            (fun acc c => markThickness p c.1 c.2 acc) (s.cellMap, s.tileCount) := by
  intro fuel
  induction fuel with
  | zero => intro s r h; simp [lineLoop] at h
  | succ n ih =>
    intro s r h
    unfold lineLoop at h
    dsimp only at h
    split at h
    · rename_i hend
      obtain ⟨hx, hz⟩ := hend
      injection h with h
      subst h
      exact ⟨[], by simp, by simp [hx, hz], by simp⟩
    · obtain ⟨tail, h1, h2, h3⟩ := ih _ _ h
      dsimp only at h1 h2 h3
      refine ⟨((lineAdvance p s.err s.currentX s.currentZ).2.1,
        (lineAdvance p s.err s.currentX s.currentZ).2.2) :: tail, ?_, ?_, ?_⟩
      · simpa using h1
      · simpa using h2
      · simpa using h3

theorem lineLoop_dims (p : LineParams) :
    ∀ (fuel : Nat) (s r : LineState), lineLoop p fuel s = some r →
      r.cellMap.width = s.cellMap.width ∧ r.cellMap.height = s.cellMap.height := by
  intro fuel
  induction fuel with
  | zero => intro s r h; simp [lineLoop] at h
  | succ n ih =>
    intro s r h
    unfold lineLoop at h
    dsimp only at h
    have hm := markThickness_dims p s.currentX s.currentZ (s.cellMap, s.tileCount)
    split at h
    · injection h with h
      subst h
      exact hm
    · have := ih _ _ h
      exact ⟨this.1.trans hm.1, this.2.trans hm.2⟩

/-! ## Termination of the line walk -/

theorem lineLoop_at_end (p : LineParams) (fuel : Nat) (s : LineState)
    (hx : s.currentX = p.diagEndX) (hz : s.currentZ = p.diagEndZ) :
    ∃ r, lineLoop p (fuel + 1) s = some r ∧ r.visited.length = s.visited.length + 1 := by
  unfold lineLoop
  dsimp only
  rw [if_pos ⟨hx, hz⟩]
  exact ⟨_, rfl, by simp⟩

/-- Walk of a line that is at least as wide as it is high: X advances in every iteration,
so `a` remaining columns take `a` further iterations. -/
theorem lineLoop_xmajor (p : LineParams) (hsx : p.sx = 1 ∨ p.sx = -1) (hdz : 0 ≤ p.dz)
    (hle : p.dz ≤ p.dx) (hpos : 0 < p.dx) :
    ∀ (a fuel : Nat) (s : LineState) (b : Int), a < fuel →
      s.currentX + p.sx * a = p.diagEndX → s.currentZ + p.sz * b = p.diagEndZ →
      s.err = p.dx - p.dz + a * p.dz - b * p.dx →
      -p.dz < 2 * s.err → 2 * s.err < 3 * p.dx - 2 * p.dz →
      ∃ r, lineLoop p fuel s = some r ∧ r.visited.length = s.visited.length + a + 1 := by
  intro a
  induction a with
  | zero =>
    intro fuel s b hf hx hz he hlo hhi
    obtain ⟨f, rfl⟩ : ∃ f, fuel = f + 1 := ⟨fuel - 1, by omega⟩
    have hb : b = 0 := by
      simp only [Nat.cast_zero, zero_mul, add_zero] at he
      rw [he] at hlo hhi
      by_contra hne
      rcases lt_or_gt_of_ne hne with h | h
      · have : b * p.dx ≤ -1 * p.dx := by
          apply mul_le_mul_of_nonneg_right _ hpos.le
          omega
        omega
      · have : 1 * p.dx ≤ b * p.dx := by
          apply mul_le_mul_of_nonneg_right _ hpos.le
          omega
        omega
    subst hb
    simp only [Nat.cast_zero, mul_zero, add_zero] at hx hz
    simpa using lineLoop_at_end p f s hx hz
  | succ a ih =>
    intro fuel s b hf hx hz he hlo hhi
    obtain ⟨f, rfl⟩ : ∃ f, fuel = f + 1 := ⟨fuel - 1, by omega⟩
    have hne : ¬ (s.currentX = p.diagEndX ∧ s.currentZ = p.diagEndZ) := by
      rintro ⟨h, -⟩
      rw [h] at hx
      push_cast at hx
      rcases hsx with h1 | h1 <;> rw [h1] at hx <;> omega
    have hx2 : s.currentX + p.sx + p.sx * (a : Int) = p.diagEndX := by
      rw [← hx]; push_cast; ring
    have he2 : s.err - p.dz = p.dx - p.dz + (a : Int) * p.dz - b * p.dx := by
      rw [he]; push_cast; ring
    unfold lineLoop
    dsimp only
    rw [if_neg hne]
    by_cases hz2 : 2 * s.err < p.dx
    · have hadv : lineAdvance p s.err s.currentX s.currentZ =
          (s.err - p.dz + p.dx, s.currentX + p.sx, s.currentZ + p.sz) := by
        simp [lineAdvance, hlo, hz2]
      rw [hadv]
      obtain ⟨r, hr, hlen⟩ := ih f
        { cellMap := (markThickness p s.currentX s.currentZ (s.cellMap, s.tileCount)).1
          tileCount := (markThickness p s.currentX s.currentZ (s.cellMap, s.tileCount)).2
          err := s.err - p.dz + p.dx
          currentX := s.currentX + p.sx
          currentZ := s.currentZ + p.sz
          visited := s.visited ++ [(s.currentX, s.currentZ)] } (b - 1) (by omega) hx2
        (by dsimp only; rw [← hz]; ring) (by dsimp only; rw [he2]; ring)
        (by dsimp only; omega) (by dsimp only; omega)
      refine ⟨r, hr, ?_⟩
      rw [hlen]; simp; omega
    · have hadv : lineAdvance p s.err s.currentX s.currentZ =
          (s.err - p.dz, s.currentX + p.sx, s.currentZ) := by
        simp [lineAdvance, hlo, hz2]
      rw [hadv]
      obtain ⟨r, hr, hlen⟩ := ih f
        { cellMap := (markThickness p s.currentX s.currentZ (s.cellMap, s.tileCount)).1
          tileCount := (markThickness p s.currentX s.currentZ (s.cellMap, s.tileCount)).2
          err := s.err - p.dz
          currentX := s.currentX + p.sx
          currentZ := s.currentZ
          visited := s.visited ++ [(s.currentX, s.currentZ)] } b (by omega) hx2
        hz he2 (by dsimp only; omega) (by dsimp only; omega)
      refine ⟨r, hr, ?_⟩
      rw [hlen]; simp; omega

/-- Walk of a line that is at least as high as it is wide: Z advances in every iteration,
so `a` remaining rows take `a` further iterations. -/
theorem lineLoop_zmajor (p : LineParams) (hsz : p.sz = 1 ∨ p.sz = -1) (hdx : 0 ≤ p.dx)
    (hle : p.dx ≤ p.dz) (hpos : 0 < p.dz) :
    ∀ (a fuel : Nat) (s : LineState) (b : Int), a < fuel →
      s.currentZ + p.sz * a = p.diagEndZ → s.currentX + p.sx * b = p.diagEndX →
      s.err = p.dx - p.dz + b * p.dz - a * p.dx →
      2 * p.dx - 3 * p.dz < 2 * s.err → 2 * s.err < p.dx →
      ∃ r, lineLoop p fuel s = some r ∧ r.visited.length = s.visited.length + a + 1 := by
  intro a
  induction a with
  | zero =>
    intro fuel s b hf hz hx he hlo hhi
    obtain ⟨f, rfl⟩ : ∃ f, fuel = f + 1 := ⟨fuel - 1, by omega⟩
    have hb : b = 0 := by
      simp only [Nat.cast_zero, zero_mul, sub_zero] at he
      rw [he] at hlo hhi
      by_contra hne
      rcases lt_or_gt_of_ne hne with h | h
      · have : b * p.dz ≤ -1 * p.dz := by
          apply mul_le_mul_of_nonneg_right _ hpos.le
          omega
        omega
      · have : 1 * p.dz ≤ b * p.dz := by
          apply mul_le_mul_of_nonneg_right _ hpos.le
          omega
        omega
    subst hb
    simp only [Nat.cast_zero, mul_zero, add_zero] at hx hz
    simpa using lineLoop_at_end p f s hx hz
  | succ a ih =>
    intro fuel s b hf hz hx he hlo hhi
    obtain ⟨f, rfl⟩ : ∃ f, fuel = f + 1 := ⟨fuel - 1, by omega⟩
    have hne : ¬ (s.currentX = p.diagEndX ∧ s.currentZ = p.diagEndZ) := by
      rintro ⟨-, h⟩
      rw [h] at hz
      push_cast at hz
      rcases hsz with h1 | h1 <;> rw [h1] at hz <;> omega
    have hz2 : s.currentZ + p.sz + p.sz * (a : Int) = p.diagEndZ := by
      rw [← hz]; push_cast; ring
    have he2 : s.err + p.dx = p.dx - p.dz + b * p.dz - (a : Int) * p.dx := by
      rw [he]; push_cast; ring
    unfold lineLoop
    dsimp only
    rw [if_neg hne]
    by_cases hx2 : 2 * s.err > -p.dz
    · have hadv : lineAdvance p s.err s.currentX s.currentZ =
          (s.err - p.dz + p.dx, s.currentX + p.sx, s.currentZ + p.sz) := by
        simp [lineAdvance, hhi, hx2]
      rw [hadv]
      obtain ⟨r, hr, hlen⟩ := ih f
        { cellMap := (markThickness p s.currentX s.currentZ (s.cellMap, s.tileCount)).1
          tileCount := (markThickness p s.currentX s.currentZ (s.cellMap, s.tileCount)).2
          err := s.err - p.dz + p.dx
          currentX := s.currentX + p.sx
          currentZ := s.currentZ + p.sz
          visited := s.visited ++ [(s.currentX, s.currentZ)] } (b - 1) (by omega) hz2
        (by dsimp only; rw [← hx]; ring)
        (by dsimp only; rw [show s.err - p.dz + p.dx = s.err + p.dx - p.dz by ring, he2]; ring)
        (by dsimp only; omega) (by dsimp only; omega)
      refine ⟨r, hr, ?_⟩
      rw [hlen]; simp; omega
    · have hadv : lineAdvance p s.err s.currentX s.currentZ =
          (s.err + p.dx, s.currentX, s.currentZ + p.sz) := by
        simp [lineAdvance, hhi, hx2]
      rw [hadv]
      obtain ⟨r, hr, hlen⟩ := ih f
        { cellMap := (markThickness p s.currentX s.currentZ (s.cellMap, s.tileCount)).1
          tileCount := (markThickness p s.currentX s.currentZ (s.cellMap, s.tileCount)).2
          err := s.err + p.dx
          currentX := s.currentX
          currentZ := s.currentZ + p.sz
          visited := s.visited ++ [(s.currentX, s.currentZ)] } b (by omega) hz2
        hx he2 (by dsimp only; omega) (by dsimp only; omega)
      refine ⟨r, hr, ?_⟩
      rw [hlen]; simp; omega

theorem cabs_nonneg (v : Int) : 0 ≤ cabs v := by
  unfold cabs; split <;> omega

theorem step_sign (a b : Int) :
    a + (if a < b then (1 : Int) else -1) * cabs (b - a) = b := by
  unfold cabs
  split_ifs <;> omega

/-- Termination of the line walk from any start corner to any end corner: every fuel above
`max dx dz` returns, after exactly `max dx dz + 1` iterations. -/
theorem lineLoop_terminates (p : LineParams) (s : LineState)
    (hdx : p.dx = cabs (p.diagEndX - s.currentX)) (hdz : p.dz = cabs (p.diagEndZ - s.currentZ))
    (hsx : p.sx = if s.currentX < p.diagEndX then 1 else -1)
    (hsz : p.sz = if s.currentZ < p.diagEndZ then 1 else -1)
    (herr : s.err = p.dx - p.dz) (fuel : Nat) (hfuel : max p.dx p.dz < fuel) :
    ∃ r, lineLoop p fuel s = some r ∧
      r.visited.length = s.visited.length + (max p.dx p.dz).toNat + 1 := by
  have h0x : 0 ≤ p.dx := hdx ▸ cabs_nonneg _
  have h0z : 0 ≤ p.dz := hdz ▸ cabs_nonneg _
  have hsx1 : p.sx = 1 ∨ p.sx = -1 := by rw [hsx]; split <;> simp
  have hsz1 : p.sz = 1 ∨ p.sz = -1 := by rw [hsz]; split <;> simp
  have hxe : s.currentX + p.sx * p.dx = p.diagEndX := by
    rw [hsx, hdx]; exact step_sign _ _
  have hze : s.currentZ + p.sz * p.dz = p.diagEndZ := by
    rw [hsz, hdz]; exact step_sign _ _
  by_cases hle : p.dz ≤ p.dx
  · rw [max_eq_left hle] at hfuel ⊢
    by_cases hpos : 0 < p.dx
    · have hcast : ((p.dx.toNat : Nat) : Int) = p.dx := Int.toNat_of_nonneg h0x
      have := lineLoop_xmajor p hsx1 h0z hle hpos p.dx.toNat fuel s p.dz (by omega)
        (by rw [hcast]; exact hxe) hze (by rw [hcast, herr]; ring)
        (by rw [herr]; omega) (by rw [herr]; omega)
      simpa [Nat.add_assoc] using this
    · have hx0 : p.dx = 0 := by omega
      have hz0 : p.dz = 0 := by omega
      rw [hx0] at hxe hfuel ⊢
      rw [hz0] at hze
      obtain ⟨f, rfl⟩ : ∃ f, fuel = f + 1 := ⟨fuel - 1, by omega⟩
      simpa using lineLoop_at_end p f s (by simpa using hxe) (by simpa using hze)
  · have hle2 : p.dx ≤ p.dz := by omega
    have hpos : 0 < p.dz := by omega
    rw [max_eq_right hle2] at hfuel ⊢
    have hcast : ((p.dz.toNat : Nat) : Int) = p.dz := Int.toNat_of_nonneg h0z
    have := lineLoop_zmajor p hsz1 h0x hle2 hpos p.dz.toNat fuel s p.dx (by omega)
      (by rw [hcast]; exact hze) hxe (by rw [hcast, herr]; ring)
      (by rw [herr]; omega) (by rw [herr]; omega)
    simpa [Nat.add_assoc] using this

/-! ## Which cells the walk marks -/

theorem mem_thicknessOffsets (t k : Int) :
    k ∈ thicknessOffsets t ↔ (0 < t ∧ 0 ≤ k ∧ k ≤ t - 1) ∨ (t ≤ 0 ∧ t + 1 ≤ k ∧ k ≤ 0) := by
  unfold thicknessOffsets
  dsimp only
  rw [List.mem_map]
  by_cases ht : t > 0
  · simp only [if_pos ht, List.mem_range]
    constructor
    · rintro ⟨n, hn, rfl⟩
      omega
    · intro h
      exact ⟨k.toNat, by omega, by omega⟩
  · simp only [if_neg ht, List.mem_range]
    constructor
    · rintro ⟨n, hn, rfl⟩
      omega
    · intro h
      exact ⟨(k - (t + 1)).toNat, by omega, by omega⟩

theorem markOffset_get (p : LineParams) (cx cz : Int) (acc : CellMap × Int) (k : Int)
    (hd : boxDims p acc.1) (u v : Nat) :
    (markOffset p cx cz acc k).1.GetValue u v = true ↔
      acc.1.GetValue u v = true ∨ cellAt p (perpCell p cx cz k) u v := by
  unfold markOffset cellAt
  obtain ⟨hw, hh⟩ := hd
  dsimp only
  split
  · rename_i hin
    rw [CellMap.GetValue_SetValue]
    split
    · rename_i hc
      simp only [true_iff]
      right
      omega
    · rename_i hc
      constructor
      · exact Or.inl
      · rintro (h | h)
        · exact h
        · exfalso
          apply hc
          rw [hw, hh]
          omega
  · rename_i hout
    constructor
    · exact Or.inl
    · rintro (h | h)
      · exact h
      · exfalso
        apply hout
        omega

theorem foldl_markOffset_get (p : LineParams) (cx cz : Int) (u v : Nat) (ks : List Int) :
    ∀ acc : CellMap × Int, boxDims p acc.1 →
      ((ks.foldl (markOffset p cx cz) acc).1.GetValue u v = true ↔
        acc.1.GetValue u v = true ∨ ∃ k ∈ ks, cellAt p (perpCell p cx cz k) u v) := by
  induction ks with
  | nil => intro acc _; simp
  | cons k ks ih =>
    intro acc hd
    have hd2 : boxDims p (markOffset p cx cz acc k).1 := by
      have := markOffset_dims p cx cz acc k
      exact ⟨this.1.trans hd.1, this.2.trans hd.2⟩
    rw [List.foldl_cons, ih _ hd2, markOffset_get p cx cz acc k hd]
    simp only [List.mem_cons, exists_eq_or_imp, or_assoc]

theorem markThickness_get (p : LineParams) (cx cz : Int) (acc : CellMap × Int)
    (hd : boxDims p acc.1) (u v : Nat) :
    (markThickness p cx cz acc).1.GetValue u v = true ↔
      acc.1.GetValue u v = true ∨
        ∃ k ∈ thicknessOffsets p.diagonalThickness, cellAt p (perpCell p cx cz k) u v :=
  foldl_markOffset_get p cx cz u v _ acc hd

theorem foldl_markThickness_get (p : LineParams) (u v : Nat) (cs : List (Int × Int)) :
    ∀ acc : CellMap × Int, boxDims p acc.1 →
      ((cs.foldl (fun a c => markThickness p c.1 c.2 a) acc).1.GetValue u v = true ↔
        acc.1.GetValue u v = true ∨
          ∃ c ∈ cs, ∃ k ∈ thicknessOffsets p.diagonalThickness,
            cellAt p (perpCell p c.1 c.2 k) u v) := by
  induction cs with
  | nil => intro acc _; simp
  | cons c cs ih =>
    intro acc hd
    have hd2 : boxDims p (markThickness p c.1 c.2 acc).1 := by
      have := markThickness_dims p c.1 c.2 acc
      exact ⟨this.1.trans hd.1, this.2.trans hd.2⟩
    rw [List.foldl_cons, ih _ hd2, markThickness_get p c.1 c.2 acc hd]
    simp only [List.mem_cons, exists_eq_or_imp, or_assoc]

/-! ## The whole of CreateDiagonalRegion -/

theorem diagonalEndpoints_corners (minX minZ maxX maxZ startX startZ : Int) :
    ((diagonalEndpoints minX minZ maxX maxZ startX startZ).1 = minX ∧
        (diagonalEndpoints minX minZ maxX maxZ startX startZ).2.2.1 = maxX ∨
      (diagonalEndpoints minX minZ maxX maxZ startX startZ).1 = maxX ∧
        (diagonalEndpoints minX minZ maxX maxZ startX startZ).2.2.1 = minX) ∧
    ((diagonalEndpoints minX minZ maxX maxZ startX startZ).2.1 = minZ ∧
        (diagonalEndpoints minX minZ maxX maxZ startX startZ).2.2.2 = maxZ ∨
      (diagonalEndpoints minX minZ maxX maxZ startX startZ).2.1 = maxZ ∧
        (diagonalEndpoints minX minZ maxX maxZ startX startZ).2.2.2 = minZ) := by
  unfold diagonalEndpoints
  dsimp only
  split_ifs <;> simp

theorem lineParams_dx (x1 z1 x2 z2 startX startZ t : Int) :
    (lineParams x1 z1 x2 z2 startX startZ t).dx = max x1 x2 - min x1 x2 := by
  have h := (diagonalEndpoints_corners (min x1 x2) (min z1 z2) (max x1 x2) (max z1 z2)
    startX startZ).1
  unfold lineParams cabs
  dsimp only
  rcases h with ⟨h1, h2⟩ | ⟨h1, h2⟩ <;> rw [h1, h2] <;> split_ifs <;> omega

theorem lineParams_dz (x1 z1 x2 z2 startX startZ t : Int) :
    (lineParams x1 z1 x2 z2 startX startZ t).dz = max z1 z2 - min z1 z2 := by
  have h := (diagonalEndpoints_corners (min x1 x2) (min z1 z2) (max x1 x2) (max z1 z2)
    startX startZ).2
  unfold lineParams cabs
  dsimp only
  rcases h with ⟨h1, h2⟩ | ⟨h1, h2⟩ <;> rw [h1, h2] <;> split_ifs <;> omega

/-- Every run of `CreateDiagonalRegion` with more fuel than the longer span of the box
returns.  The region has the bounds and dimensions of the box, the walk starts at the
start corner and stops at the end corner after `max dx dz + 1` iterations, and a map entry
is set iff it is a cell of some perpendicular run that falls inside the box. -/
theorem CreateDiagonalRegionRun_spec (x1 z1 x2 z2 startX startZ t : Int) (fuel : Nat)
    (hfuel : max (max x1 x2 - min x1 x2) (max z1 z2 - min z1 z2) < fuel) :
    ∃ (r : SC4CellRegion) (s : LineState) (tail : List (Int × Int)),
      CreateDiagonalRegionRun fuel x1 z1 x2 z2 startX startZ t = some (r, s) ∧
      r.bounds = { topLeftX := min x1 x2, topLeftY := min z1 z2,
                   bottomRightX := max x1 x2, bottomRightY := max z1 z2 } ∧
      r.cellMap.width = (max x1 x2 - min x1 x2 + 1).toNat ∧
      r.cellMap.height = (max z1 z2 - min z1 z2 + 1).toNat ∧
      s.visited =
        ((diagonalEndpoints (min x1 x2) (min z1 z2) (max x1 x2) (max z1 z2) startX startZ).1,
         (diagonalEndpoints (min x1 x2) (min z1 z2) (max x1 x2) (max z1 z2) startX startZ).2.1)
          :: tail ∧
      s.visited.getLast? = some
        ((diagonalEndpoints (min x1 x2) (min z1 z2) (max x1 x2) (max z1 z2) startX startZ).2.2.1,
         (diagonalEndpoints (min x1 x2) (min z1 z2) (max x1 x2) (max z1 z2) startX startZ).2.2.2) ∧
      s.visited.length = (max (max x1 x2 - min x1 x2) (max z1 z2 - min z1 z2)).toNat + 1 ∧
      ∀ u v : Nat, r.cellMap.GetValue u v = true ↔
        ∃ c ∈ s.visited, ∃ k ∈ thicknessOffsets t,
          cellAt (lineParams x1 z1 x2 z2 startX startZ t)
            (perpCell (lineParams x1 z1 x2 z2 startX startZ t) c.1 c.2 k) u v := by
  have hdx := lineParams_dx x1 z1 x2 z2 startX startZ t
  have hdz := lineParams_dz x1 z1 x2 z2 startX startZ t
  unfold CreateDiagonalRegionRun
  dsimp only
  generalize hp : lineParams x1 z1 x2 z2 startX startZ t = p at hdx hdz ⊢
  have hminX : p.minX = min x1 x2 := by rw [← hp]; rfl
  have hminZ : p.minZ = min z1 z2 := by rw [← hp]; rfl
  have hmaxX : p.maxX = max x1 x2 := by rw [← hp]; rfl
  have hmaxZ : p.maxZ = max z1 z2 := by rw [← hp]; rfl
  have hthick : p.diagonalThickness = t := by rw [← hp]; rfl
  rw [hminX, hminZ, hmaxX, hmaxZ]
  generalize hends :
    diagonalEndpoints (min x1 x2) (min z1 z2) (max x1 x2) (max z1 z2) startX startZ = ends
  have hpdx : p.dx = cabs (p.diagEndX - ends.1) := by rw [← hp, ← hends]; rfl
  have hpdz : p.dz = cabs (p.diagEndZ - ends.2.1) := by rw [← hp, ← hends]; rfl
  have hpsx : p.sx = if ends.1 < p.diagEndX then 1 else -1 := by rw [← hp, ← hends]; rfl
  have hpsz : p.sz = if ends.2.1 < p.diagEndZ then 1 else -1 := by rw [← hp, ← hends]; rfl
  have hex : p.diagEndX = ends.2.2.1 := by rw [← hp, ← hends]; rfl
  have hez : p.diagEndZ = ends.2.2.2 := by rw [← hp, ← hends]; rfl
  have hbox0 : boxDims p
      (SC4CellRegion.create (min x1 x2) (min z1 z2) (max x1 x2) (max z1 z2) false).cellMap := by
    rw [boxDims, hminX, hminZ, hmaxX, hmaxZ]
    exact ⟨rfl, rfl⟩
  have hfalse0 : ∀ u v : Nat,
      (SC4CellRegion.create (min x1 x2) (min z1 z2) (max x1 x2) (max z1 z2) false).cellMap.GetValue
        u v = false := by
    intro u v
    unfold CellMap.GetValue SC4CellRegion.create
    simp
  have hw0 : (SC4CellRegion.create (min x1 x2) (min z1 z2) (max x1 x2) (max z1 z2)
      false).cellMap.width = (max x1 x2 - min x1 x2 + 1).toNat := rfl
  have hh0 : (SC4CellRegion.create (min x1 x2) (min z1 z2) (max x1 x2) (max z1 z2)
      false).cellMap.height = (max z1 z2 - min z1 z2 + 1).toNat := rfl
  generalize (SC4CellRegion.create (min x1 x2) (min z1 z2) (max x1 x2) (max z1 z2)
    false).cellMap = m0 at hbox0 hfalse0 hw0 hh0 ⊢
  generalize hs0 : LineState.mk m0 0 (p.dx - p.dz) ends.1 ends.2.1 [] = s0
  have hs0x : s0.currentX = ends.1 := by rw [← hs0]
  have hs0z : s0.currentZ = ends.2.1 := by rw [← hs0]
  have hs0v : s0.visited = [] := by rw [← hs0]
  have hs0m : s0.cellMap = m0 := by rw [← hs0]
  obtain ⟨r, hr, hlen⟩ := lineLoop_terminates p s0 (by rw [hs0x]; exact hpdx)
    (by rw [hs0z]; exact hpdz) (by rw [hs0x]; exact hpsx) (by rw [hs0z]; exact hpsz)
    (by rw [← hs0]) fuel (by rw [hdx, hdz]; exact hfuel)
  obtain ⟨tail, hv, hlast, hfold⟩ := lineLoop_spec p fuel s0 r hr
  have hdims := lineLoop_dims p fuel s0 r hr
  rw [hs0v, List.nil_append, hs0x, hs0z] at hv
  rw [hs0x, hs0z, ← hv, hex, hez] at hlast
  rw [hs0x, hs0z, ← hv] at hfold
  rw [hs0v, hdx, hdz] at hlen
  have hbox : boxDims p s0.cellMap := by rw [hs0m]; exact hbox0
  refine ⟨_, r, tail, by rw [hr]; rfl, rfl, ?_, ?_, hv, hlast, by simpa using hlen, ?_⟩
  · rw [hdims.1, hs0m]; exact hw0
  · rw [hdims.2, hs0m]; exact hh0
  · intro u v
    have h1 := foldl_markThickness_get p u v r.visited (s0.cellMap, s0.tileCount) hbox
    rw [← hfold] at h1
    dsimp only at h1 ⊢
    rw [h1, hthick, hs0m, hfalse0]
    simp

/-- Selection in city coordinates, from a characterisation of the map entries. -/
theorem selected_iff_of_get (p : LineParams) (r : SC4CellRegion) (cs : List (Int × Int))
    (t : Int) (hx : r.bounds.topLeftX = p.minX) (hz : r.bounds.topLeftY = p.minZ)
    (hget : ∀ u v : Nat, r.cellMap.GetValue u v = true ↔
      ∃ c ∈ cs, ∃ k ∈ thicknessOffsets t, cellAt p (perpCell p c.1 c.2 k) u v)
    (X Z : Int) :
    r.selected X Z = true ↔
      (p.minX ≤ X ∧ X ≤ p.maxX ∧ p.minZ ≤ Z ∧ Z ≤ p.maxZ) ∧
        ∃ c ∈ cs, ∃ k ∈ thicknessOffsets t, perpCell p c.1 c.2 k = (X, Z) := by
  unfold SC4CellRegion.selected
  rw [Bool.and_eq_true, Bool.and_eq_true, decide_eq_true_iff, decide_eq_true_iff, hget, hx, hz]
  constructor
  · rintro ⟨⟨h1, h2⟩, c, hc, k, hk, hcell⟩
    obtain ⟨a1, a2, a3, a4, a5, a6⟩ := hcell
    have e1 : (perpCell p c.1 c.2 k).1 = X := by omega
    have e2 : (perpCell p c.1 c.2 k).2 = Z := by omega
    refine ⟨⟨h1, by omega, h2, by omega⟩, c, hc, k, hk, ?_⟩
    exact Prod.ext e1 e2
  · rintro ⟨⟨h1, h2, h3, h4⟩, c, hc, k, hk, hcell⟩
    refine ⟨⟨h1, h3⟩, c, hc, k, hk, ?_⟩
    rw [hcell]
    unfold cellAt
    dsimp only
    omega

/-- Walk of a line with equal spans: `err` is 0 at the start of every iteration and both
coordinates advance, so the traced cells are the cells of the exact diagonal. -/
theorem lineLoop_square (p : LineParams) (hsx : p.sx = 1 ∨ p.sx = -1) (heq : p.dx = p.dz) :
    ∀ (a fuel : Nat) (s : LineState), a < fuel → (a = 0 ∨ 0 < p.dx) → s.err = 0 →
      s.currentX + p.sx * a = p.diagEndX → s.currentZ + p.sz * a = p.diagEndZ →
      ∃ r, lineLoop p fuel s = some r ∧
        r.visited = s.visited ++ (List.range (a + 1)).map
          (fun (i : Nat) => (s.currentX + p.sx * (i : Int), s.currentZ + p.sz * (i : Int))) := by
  intro a
  induction a with
  | zero =>
    intro fuel s hf _ _ hx hz
    obtain ⟨f, rfl⟩ : ∃ f, fuel = f + 1 := ⟨fuel - 1, by omega⟩
    simp only [Nat.cast_zero, mul_zero, add_zero] at hx hz
    unfold lineLoop
    dsimp only
    rw [if_pos ⟨hx, hz⟩]
    exact ⟨_, rfl, by simp [List.range_succ]⟩
  | succ a ih =>
    intro fuel s hf hpos he hx hz
    obtain ⟨f, rfl⟩ : ∃ f, fuel = f + 1 := ⟨fuel - 1, by omega⟩
    have hpos2 : 0 < p.dx := by omega
    have hne : ¬ (s.currentX = p.diagEndX ∧ s.currentZ = p.diagEndZ) := by
      rintro ⟨h, -⟩
      rw [h] at hx
      push_cast at hx
      rcases hsx with h1 | h1 <;> rw [h1] at hx <;> omega
    have hadv : lineAdvance p s.err s.currentX s.currentZ =
        (0, s.currentX + p.sx, s.currentZ + p.sz) := by
      have h1 : 2 * s.err > -p.dz := by omega
      have h2 : 2 * s.err < p.dx := by omega
      unfold lineAdvance
      dsimp only
      rw [if_pos h1, if_pos h1, if_pos h2, if_pos h2, he, heq]
      simp
    unfold lineLoop
    dsimp only
    rw [if_neg hne, hadv]
    obtain ⟨r, hr, hvis⟩ := ih f
      { cellMap := (markThickness p s.currentX s.currentZ (s.cellMap, s.tileCount)).1
        tileCount := (markThickness p s.currentX s.currentZ (s.cellMap, s.tileCount)).2
        err := 0
        currentX := s.currentX + p.sx
        currentZ := s.currentZ + p.sz
        visited := s.visited ++ [(s.currentX, s.currentZ)] } (by omega) (Or.inr hpos2) rfl
      (by dsimp only; rw [← hx]; push_cast; ring) (by dsimp only; rw [← hz]; push_cast; ring)
    refine ⟨r, hr, ?_⟩
    rw [hvis]
    dsimp only
    rw [List.range_succ_eq_map (a + 1), List.map_cons, List.map_map, List.append_assoc]
    congr 1
    simp only [List.singleton_append, Nat.cast_zero, mul_zero, add_zero, List.cons.injEq,
      true_and]
    apply List.map_congr_left
    intro i _
    simp only [Function.comp, Nat.cast_succ]
    exact Prod.ext (by dsimp only; ring) (by dsimp only; ring)

/-- More fuel never changes the result of a walk that returned. -/
theorem lineLoop_mono (p : LineParams) :
    ∀ (fuel : Nat) (s r : LineState), lineLoop p fuel s = some r →
      ∀ k : Nat, lineLoop p (fuel + k) s = some r := by
  intro fuel
  induction fuel with
  | zero => intro s r h; simp [lineLoop] at h
  | succ n ih =>
    intro s r h k
    rw [show n + 1 + k = (n + k) + 1 by omega]
    unfold lineLoop at h ⊢
    dsimp only at h ⊢
    split
    · rename_i hend
      rw [if_pos hend] at h
      exact h
    · rename_i hend
      rw [if_neg hend] at h
      exact ih _ _ h k

theorem CreateDiagonalRegionRun_mono (fuel k : Nat) (x1 z1 x2 z2 startX startZ t : Int)
    (res : SC4CellRegion × LineState)
    (h : CreateDiagonalRegionRun fuel x1 z1 x2 z2 startX startZ t = some res) :
    CreateDiagonalRegionRun (fuel + k) x1 z1 x2 z2 startX startZ t = some res := by
  unfold CreateDiagonalRegionRun at h ⊢
  dsimp only at h ⊢
  rw [Option.map_eq_some'] at h
  obtain ⟨s, hs, hres⟩ := h
  rw [lineLoop_mono _ _ _ _ hs k]
  simp [hres]

theorem wrapInt32_of_fits (v : Int) (h : fitsInt32 v) : wrapInt32 v = v := by
  unfold fitsInt32 at h
  unfold wrapInt32
  omega

/-- An anchor that is north-west of the centre of the box, the two sums of the centre
being in the range of `int32_t`, selects the diagonal from the north-west corner. -/
theorem diagonalEndpoints_nw (minX minZ maxX maxZ startX startZ : Int)
    (hfx : fitsInt32 (minX + maxX)) (hfz : fitsInt32 (minZ + maxZ))
    (hx : startX ≤ Int.tdiv (minX + maxX) 2) (hz : startZ ≤ Int.tdiv (minZ + maxZ) 2) :
    diagonalEndpoints minX minZ maxX maxZ startX startZ = (minX, minZ, maxX, maxZ) := by
  unfold diagonalEndpoints
  dsimp only
  rw [wrapInt32_of_fits _ hfx, wrapInt32_of_fits _ hfz,
    if_pos (⟨hx, hz⟩ : startX ≤ Int.tdiv (minX + maxX) 2 ∧ startZ ≤ Int.tdiv (minZ + maxZ) 2)]
  split <;> rfl

/-- At the box (2000000000,0)-(2000000004,4) the sum `minX + maxX` leaves the range of
`int32_t`: the centre is negative and the anchor (2000000001,1) selects the diagonal from
the north-east corner. -/
theorem diagonalEndpoints_wraps :
    ¬ fitsInt32 (2000000000 + 2000000004) ∧
    diagonalEndpoints 2000000000 0 2000000004 4 2000000001 1 =
      (2000000004, 0, 2000000000, 4) := by
  decide

/-- Walk of a square box from a corner `(ax, az)` with both step signs positive. -/
theorem lineLoop_square_nw (p : LineParams) (m : CellMap) (fuel : Nat)
    (hle : p.minX ≤ p.maxX) (heq : p.dx = p.dz) (hdx : p.dx = p.maxX - p.minX)
    (hex : p.diagEndX = p.maxX) (hez : p.diagEndZ = p.maxZ)
    (hzs : p.maxZ - p.minZ = p.maxX - p.minX)
    (hpsx : p.sx = if p.minX < p.maxX then 1 else -1)
    (hpsz : p.sz = if p.minZ < p.maxZ then 1 else -1)
    (hfuel : p.maxX - p.minX < fuel) :
    ∃ r, lineLoop p fuel (LineState.mk m 0 (p.dx - p.dz) p.minX p.minZ []) = some r ∧
      r.visited = (List.range ((p.maxX - p.minX).toNat + 1)).map
        (fun (i : Nat) => (p.minX + (i : Int), p.minZ + (i : Int))) := by
  have hsx1 : p.sx = 1 ∨ p.sx = -1 := by rw [hpsx]; split <;> simp
  have hcast : (((p.maxX - p.minX).toNat : Nat) : Int) = p.maxX - p.minX :=
    Int.toNat_of_nonneg (by omega)
  have hsxn : p.sx * (p.maxX - p.minX) = p.maxX - p.minX := by
    rw [hpsx]; split <;> omega
  have hszn : p.sz * (p.maxX - p.minX) = p.maxX - p.minX := by
    rw [hpsz]; split <;> omega
  have c1 : (p.maxX - p.minX).toNat < fuel := by omega
  have c2 : (p.maxX - p.minX).toNat = 0 ∨ 0 < p.dx := by omega
  have c3 : p.dx - p.dz = 0 := by omega
  have c4 : p.minX + p.sx * (((p.maxX - p.minX).toNat : Nat) : Int) = p.diagEndX := by
    rw [hcast, hsxn, hex]; omega
  have c5 : p.minZ + p.sz * (((p.maxX - p.minX).toNat : Nat) : Int) = p.diagEndZ := by
    rw [hcast, hszn, hez]; omega
  obtain ⟨r, hr, hvis⟩ := lineLoop_square p hsx1 heq (p.maxX - p.minX).toNat fuel
    (LineState.mk m 0 (p.dx - p.dz) p.minX p.minZ []) c1 c2 c3 c4 c5
  refine ⟨r, hr, ?_⟩
  rw [hvis]
  dsimp only
  rw [List.nil_append]
  apply List.map_congr_left
  intro i hi
  rw [List.mem_range] at hi
  have h1 : p.sx * (i : Int) = i := by
    rw [hpsx]; split <;> omega
  have h2 : p.sz * (i : Int) = i := by
    rw [hpsz]; split <;> omega
  rw [h1, h2]

/-- The traced cells of a square box walked from its north-west corner. -/
theorem CreateDiagonalRegionRun_square_nw (x1 z1 x2 z2 startX startZ t : Int) (fuel : Nat)
    (hspan : max x1 x2 - min x1 x2 = max z1 z2 - min z1 z2)
    (hnw : diagonalEndpoints (min x1 x2) (min z1 z2) (max x1 x2) (max z1 z2) startX startZ =
      (min x1 x2, min z1 z2, max x1 x2, max z1 z2))
    (hfuel : max x1 x2 - min x1 x2 < fuel)
    (res : SC4CellRegion × LineState)
    (hres : CreateDiagonalRegionRun fuel x1 z1 x2 z2 startX startZ t = some res) :
    res.2.visited = (List.range ((max x1 x2 - min x1 x2).toNat + 1)).map
      (fun (i : Nat) => (min x1 x2 + (i : Int), min z1 z2 + (i : Int))) := by
  have hdx := lineParams_dx x1 z1 x2 z2 startX startZ t
  have hdz := lineParams_dz x1 z1 x2 z2 startX startZ t
  have hex : (lineParams x1 z1 x2 z2 startX startZ t).diagEndX = max x1 x2 := by
    unfold lineParams; dsimp only; rw [hnw]
  have hez : (lineParams x1 z1 x2 z2 startX startZ t).diagEndZ = max z1 z2 := by
    unfold lineParams; dsimp only; rw [hnw]
  have hpsx : (lineParams x1 z1 x2 z2 startX startZ t).sx =
      if min x1 x2 < max x1 x2 then 1 else -1 := by
    unfold lineParams; dsimp only; rw [hnw]
  have hpsz : (lineParams x1 z1 x2 z2 startX startZ t).sz =
      if min z1 z2 < max z1 z2 then 1 else -1 := by
    unfold lineParams; dsimp only; rw [hnw]
  have hxle : min x1 x2 ≤ max x1 x2 := min_le_max
  obtain ⟨r, hr, hvis⟩ := lineLoop_square_nw (lineParams x1 z1 x2 z2 startX startZ t)
    (SC4CellRegion.create (min x1 x2) (min z1 z2) (max x1 x2) (max z1 z2) false).cellMap fuel
    hxle (hdx.trans (hspan.trans hdz.symm)) hdx hex hez hspan.symm hpsx hpsz hfuel
  have e1 : (lineParams x1 z1 x2 z2 startX startZ t).minX = min x1 x2 := rfl
  have e2 : (lineParams x1 z1 x2 z2 startX startZ t).minZ = min z1 z2 := rfl
  have e3 : (lineParams x1 z1 x2 z2 startX startZ t).maxX = max x1 x2 := rfl
  have e4 : (lineParams x1 z1 x2 z2 startX startZ t).maxZ = max z1 z2 := rfl
  rw [e1, e2, e3] at hvis
  rw [e1, e2] at hr
  unfold CreateDiagonalRegionRun at hres
  dsimp only at hres
  rw [e1, e2, e3, e4, hnw] at hres
  dsimp only at hres
  rw [hr] at hres
  simp only [Option.map_some', Option.some.injEq] at hres
  rw [← hres]
  exact hvis

/-! ## Claims on the region geometry -/

/-- Every run of `CreateDiagonalRegion` with more fuel than the longer span of the box
returns, and a cell is selected iff it lies in the box and belongs to the perpendicular
run of some traced cell. -/
theorem CreateDiagonalRegionRun_selected (x1 z1 x2 z2 startX startZ t : Int) (fuel : Nat)
    (hfuel : max (max x1 x2 - min x1 x2) (max z1 z2 - min z1 z2) < fuel) :
    ∃ (r : SC4CellRegion) (s : LineState),
      CreateDiagonalRegionRun fuel x1 z1 x2 z2 startX startZ t = some (r, s) ∧
      r.bounds = { topLeftX := min x1 x2, topLeftY := min z1 z2,
                   bottomRightX := max x1 x2, bottomRightY := max z1 z2 } ∧
      s.visited.head? = some
        ((diagonalEndpoints (min x1 x2) (min z1 z2) (max x1 x2) (max z1 z2) startX startZ).1,
         (diagonalEndpoints (min x1 x2) (min z1 z2) (max x1 x2) (max z1 z2) startX startZ).2.1) ∧
      s.visited.getLast? = some
        ((diagonalEndpoints (min x1 x2) (min z1 z2) (max x1 x2) (max z1 z2) startX startZ).2.2.1,
         (diagonalEndpoints (min x1 x2) (min z1 z2) (max x1 x2) (max z1 z2) startX startZ).2.2.2) ∧
      ∀ X Z : Int, r.selected X Z = true ↔
        (min x1 x2 ≤ X ∧ X ≤ max x1 x2 ∧ min z1 z2 ≤ Z ∧ Z ≤ max z1 z2) ∧
          ∃ c ∈ s.visited, ∃ k ∈ thicknessOffsets t,
            perpCell (lineParams x1 z1 x2 z2 startX startZ t) c.1 c.2 k = (X, Z) := by
  obtain ⟨r, s, tail, hrun, hb, -, -, hvis, hlast, -, hget⟩ :=
    CreateDiagonalRegionRun_spec x1 z1 x2 z2 startX startZ t fuel hfuel
  refine ⟨r, s, hrun, hb, by rw [hvis]; rfl, hlast, ?_⟩
  intro X Z
  exact selected_iff_of_get (lineParams x1 z1 x2 z2 startX startZ t) r s.visited t
    (by rw [hb]; rfl) (by rw [hb]; rfl) hget X Z

theorem perpCell_square (p : LineParams) (h : p.dx = p.dz) (x z k : Int) :
    perpCell p x z k = (x + k, z) := by
  unfold perpCell
  rw [h, if_neg (lt_irrefl _)]

/-- C1: for a square bounding box, thickness 1 and an anchor in the north-west quadrant,
`CreateDiagonalRegion` returns (for every fuel above the span) and selects exactly the
cells `(minX + i, minZ + i)`, `i = 0..span`, provided the `int32_t` sums `minX + maxX` and
`minZ + maxZ` of the centre do not overflow; for the box (0,0)-(4,4) with anchor (1,1) the
selected cells are exactly (0,0), (1,1), (2,2), (3,3), (4,4). -/
theorem C1_square_northwest_diagonal :
    (∀ (x1 z1 x2 z2 startX startZ : Int) (fuel : Nat),
      max x1 x2 - min x1 x2 = max z1 z2 - min z1 z2 →
      fitsInt32 (min x1 x2 + max x1 x2) →
      fitsInt32 (min z1 z2 + max z1 z2) →
      startX ≤ Int.tdiv (min x1 x2 + max x1 x2) 2 →
      startZ ≤ Int.tdiv (min z1 z2 + max z1 z2) 2 →
      max x1 x2 - min x1 x2 < fuel →
      ∃ r, CreateDiagonalRegion fuel x1 z1 x2 z2 startX startZ 1 = some r ∧
        ∀ X Z : Int, r.selected X Z = true ↔
          ∃ i : Int, 0 ≤ i ∧ i ≤ max x1 x2 - min x1 x2 ∧
            X = min x1 x2 + i ∧ Z = min z1 z2 + i) ∧
    (∀ k : Nat, (CreateDiagonalRegion (5 + k) 0 0 4 4 1 1 1).map SC4CellRegion.selectedCells =
      some [(0, 0), (1, 1), (2, 2), (3, 3), (4, 4)]) := by
  constructor
  · intro x1 z1 x2 z2 startX startZ fuel hspan hfx hfz hax haz hfuel
    have hnw := diagonalEndpoints_nw (min x1 x2) (min z1 z2) (max x1 x2) (max z1 z2)
      startX startZ hfx hfz hax haz
    obtain ⟨r, s, hrun, -, -, -, hsel⟩ :=
      CreateDiagonalRegionRun_selected x1 z1 x2 z2 startX startZ 1 fuel
        (by rw [← hspan, max_self]; exact hfuel)
    have hvis := CreateDiagonalRegionRun_square_nw x1 z1 x2 z2 startX startZ 1 fuel hspan hnw
      hfuel (r, s) hrun
    have hsq : (lineParams x1 z1 x2 z2 startX startZ 1).dx =
        (lineParams x1 z1 x2 z2 startX startZ 1).dz := by
      rw [lineParams_dx, lineParams_dz]; exact hspan
    refine ⟨r, by unfold CreateDiagonalRegion; rw [hrun]; rfl, ?_⟩
    intro X Z
    rw [hsel]
    dsimp only at hvis
    rw [hvis]
    have hxle : min x1 x2 ≤ max x1 x2 := min_le_max
    constructor
    · rintro ⟨-, c, hc, k, hk, hperp⟩
      rw [perpCell_square _ hsq] at hperp
      rw [mem_thicknessOffsets] at hk
      rw [List.mem_map] at hc
      obtain ⟨i, hi, rfl⟩ := hc
      rw [List.mem_range] at hi
      injection hperp with e1 e2
      dsimp only at e1 e2
      exact ⟨i, by omega, by omega, by omega, by omega⟩
    · rintro ⟨i, h0, hn, rfl, rfl⟩
      refine ⟨by omega, (min x1 x2 + i, min z1 z2 + i), ?_, 0, ?_, ?_⟩
      · rw [List.mem_map]
        refine ⟨i.toNat, ?_, ?_⟩
        · rw [List.mem_range]; omega
        · rw [Int.toNat_of_nonneg h0]
      · rw [mem_thicknessOffsets]; omega
      · rw [perpCell_square _ hsq]; simp
  · intro k
    have h5 : (CreateDiagonalRegionRun 5 0 0 4 4 1 1 1).isSome = true := by decide
    obtain ⟨res, hres⟩ := Option.isSome_iff_exists.mp h5
    have hk := CreateDiagonalRegionRun_mono 5 k 0 0 4 4 1 1 1 res hres
    have h0 : (CreateDiagonalRegion 5 0 0 4 4 1 1 1).map SC4CellRegion.selectedCells =
      some [(0, 0), (1, 1), (2, 2), (3, 3), (4, 4)] := by decide
    unfold CreateDiagonalRegion at h0 ⊢
    rw [hk]
    rw [hres] at h0
    exact h0

/-- Witness of C1 at the box (0,0)-(4,4) with anchor (1,1) and fuel 5. -/
theorem C1_square_northwest_diagonal_witness :
    (max (0 : Int) 4 - min 0 4 = max 0 4 - min 0 4 ∧
      fitsInt32 (min 0 4 + max 0 4) ∧
      (1 : Int) ≤ Int.tdiv (min 0 4 + max 0 4) 2 ∧ max (0 : Int) 4 - min 0 4 < (5 : Nat)) ∧
    ∃ r, CreateDiagonalRegion 5 0 0 4 4 1 1 1 = some r ∧
      ∀ X Z : Int, r.selected X Z = true ↔
        ∃ i : Int, 0 ≤ i ∧ i ≤ max 0 4 - min 0 4 ∧ X = min 0 4 + i ∧ Z = min 0 4 + i :=
  ⟨⟨by decide, by decide, by decide, by decide⟩,
    C1_square_northwest_diagonal.1 0 0 4 4 1 1 5 (by decide) (by decide) (by decide)
      (by decide) (by decide) (by decide)⟩

/-- With enough fuel the line is traced from the start corner to the end corner chosen by
`diagonalEndpoints`. -/
theorem tracesLine_endpoints (x1 z1 x2 z2 startX startZ t : Int) (fuel : Nat)
    (hfuel : max (max x1 x2 - min x1 x2) (max z1 z2 - min z1 z2) < fuel)
    (a b : Int × Int)
    (hab : diagonalEndpoints (min x1 x2) (min z1 z2) (max x1 x2) (max z1 z2) startX startZ =
      (a.1, a.2, b.1, b.2)) :
    tracesLine fuel x1 z1 x2 z2 startX startZ t a b := by
  obtain ⟨r, s, hrun, -, hhead, hlast, -⟩ :=
    CreateDiagonalRegionRun_selected x1 z1 x2 z2 startX startZ t fuel hfuel
  rw [hab] at hhead hlast
  exact ⟨s.visited, by unfold CreateDiagonalTrace; rw [hrun]; rfl, hhead, hlast⟩

/-- C2: for all corner points, anchors and thicknesses `CreateDiagonalRegion` returns (for
every fuel above the longer span) a region whose bounds are the min/max of the corner
points and whose map has width `maxX - minX + 1` and height `maxZ - minZ + 1`. -/
theorem C2_bounds_and_map_dimensions (x1 z1 x2 z2 startX startZ t : Int) (fuel : Nat)
    (hfuel : max (max x1 x2 - min x1 x2) (max z1 z2 - min z1 z2) < fuel) :
    ∃ r, CreateDiagonalRegion fuel x1 z1 x2 z2 startX startZ t = some r ∧
      r.bounds = { topLeftX := min x1 x2, topLeftY := min z1 z2,
                   bottomRightX := max x1 x2, bottomRightY := max z1 z2 } ∧
      (r.cellMap.width : Int) = max x1 x2 - min x1 x2 + 1 ∧
      (r.cellMap.height : Int) = max z1 z2 - min z1 z2 + 1 := by
  obtain ⟨r, s, tail, hrun, hb, hw, hh, -⟩ :=
    CreateDiagonalRegionRun_spec x1 z1 x2 z2 startX startZ t fuel hfuel
  refine ⟨r, by unfold CreateDiagonalRegion; rw [hrun]; rfl, hb, ?_, ?_⟩
  · rw [hw]; omega
  · rw [hh]; omega

/-- Witness of C2: corners (3,7) and (0,2), no anchor, thickness -2, fuel 6. -/
theorem C2_bounds_and_map_dimensions_witness :
    max (max (3 : Int) 0 - min 3 0) (max (7 : Int) 2 - min 7 2) < (6 : Nat) ∧
    ∃ r, CreateDiagonalRegion 6 3 7 0 2 (-1) (-1) (-2) = some r ∧
      r.bounds = { topLeftX := min 3 0, topLeftY := min 7 2,
                   bottomRightX := max 3 0, bottomRightY := max 7 2 } ∧
      (r.cellMap.width : Int) = max 3 0 - min 3 0 + 1 ∧
      (r.cellMap.height : Int) = max 7 2 - min 7 2 + 1 :=
  ⟨by decide, C2_bounds_and_map_dimensions 3 7 0 2 (-1) (-1) (-2) 6 (by decide)⟩

/-- C3, as stated, fails: for the box (0,0)-(4,1) the centre is (2,0), so the anchor
`(cx+1, cz-1)` is (3,-1).  Its Z coordinate is the "no anchor" value -1, and the line is
traced from (0,0) to (4,1), not from (maxX,minZ) = (4,0) to (minX,maxZ) = (0,1). -/
theorem C3_counterexample :
    Int.tdiv (0 + 4) 2 + 1 = 3 ∧ Int.tdiv (0 + 1) 2 - 1 = -1 ∧
    tracesLine 5 0 0 4 1 3 (-1) 1 (0, 0) (4, 1) ∧
    ¬ tracesLine 5 0 0 4 1 3 (-1) 1 (4, 0) (0, 1) := by
  have h : CreateDiagonalTrace 5 0 0 4 1 3 (-1) 1 =
      some [(0, 0), (1, 0), (2, 0), (3, 1), (4, 1)] := by decide
  refine ⟨by decide, by decide, ⟨_, h, by decide, by decide⟩, ?_⟩
  rintro ⟨tr, htr, hhead, -⟩
  rw [h] at htr
  injection htr with htr
  subst htr
  revert hhead
  decide

/-- C3, amended: let `(cx, cz)` be the centre of the box and let the `int32_t` sums
`minX + maxX` and `minZ + maxZ` not overflow.  The anchor `(cx-1, cz-1)` traces the line
from `(minX,minZ)` to `(maxX,maxZ)`; the anchors `(cx+1, cz-1)`, `(cx-1, cz+1)` and
`(cx+1, cz+1)` trace the lines from `(maxX,minZ)` to `(minX,maxZ)`, from `(minX,maxZ)` to
`(maxX,minZ)` and from `(maxX,maxZ)` to `(minX,minZ)` provided neither anchor coordinate is
-1.  For every box, an anchor with a coordinate equal to -1 counts as no anchor and traces
the line from `(minX,minZ)` to `(maxX,maxZ)`. -/
theorem C3_anchor_quadrants_amended (x1 z1 x2 z2 t : Int) (fuel : Nat)
    (hfuel : max (max x1 x2 - min x1 x2) (max z1 z2 - min z1 z2) < fuel) :
    (fitsInt32 (min x1 x2 + max x1 x2) → fitsInt32 (min z1 z2 + max z1 z2) →
      tracesLine fuel x1 z1 x2 z2
        (Int.tdiv (min x1 x2 + max x1 x2) 2 - 1) (Int.tdiv (min z1 z2 + max z1 z2) 2 - 1) t
        (min x1 x2, min z1 z2) (max x1 x2, max z1 z2) ∧
      (Int.tdiv (min x1 x2 + max x1 x2) 2 + 1 ≠ -1 →
        Int.tdiv (min z1 z2 + max z1 z2) 2 - 1 ≠ -1 →
        tracesLine fuel x1 z1 x2 z2
          (Int.tdiv (min x1 x2 + max x1 x2) 2 + 1) (Int.tdiv (min z1 z2 + max z1 z2) 2 - 1) t
          (max x1 x2, min z1 z2) (min x1 x2, max z1 z2)) ∧
      (Int.tdiv (min x1 x2 + max x1 x2) 2 - 1 ≠ -1 →
        Int.tdiv (min z1 z2 + max z1 z2) 2 + 1 ≠ -1 →
        tracesLine fuel x1 z1 x2 z2
          (Int.tdiv (min x1 x2 + max x1 x2) 2 - 1) (Int.tdiv (min z1 z2 + max z1 z2) 2 + 1) t
          (min x1 x2, max z1 z2) (max x1 x2, min z1 z2)) ∧
      (Int.tdiv (min x1 x2 + max x1 x2) 2 + 1 ≠ -1 →
        Int.tdiv (min z1 z2 + max z1 z2) 2 + 1 ≠ -1 →
        tracesLine fuel x1 z1 x2 z2
          (Int.tdiv (min x1 x2 + max x1 x2) 2 + 1) (Int.tdiv (min z1 z2 + max z1 z2) 2 + 1) t
          (max x1 x2, max z1 z2) (min x1 x2, min z1 z2))) ∧
    (∀ startX startZ : Int, startX = -1 ∨ startZ = -1 →
      tracesLine fuel x1 z1 x2 z2 startX startZ t
        (min x1 x2, min z1 z2) (max x1 x2, max z1 z2)) := by
  refine ⟨?_, ?_⟩
  · intro hfx hfz
    have hwx := wrapInt32_of_fits _ hfx
    have hwz := wrapInt32_of_fits _ hfz
    generalize hcx : Int.tdiv (min x1 x2 + max x1 x2) 2 = cx
    generalize hcz : Int.tdiv (min z1 z2 + max z1 z2) 2 = cz
    refine ⟨?_, ?_, ?_, ?_⟩
    · apply tracesLine_endpoints _ _ _ _ _ _ _ _ hfuel
      apply diagonalEndpoints_nw _ _ _ _ _ _ hfx hfz
      · rw [hcx]; omega
      · rw [hcz]; omega
    · intro h1 h2
      apply tracesLine_endpoints _ _ _ _ _ _ _ _ hfuel
      unfold diagonalEndpoints
      dsimp only
      rw [hwx, hwz, hcx, hcz, if_pos ⟨h1, h2⟩, if_neg (by omega), if_pos (by omega)]
    · intro h1 h2
      apply tracesLine_endpoints _ _ _ _ _ _ _ _ hfuel
      unfold diagonalEndpoints
      dsimp only
      rw [hwx, hwz, hcx, hcz, if_pos ⟨h1, h2⟩, if_neg (by omega), if_neg (by omega),
        if_pos (by omega)]
    · intro h1 h2
      apply tracesLine_endpoints _ _ _ _ _ _ _ _ hfuel
      unfold diagonalEndpoints
      dsimp only
      rw [hwx, hwz, hcx, hcz, if_pos ⟨h1, h2⟩, if_neg (by omega), if_neg (by omega),
        if_neg (by omega)]
  · intro startX startZ h
    apply tracesLine_endpoints _ _ _ _ _ _ _ _ hfuel
    unfold diagonalEndpoints
    dsimp only
    rw [if_neg (by omega)]

/-- Witness of the amended C3 at the box (0,0)-(6,4), centre (3,2), thickness 1, fuel 7. -/
theorem C3_anchor_quadrants_amended_witness :
    max (max (0 : Int) 6 - min 0 6) (max (0 : Int) 4 - min 0 4) < (7 : Nat) ∧
    (fitsInt32 (min 0 6 + max 0 6) ∧ fitsInt32 (min 0 4 + max 0 4)) ∧
    tracesLine 7 0 0 6 4
      (Int.tdiv (min 0 6 + max 0 6) 2 + 1) (Int.tdiv (min 0 4 + max 0 4) 2 - 1) 1
      (max 0 6, min 0 4) (min 0 6, max 0 4) ∧
    tracesLine 7 0 0 6 4
      (Int.tdiv (min 0 6 + max 0 6) 2 - 1) (Int.tdiv (min 0 4 + max 0 4) 2 + 1) 1
      (min 0 6, max 0 4) (max 0 6, min 0 4) ∧
    tracesLine 7 0 0 6 4
      (Int.tdiv (min 0 6 + max 0 6) 2 + 1) (Int.tdiv (min 0 4 + max 0 4) 2 + 1) 1
      (max 0 6, max 0 4) (min 0 6, min 0 4) ∧
    tracesLine 7 0 0 6 4 (-1) 5 1 (min 0 6, min 0 4) (max 0 6, max 0 4) :=
  ⟨by decide, ⟨by decide, by decide⟩,
    ((C3_anchor_quadrants_amended 0 0 6 4 1 7 (by decide)).1 (by decide) (by decide)).2.1
      (by decide) (by decide),
    ((C3_anchor_quadrants_amended 0 0 6 4 1 7 (by decide)).1 (by decide) (by decide)).2.2.1
      (by decide) (by decide),
    ((C3_anchor_quadrants_amended 0 0 6 4 1 7 (by decide)).1 (by decide) (by decide)).2.2.2
      (by decide) (by decide),
    (C3_anchor_quadrants_amended 0 0 6 4 1 7 (by decide)).2 (-1) 5 (Or.inl rfl)⟩

/-- For an anchor inside a box with non-negative coordinates whose sums `minX + maxX` and
`minZ + maxZ` are in the range of `int32_t`, the start corner chosen by `diagonalEndpoints`
is, on each axis, at most as far from the anchor as the end corner. -/
theorem diagonalEndpoints_nearest (minX minZ maxX maxZ startX startZ : Int)
    (h0x : 0 ≤ minX) (h0z : 0 ≤ minZ)
    (hfx : fitsInt32 (minX + maxX)) (hfz : fitsInt32 (minZ + maxZ))
    (i1 : minX ≤ startX) (i2 : startX ≤ maxX) (i3 : minZ ≤ startZ) (i4 : startZ ≤ maxZ) :
    ∃ cornerX cornerZ oppositeX oppositeZ : Int,
      diagonalEndpoints minX minZ maxX maxZ startX startZ =
        (cornerX, cornerZ, oppositeX, oppositeZ) ∧
      (cornerX = minX ∧ oppositeX = maxX ∨ cornerX = maxX ∧ oppositeX = minX) ∧
      (cornerZ = minZ ∧ oppositeZ = maxZ ∨ cornerZ = maxZ ∧ oppositeZ = minZ) ∧
      (startX - cornerX).natAbs ≤ (startX - oppositeX).natAbs ∧
      (startZ - cornerZ).natAbs ≤ (startZ - oppositeZ).natAbs := by
  have hcx : Int.tdiv (minX + maxX) 2 = (minX + maxX) / 2 :=
    Int.tdiv_eq_ediv (by omega) (by decide)
  have hcz : Int.tdiv (minZ + maxZ) 2 = (minZ + maxZ) / 2 :=
    Int.tdiv_eq_ediv (by omega) (by decide)
  have hsx : startX ≠ -1 := by omega
  have hsz : startZ ≠ -1 := by omega
  unfold diagonalEndpoints
  dsimp only
  rw [wrapInt32_of_fits _ hfx, wrapInt32_of_fits _ hfz, hcx, hcz, if_pos ⟨hsx, hsz⟩]
  by_cases hx : startX ≤ (minX + maxX) / 2 <;> by_cases hz : startZ ≤ (minZ + maxZ) / 2
  · refine ⟨minX, minZ, maxX, maxZ, ?_, Or.inl ⟨rfl, rfl⟩, Or.inl ⟨rfl, rfl⟩,
      by omega, by omega⟩
    rw [if_pos ⟨hx, hz⟩]
  · refine ⟨minX, maxZ, maxX, minZ, ?_, Or.inl ⟨rfl, rfl⟩, Or.inr ⟨rfl, rfl⟩,
      by omega, by omega⟩
    rw [if_neg (by omega), if_neg (by omega), if_pos (by omega)]
  · refine ⟨maxX, minZ, minX, maxZ, ?_, Or.inr ⟨rfl, rfl⟩, Or.inl ⟨rfl, rfl⟩,
      by omega, by omega⟩
    rw [if_neg (by omega), if_pos (by omega)]
  · refine ⟨maxX, maxZ, minX, minZ, ?_, Or.inr ⟨rfl, rfl⟩, Or.inr ⟨rfl, rfl⟩,
      by omega, by omega⟩
    rw [if_neg (by omega), if_neg (by omega), if_neg (by omega)]

/-- C4: for a box with non-negative coordinates, for which the `int32_t` sums
`minX + maxX` and `minZ + maxZ` of the centre do not overflow, and an anchor cell inside
the box, the line is traced from a box corner that is, on each axis, at most as far from
the anchor as the opposite side, to the diagonally opposite corner. -/
theorem C4_start_corner_nearest_anchor (x1 z1 x2 z2 startX startZ t : Int) (fuel : Nat)
    (hnonneg : 0 ≤ x1 ∧ 0 ≤ z1 ∧ 0 ≤ x2 ∧ 0 ≤ z2)
    (hfits : fitsInt32 (min x1 x2 + max x1 x2) ∧ fitsInt32 (min z1 z2 + max z1 z2))
    (hinside : min x1 x2 ≤ startX ∧ startX ≤ max x1 x2 ∧
      min z1 z2 ≤ startZ ∧ startZ ≤ max z1 z2)
    (hfuel : max (max x1 x2 - min x1 x2) (max z1 z2 - min z1 z2) < fuel) :
    ∃ cornerX cornerZ oppositeX oppositeZ : Int,
      (cornerX = min x1 x2 ∧ oppositeX = max x1 x2 ∨
        cornerX = max x1 x2 ∧ oppositeX = min x1 x2) ∧
      (cornerZ = min z1 z2 ∧ oppositeZ = max z1 z2 ∨
        cornerZ = max z1 z2 ∧ oppositeZ = min z1 z2) ∧
      (startX - cornerX).natAbs ≤ (startX - oppositeX).natAbs ∧
      (startZ - cornerZ).natAbs ≤ (startZ - oppositeZ).natAbs ∧
      tracesLine fuel x1 z1 x2 z2 startX startZ t (cornerX, cornerZ) (oppositeX, oppositeZ) := by
  obtain ⟨h1, h2, h3, h4⟩ := hnonneg
  obtain ⟨i1, i2, i3, i4⟩ := hinside
  obtain ⟨cX, cZ, oX, oZ, hends, hx, hz, hdx, hdz⟩ :=
    diagonalEndpoints_nearest (min x1 x2) (min z1 z2) (max x1 x2) (max z1 z2) startX startZ
      (le_min h1 h3) (le_min h2 h4) hfits.1 hfits.2 i1 i2 i3 i4
  exact ⟨cX, cZ, oX, oZ, hx, hz, hdx, hdz,
    tracesLine_endpoints x1 z1 x2 z2 startX startZ t fuel hfuel (cX, cZ) (oX, oZ) hends⟩

/-- Witness of C4: box (2,1)-(9,5), anchor (8,2) in the north-east, thickness 2, fuel 8. -/
theorem C4_start_corner_nearest_anchor_witness :
    ((0 : Int) ≤ 2 ∧ (0 : Int) ≤ 1 ∧ (0 : Int) ≤ 9 ∧ (0 : Int) ≤ 5) ∧
    (fitsInt32 (min 2 9 + max 2 9) ∧ fitsInt32 (min 1 5 + max 1 5)) ∧
    (min (2 : Int) 9 ≤ 8 ∧ (8 : Int) ≤ max 2 9 ∧ min (1 : Int) 5 ≤ 2 ∧ (2 : Int) ≤ max 1 5) ∧
    max (max (2 : Int) 9 - min 2 9) (max (1 : Int) 5 - min 1 5) < (8 : Nat) ∧
    ∃ cornerX cornerZ oppositeX oppositeZ : Int,
      (cornerX = min 2 9 ∧ oppositeX = max 2 9 ∨ cornerX = max 2 9 ∧ oppositeX = min 2 9) ∧
      (cornerZ = min 1 5 ∧ oppositeZ = max 1 5 ∨ cornerZ = max 1 5 ∧ oppositeZ = min 1 5) ∧
      ((8 : Int) - cornerX).natAbs ≤ ((8 : Int) - oppositeX).natAbs ∧
      ((2 : Int) - cornerZ).natAbs ≤ ((2 : Int) - oppositeZ).natAbs ∧
      tracesLine 8 2 1 9 5 8 2 2 (cornerX, cornerZ) (oppositeX, oppositeZ) :=
  ⟨by decide, by decide, by decide, by decide,
    C4_start_corner_nearest_anchor 2 1 9 5 8 2 2 8 (by decide) (by decide) (by decide)
      (by decide)⟩

/-- C5, as stated, fails: in the square box (0,0)-(4,4) with anchor (1,1) and thickness 3
the cell belonging to the traced cell (0,0) and thickness offset 1 is (1,0), offset along
X; the cell (1,0) is selected and the cell (0,1), its offset along Z, is not. -/
theorem C5_counterexample :
    max (0 : Int) 4 - min 0 4 = max (0 : Int) 4 - min 0 4 ∧
    perpCell (lineParams 0 0 4 4 1 1 3) 0 0 1 = (1, 0) ∧
    (CreateDiagonalRegion 5 0 0 4 4 1 1 3).map
      (fun r => (r.selected 1 0, r.selected 0 1)) = some (true, false) := by
  refine ⟨by decide, by decide, by decide⟩

/-- Selection in a box with equal spans: the perpendicular run of a traced cell extends
along X. -/
theorem CreateDiagonalRegionRun_square_selected (x1 z1 x2 z2 startX startZ t : Int)
    (fuel : Nat) (hspan : max x1 x2 - min x1 x2 = max z1 z2 - min z1 z2)
    (hfuel : max x1 x2 - min x1 x2 < fuel) :
    (∀ currentX currentZ thickOffset : Int,
      perpCell (lineParams x1 z1 x2 z2 startX startZ t) currentX currentZ thickOffset =
        (currentX + thickOffset, currentZ)) ∧
    ∃ (r : SC4CellRegion) (s : LineState),
      CreateDiagonalRegionRun fuel x1 z1 x2 z2 startX startZ t = some (r, s) ∧
      ∀ X Z : Int, r.selected X Z = true ↔
        (min x1 x2 ≤ X ∧ X ≤ max x1 x2 ∧ min z1 z2 ≤ Z ∧ Z ≤ max z1 z2) ∧
          ∃ c ∈ s.visited, ∃ k ∈ thicknessOffsets t, X = c.1 + k ∧ Z = c.2 := by
  have hsq : (lineParams x1 z1 x2 z2 startX startZ t).dx =
      (lineParams x1 z1 x2 z2 startX startZ t).dz := by
    rw [lineParams_dx, lineParams_dz]; exact hspan
  refine ⟨perpCell_square _ hsq, ?_⟩
  obtain ⟨r, s, hrun, -, -, -, hsel⟩ :=
    CreateDiagonalRegionRun_selected x1 z1 x2 z2 startX startZ t fuel
      (by rw [← hspan, max_self]; exact hfuel)
  refine ⟨r, s, hrun, ?_⟩
  intro X Z
  rw [hsel]
  constructor
  · rintro ⟨hbox, c, hc, k, hk, hperp⟩
    rw [perpCell_square _ hsq] at hperp
    injection hperp with e1 e2
    exact ⟨hbox, c, hc, k, hk, e1.symm, e2.symm⟩
  · rintro ⟨hbox, c, hc, k, hk, e1, e2⟩
    refine ⟨hbox, c, hc, k, hk, ?_⟩
    rw [perpCell_square _ hsq, e1, e2]

/-- C5, amended: when the spans of the box are equal the strict comparison
`abs(dx) > abs(dz)` fails, so the tie resolves to the vertical-line branch: the cells of
each step are offset from the traced cell along X, not along Z.  A cell is selected iff it
lies in the box and is `(currentX + k, currentZ)` for a traced cell and a thickness offset
`k`. -/
theorem C5_tie_offsets_along_x_amended (x1 z1 x2 z2 startX startZ t : Int) (fuel : Nat)
    (hspan : max x1 x2 - min x1 x2 = max z1 z2 - min z1 z2)
    (hfuel : max x1 x2 - min x1 x2 < fuel) :
    (∀ currentX currentZ thickOffset : Int,
      perpCell (lineParams x1 z1 x2 z2 startX startZ t) currentX currentZ thickOffset =
        (currentX + thickOffset, currentZ)) ∧
    ∃ (r : SC4CellRegion) (s : LineState),
      CreateDiagonalRegionRun fuel x1 z1 x2 z2 startX startZ t = some (r, s) ∧
      ∀ X Z : Int, r.selected X Z = true ↔
        (min x1 x2 ≤ X ∧ X ≤ max x1 x2 ∧ min z1 z2 ≤ Z ∧ Z ≤ max z1 z2) ∧
          ∃ c ∈ s.visited, ∃ k ∈ thicknessOffsets t, X = c.1 + k ∧ Z = c.2 :=
  CreateDiagonalRegionRun_square_selected x1 z1 x2 z2 startX startZ t fuel hspan hfuel

/-- Witness of the amended C5: box (0,0)-(4,4), anchor (1,1), thickness 3, fuel 5. -/
theorem C5_tie_offsets_along_x_amended_witness :
    (max (0 : Int) 4 - min 0 4 = max (0 : Int) 4 - min 0 4 ∧
      max (0 : Int) 4 - min 0 4 < (5 : Nat)) ∧
    ((∀ currentX currentZ thickOffset : Int,
      perpCell (lineParams 0 0 4 4 1 1 3) currentX currentZ thickOffset =
        (currentX + thickOffset, currentZ)) ∧
    ∃ (r : SC4CellRegion) (s : LineState),
      CreateDiagonalRegionRun 5 0 0 4 4 1 1 3 = some (r, s) ∧
      ∀ X Z : Int, r.selected X Z = true ↔
        (min 0 4 ≤ X ∧ X ≤ max 0 4 ∧ min 0 4 ≤ Z ∧ Z ≤ max 0 4) ∧
          ∃ c ∈ s.visited, ∃ k ∈ thicknessOffsets 3, X = c.1 + k ∧ Z = c.2) :=
  ⟨⟨by decide, by decide⟩,
    C5_tie_offsets_along_x_amended 0 0 4 4 1 1 3 5 (by decide) (by decide)⟩

/-- C6: for the box (0,0)-(4,4), anchor (1,1) and thickness 3, `CreateDiagonalRegion`
returns (for every fuel from 5 on) and selects exactly the cells inside the box obtained
from the diagonal cells `(i,i)`, `i = 0..4`, by adding the offsets 0, 1, 2 along one axis
that is the same for every step; these are 12 cells. -/
theorem C6_thickness_three_square (n : Nat) :
    ∃ r, CreateDiagonalRegion (5 + n) 0 0 4 4 1 1 3 = some r ∧
      r.selectedCells.length = 12 ∧
      ∃ axis : Int × Int, (axis = (1, 0) ∨ axis = (0, 1)) ∧
        ∀ X Z : Int, r.selected X Z = true ↔
          (0 ≤ X ∧ X ≤ 4 ∧ 0 ≤ Z ∧ Z ≤ 4) ∧
            ∃ i o : Int, 0 ≤ i ∧ i ≤ 4 ∧ 0 ≤ o ∧ o ≤ 2 ∧
              X = i + o * axis.1 ∧ Z = i + o * axis.2 := by
  have hfuel : max (0 : Int) 4 - min 0 4 < ((5 + n : Nat) : Int) := by
    have : max (0 : Int) 4 - min 0 4 = 4 := by decide
    rw [this]; omega
  obtain ⟨hperp, r, s, hrun, hsel⟩ :=
    CreateDiagonalRegionRun_square_selected 0 0 4 4 1 1 3 (5 + n) (by decide) hfuel
  have hvis := CreateDiagonalRegionRun_square_nw 0 0 4 4 1 1 3 (5 + n) (by decide)
    (by decide) hfuel (r, s) hrun
  have h5 : (CreateDiagonalRegionRun 5 0 0 4 4 1 1 3).isSome = true := by decide
  obtain ⟨res, hres⟩ := Option.isSome_iff_exists.mp h5
  have hmono := CreateDiagonalRegionRun_mono 5 n 0 0 4 4 1 1 3 res hres
  have hlen : (CreateDiagonalRegion 5 0 0 4 4 1 1 3).map
      (fun q => q.selectedCells.length) = some 12 := by decide
  unfold CreateDiagonalRegion at hlen
  rw [hres] at hlen
  rw [hmono] at hrun
  injection hrun with hrun
  rw [hrun] at hlen
  refine ⟨r, by unfold CreateDiagonalRegion; rw [hmono, hrun]; rfl, by simpa using hlen,
    (1, 0), Or.inl rfl, ?_⟩
  intro X Z
  rw [hsel]
  dsimp only at hvis
  rw [hvis]
  have e1 : min (0 : Int) 4 = 0 := by decide
  have e2 : max (0 : Int) 4 = 4 := by decide
  rw [e1, e2]
  constructor
  · rintro ⟨hbox, c, hc, k, hk, hX, hZ⟩
    rw [mem_thicknessOffsets] at hk
    rw [List.mem_map] at hc
    obtain ⟨i, hi, rfl⟩ := hc
    rw [List.mem_range] at hi
    dsimp only at hX hZ
    have e3 : ((4 : Int) - 0).toNat + 1 = 5 := by decide
    rw [e3] at hi
    exact ⟨hbox, i, k, by omega, by omega, by omega, by omega, by omega, by omega⟩
  · rintro ⟨hbox, i, o, h1, h2, h3, h4, hX, hZ⟩
    refine ⟨hbox, (0 + i, 0 + i), ?_, o, ?_, ?_, ?_⟩
    · rw [List.mem_map]
      refine ⟨i.toNat, ?_, ?_⟩
      · rw [List.mem_range]
        have e3 : ((4 : Int) - 0).toNat + 1 = 5 := by decide
        rw [e3]; omega
      · rw [Int.toNat_of_nonneg h1]
    · rw [mem_thicknessOffsets]; omega
    · dsimp only at hX ⊢; omega
    · dsimp only at hZ ⊢; omega

/-! ## Mode state transitions -/

/-- The in-place rewrite returns as soon as the fuel exceeds the span of the region. -/
theorem rewriteRegion_isSome (fuel : Nat) (region : SC4CellRegion) (clickX clickZ t : Int)
    (hfuel : regionSpan region < fuel) :
    ∃ region1, rewriteRegion fuel region clickX clickZ t = some region1 := by
  obtain ⟨r, s, tail, hrun, -⟩ := CreateDiagonalRegionRun_spec region.bounds.topLeftX
    region.bounds.topLeftY region.bounds.bottomRightX region.bounds.bottomRightY
    clickX clickZ t fuel hfuel
  have hr : CreateDiagonalRegion fuel region.bounds.topLeftX region.bounds.topLeftY
      region.bounds.bottomRightX region.bounds.bottomRightY clickX clickZ t = some r := by
    unfold CreateDiagonalRegion; rw [hrun]; rfl
  unfold rewriteRegion
  dsimp only
  rw [hr]
  dsimp only
  split
  · exact ⟨_, rfl⟩
  · exact ⟨_, rfl⟩

/-- Whenever `SetOccupantFilterOption` returns, the mode state holds the requested filter
kind and diagonal flag, the control is the current one and the thickness is untouched. -/
theorem SetOccupantFilterOption_mode (ids : BulldozeCursorIds) (fuel : Nat) (mode : ModeState)
    (pThis : Nat) (ctl : cSC4ViewInputControlDemolish) (type : OccupantFilterType)
    (diagonal : Bool) (out : HookOutcome)
    (h : SetOccupantFilterOption ids fuel mode pThis ctl type diagonal = some out) :
    out.mode.occupantFilterType = type ∧ out.mode.diagonalMode = diagonal ∧
      out.mode.diagonalThickness = mode.diagonalThickness ∧
      out.mode.currentViewControl = some pThis := by
  unfold SetOccupantFilterOption at h
  dsimp only at h
  split at h
  · split at h
    · split at h
      · split at h
        · exact absurd h (by simp)
        · injection h with h; subst h; exact ⟨rfl, rfl, rfl, rfl⟩
      · injection h with h; subst h; exact ⟨rfl, rfl, rfl, rfl⟩
    · injection h with h; subst h; exact ⟨rfl, rfl, rfl, rfl⟩
  · rename_i hsame
    injection h with h; subst h
    simp only [ne_eq, not_or, not_not] at hsame
    exact ⟨hsame.1, hsame.2, rfl, rfl⟩

/-- With enough fuel for the host region `SetOccupantFilterOption` returns. -/
theorem SetOccupantFilterOption_isSome (ids : BulldozeCursorIds) (fuel : Nat)
    (mode : ModeState) (pThis : Nat) (ctl : cSC4ViewInputControlDemolish)
    (type : OccupantFilterType) (diagonal : Bool)
    (hfuel : ∀ r, ctl.pCellRegion = some r → regionSpan r < fuel) :
    ∃ out, SetOccupantFilterOption ids fuel mode pThis ctl type diagonal = some out := by
  unfold SetOccupantFilterOption
  dsimp only
  split
  · split
    · split
      · rename_i region hreg
        have hctl : ctl.pCellRegion = some region := by
          split at hreg
          · exact hreg
          · exact absurd hreg (by simp)
        obtain ⟨region1, h1⟩ := rewriteRegion_isSome fuel region ctl.clickX ctl.clickZ
          mode.diagonalThickness (hfuel region hctl)
        rw [h1]
        exact ⟨_, rfl⟩
      · exact ⟨_, rfl⟩
    · exact ⟨_, rfl⟩
  · exact ⟨_, rfl⟩

/-- A call of `SetOccupantFilterOption` with the filter kind and diagonal flag already in
force only records the control. -/
theorem SetOccupantFilterOption_same (ids : BulldozeCursorIds) (fuel : Nat) (mode : ModeState)
    (pThis : Nat) (ctl : cSC4ViewInputControlDemolish) :
    SetOccupantFilterOption ids fuel mode pThis ctl mode.occupantFilterType mode.diagonalMode =
      some { mode := { mode with currentViewControl := some pThis }, ctl := ctl, calls := [] } := by
  unfold SetOccupantFilterOption
  simp

/-- The wheel handler always returns; it changes at most the thickness and the current
control. -/
theorem OnMouseWheelHook_mode (ids : BulldozeCursorIds) (fuel : Nat) (mode : ModeState)
    (pThis : Nat) (ctl : cSC4ViewInputControlDemolish) (x z : Int) (modifiers : Nat)
    (wheelDelta : Int) :
    ∃ res, OnMouseWheelHook ids fuel mode pThis ctl x z modifiers wheelDelta = some res ∧
      res.2.mode.occupantFilterType = mode.occupantFilterType ∧
      res.2.mode.diagonalMode = mode.diagonalMode ∧
      res.2.ctl = ctl ∧
      res.2.mode.diagonalThickness =
        (if mode.diagonalMode = true ∧ (modifiers &&& ModifierKeyFlagAlt) ≠ 0 then
          wheelThickness mode.diagonalThickness wheelDelta
        else mode.diagonalThickness) := by
  unfold OnMouseWheelHook
  dsimp only
  split
  · rename_i hc
    split
    · split
      · have hs := SetOccupantFilterOption_same ids fuel
          { mode with diagonalThickness := wheelThickness mode.diagonalThickness wheelDelta }
          pThis ctl
        dsimp only at hs
        rw [hs]
        exact ⟨_, rfl, rfl, rfl, rfl, rfl⟩
      · exact ⟨_, rfl, rfl, rfl, rfl, rfl⟩
    · exact ⟨_, rfl, rfl, rfl, rfl, rfl⟩
  · exact ⟨_, rfl, rfl, rfl, rfl, rfl⟩

/-- One wheel notch keeps the thickness in `[-9,-1] ∪ [1,9]`. -/
theorem wheelThickness_range (t wheelDelta : Int)
    (h : (-9 ≤ t ∧ t ≤ -1) ∨ (1 ≤ t ∧ t ≤ 9)) :
    (-9 ≤ wheelThickness t wheelDelta ∧ wheelThickness t wheelDelta ≤ -1) ∨
      (1 ≤ wheelThickness t wheelDelta ∧ wheelThickness t wheelDelta ≤ 9) := by
  unfold wheelThickness maxDiagonalThickness
  split_ifs <;> omega

/-- The key handler never changes the thickness. -/
theorem OnKeyDownHook_thickness (ids : BulldozeCursorIds) (fuel : Nat) (mode : ModeState)
    (pThis : Nat) (ctl : cSC4ViewInputControlDemolish) (isOnTop : Bool)
    (vkCode modifiers : Int) (res : Bool × HookOutcome)
    (h : OnKeyDownHook ids fuel mode pThis ctl isOnTop vkCode modifiers = some res) :
    res.2.mode.diagonalThickness = mode.diagonalThickness := by
  unfold OnKeyDownHook at h
  dsimp only at h
  split_ifs at h
  all_goals first
    | (injection h with h; subst h; rfl)
    | (rw [Option.map_eq_some'] at h
       obtain ⟨out, hout, rfl⟩ := h
       exact (SetOccupantFilterOption_mode _ _ _ _ _ _ _ _ hout).2.2.1)

theorem Activate_thickness (ids : BulldozeCursorIds) (mode : ModeState) (pThis : Nat)
    (ctl : cSC4ViewInputControlDemolish) :
    (Activate ids mode pThis ctl).diagonalThickness = 1 := by
  unfold Activate
  dsimp only
  split_ifs <;> rfl

/-- Wheel-up events in diagonal mode with Alt held, from a positive thickness. -/
theorem wheelEvents_up (ids : BulldozeCursorIds) (fuel : Nat) :
    ∀ (events : List WheelEvent) (mode : ModeState),
      mode.diagonalMode = true → 1 ≤ mode.diagonalThickness → mode.diagonalThickness ≤ 9 →
      (∀ e ∈ events, (e.modifiers &&& ModifierKeyFlagAlt) ≠ 0 ∧ e.wheelDelta > 0) →
      ∃ out, wheelEvents ids fuel events mode = some out ∧
        out.diagonalMode = true ∧
        out.diagonalThickness = min (mode.diagonalThickness + events.length) 9 := by
  intro events
  induction events with
  | nil =>
    intro mode hd h1 h9 _
    exact ⟨_, rfl, hd, by simp only [List.length_nil, Nat.cast_zero]; omega⟩
  | cons e es ih =>
    intro mode hd h1 h9 hev
    obtain ⟨halt, hup⟩ := hev e (List.mem_cons_self _ _)
    obtain ⟨res, hres, -, hdiag, -, hthick⟩ :=
      OnMouseWheelHook_mode ids fuel mode e.pThis e.ctl e.x e.z e.modifiers e.wheelDelta
    rw [if_pos ⟨hd, halt⟩] at hthick
    have hw : wheelThickness mode.diagonalThickness e.wheelDelta =
        min (mode.diagonalThickness + 1) 9 := by
      unfold wheelThickness maxDiagonalThickness
      rw [if_pos hup, if_neg (by omega)]
    rw [hw] at hthick
    obtain ⟨out, hout, hod, hot⟩ := ih res.2.mode (hdiag.trans hd)
      (by rw [hthick]; omega) (by rw [hthick]; omega)
      (fun e he => hev e (List.mem_cons_of_mem _ he))
    refine ⟨out, ?_, hod, ?_⟩
    · simp only [wheelEvents, hres]
      exact hout
    · rw [hot, hthick]
      simp only [List.length_cons, Nat.cast_succ]
      omega

/-- Wheel-down events in diagonal mode with Alt held, from a negative thickness. -/
theorem wheelEvents_down (ids : BulldozeCursorIds) (fuel : Nat) :
    ∀ (events : List WheelEvent) (mode : ModeState),
      mode.diagonalMode = true → -9 ≤ mode.diagonalThickness → mode.diagonalThickness ≤ -1 →
      (∀ e ∈ events, (e.modifiers &&& ModifierKeyFlagAlt) ≠ 0 ∧ e.wheelDelta < 0) →
      ∃ out, wheelEvents ids fuel events mode = some out ∧
        out.diagonalMode = true ∧
        out.diagonalThickness = max (mode.diagonalThickness - events.length) (-9) := by
  intro events
  induction events with
  | nil =>
    intro mode hd h1 h9 _
    exact ⟨_, rfl, hd, by simp only [List.length_nil, Nat.cast_zero]; omega⟩
  | cons e es ih =>
    intro mode hd h1 h9 hev
    obtain ⟨halt, hdown⟩ := hev e (List.mem_cons_self _ _)
    obtain ⟨res, hres, -, hdiag, -, hthick⟩ :=
      OnMouseWheelHook_mode ids fuel mode e.pThis e.ctl e.x e.z e.modifiers e.wheelDelta
    rw [if_pos ⟨hd, halt⟩] at hthick
    have hw : wheelThickness mode.diagonalThickness e.wheelDelta =
        max (mode.diagonalThickness - 1) (-9) := by
      unfold wheelThickness maxDiagonalThickness
      rw [if_neg (by omega), if_pos hdown, if_neg (by omega)]
    rw [hw] at hthick
    obtain ⟨out, hout, hod, hot⟩ := ih res.2.mode (hdiag.trans hd)
      (by rw [hthick]; omega) (by rw [hthick]; omega)
      (fun e he => hev e (List.mem_cons_of_mem _ he))
    refine ⟨out, ?_, hod, ?_⟩
    · simp only [wheelEvents, hres]
      exact hout
    · rw [hot, hthick]
      simp only [List.length_cons, Nat.cast_succ]
      omega

/-- C7: in diagonal mode, starting from thickness 1, `n` consecutive wheel events with Alt
held and `wheelDelta > 0` leave the thickness `min (1 + n) 9`, and `n ≥ 1` consecutive
wheel events with Alt held and `wheelDelta < 0` leave the thickness `max (-n) (-9)`; the
thickness reached is never 0.  The handler returns for every fuel and every state of the
control. -/
theorem C7_wheel_thickness_sequence (ids : BulldozeCursorIds) (fuel : Nat)
    (ups downs : List WheelEvent) (mode : ModeState)
    (hdiag : mode.diagonalMode = true) (hone : mode.diagonalThickness = 1)
    (hup : ∀ e ∈ ups, (e.modifiers &&& ModifierKeyFlagAlt) ≠ 0 ∧ e.wheelDelta > 0)
    (hdown : ∀ e ∈ downs, (e.modifiers &&& ModifierKeyFlagAlt) ≠ 0 ∧ e.wheelDelta < 0)
    (hlen : 1 ≤ downs.length) :
    (∃ out, wheelEvents ids fuel ups mode = some out ∧
      out.diagonalThickness = min (1 + (ups.length : Int)) 9 ∧
      out.diagonalThickness ≠ 0) ∧
    (∃ out, wheelEvents ids fuel downs mode = some out ∧
      out.diagonalThickness = max (-(downs.length : Int)) (-9) ∧
      out.diagonalThickness ≠ 0) := by
  constructor
  · obtain ⟨out, hout, -, ht⟩ := wheelEvents_up ids fuel ups mode hdiag
      (by omega) (by omega) hup
    rw [hone] at ht
    exact ⟨out, hout, ht, by omega⟩
  · cases downs with
    | nil => simp at hlen
    | cons e es =>
      obtain ⟨res, hres, -, hd2, -, hthick⟩ :=
        OnMouseWheelHook_mode ids fuel mode e.pThis e.ctl e.x e.z e.modifiers e.wheelDelta
      have he := hdown e (List.mem_cons_self _ _)
      rw [if_pos ⟨hdiag, he.1⟩] at hthick
      have hw : wheelThickness mode.diagonalThickness e.wheelDelta = -1 := by
        have := he.2
        unfold wheelThickness
        rw [if_neg (by omega), if_pos this, if_pos hone]
      rw [hw] at hthick
      obtain ⟨out, hout, -, ht⟩ := wheelEvents_down ids fuel es res.2.mode
        (hd2.trans hdiag) (by omega) (by omega)
        (fun e he => hdown e (List.mem_cons_of_mem _ he))
      refine ⟨out, ?_, ?_, ?_⟩
      · simp only [wheelEvents, hres]
        exact hout
      · rw [ht, hthick]
        simp only [List.length_cons, Nat.cast_succ]
        omega
      · rw [ht, hthick]
        omega

/-- Witness of C7: ten wheel-up events and three wheel-down events with Alt held on an
active selection, from the mode state after activation with the default-diagonal cursor. -/
theorem C7_wheel_thickness_sequence_witness :
    ((Activate sampleIds ModeState.initial 7 sampleControl).diagonalMode = true ∧
      (Activate sampleIds ModeState.initial 7 sampleControl).diagonalThickness = 1 ∧
      (∀ e ∈ List.replicate 10 (WheelEvent.mk 7 sampleControl 3 2 4 120),
        (e.modifiers &&& ModifierKeyFlagAlt) ≠ 0 ∧ e.wheelDelta > 0) ∧
      (∀ e ∈ [WheelEvent.mk 7 sampleControl 0 0 4 (-120),
          WheelEvent.mk 7 sampleControl 3 2 5 (-120), WheelEvent.mk 7 sampleControl 3 2 4 (-1)],
        (e.modifiers &&& ModifierKeyFlagAlt) ≠ 0 ∧ e.wheelDelta < 0) ∧
      1 ≤ [WheelEvent.mk 7 sampleControl 0 0 4 (-120),
        WheelEvent.mk 7 sampleControl 3 2 5 (-120),
        WheelEvent.mk 7 sampleControl 3 2 4 (-1)].length) ∧
    (∃ out, wheelEvents sampleIds 0 (List.replicate 10 (WheelEvent.mk 7 sampleControl 3 2 4 120))
        (Activate sampleIds ModeState.initial 7 sampleControl) = some out ∧
      out.diagonalThickness = min (1 + ((List.replicate 10
        (WheelEvent.mk 7 sampleControl 3 2 4 120)).length : Int)) 9 ∧
      out.diagonalThickness ≠ 0) ∧
    (∃ out, wheelEvents sampleIds 0
        [WheelEvent.mk 7 sampleControl 0 0 4 (-120),
          WheelEvent.mk 7 sampleControl 3 2 5 (-120), WheelEvent.mk 7 sampleControl 3 2 4 (-1)]
        (Activate sampleIds ModeState.initial 7 sampleControl) = some out ∧
      out.diagonalThickness = max (-(([WheelEvent.mk 7 sampleControl 0 0 4 (-120),
        WheelEvent.mk 7 sampleControl 3 2 5 (-120),
        WheelEvent.mk 7 sampleControl 3 2 4 (-1)].length : Nat) : Int)) (-9) ∧
      out.diagonalThickness ≠ 0) :=
  ⟨⟨by decide, by decide, by decide, by decide, by decide⟩,
    C7_wheel_thickness_sequence sampleIds 0
      (List.replicate 10 (WheelEvent.mk 7 sampleControl 3 2 4 120))
      [WheelEvent.mk 7 sampleControl 0 0 4 (-120),
        WheelEvent.mk 7 sampleControl 3 2 5 (-120), WheelEvent.mk 7 sampleControl 3 2 4 (-1)]
      (Activate sampleIds ModeState.initial 7 sampleControl)
      (by decide) (by decide) (by decide) (by decide) (by decide)⟩

/-- C8: in every mode state reachable from the load-time state by calls of `Activate`,
`OnKeyDownHook` and `OnMouseWheelHook` with arbitrary arguments, `diagonalThickness` lies
in `[-9,-1]` or in `[1,9]`. -/
theorem C8_thickness_range_invariant (ids : BulldozeCursorIds) (mode : ModeState)
    (h : Reachable ids mode) :
    (-9 ≤ mode.diagonalThickness ∧ mode.diagonalThickness ≤ -1) ∨
      (1 ≤ mode.diagonalThickness ∧ mode.diagonalThickness ≤ 9) := by
  induction h with
  | initial => right; decide
  | activate mode pThis ctl _ _ =>
    rw [Activate_thickness]
    right; decide
  | keyDown mode fuel pThis ctl isOnTop vkCode modifiers res _ hres ih =>
    rw [OnKeyDownHook_thickness ids fuel mode pThis ctl isOnTop vkCode modifiers res hres]
    exact ih
  | mouseWheel mode fuel pThis ctl x z modifiers wheelDelta res _ hres ih =>
    obtain ⟨res2, hres2, -, -, -, hthick⟩ :=
      OnMouseWheelHook_mode ids fuel mode pThis ctl x z modifiers wheelDelta
    rw [hres] at hres2
    injection hres2 with hres2
    subst hres2
    rw [hthick]
    split
    · exact wheelThickness_range _ _ ih
    · exact ih

/-- Witness of C8: the state after activation with the default-diagonal cursor followed by
a wheel-down event with Alt held is reachable; its thickness is -1. -/
theorem C8_thickness_range_invariant_witness :
    Reachable sampleIds
      { occupantFilterType := OccupantFilterType.None, diagonalMode := true,
        diagonalThickness := -1, currentViewControl := some 7 } ∧
    ((-9 ≤ (-1 : Int) ∧ (-1 : Int) ≤ -1) ∨ (1 ≤ (-1 : Int) ∧ (-1 : Int) ≤ 9)) :=
  ⟨Reachable.mouseWheel (Activate sampleIds ModeState.initial 7 sampleControl) 0 7
      sampleControl 0 0 4 (-120)
      (true, { mode := { occupantFilterType := OccupantFilterType.None, diagonalMode := true,
                         diagonalThickness := -1, currentViewControl := some 7 }
               ctl := sampleControl
               calls := [HostCall.UpdateSelectedRegion 7] })
      (Reachable.activate _ _ _ Reachable.initial) (by unfold OnMouseWheelHook; rfl),
    C8_thickness_range_invariant sampleIds
      { occupantFilterType := OccupantFilterType.None, diagonalMode := true,
        diagonalThickness := -1, currentViewControl := some 7 }
      (Reachable.mouseWheel (Activate sampleIds ModeState.initial 7 sampleControl) 0 7
        sampleControl 0 0 4 (-120)
        (true, { mode := { occupantFilterType := OccupantFilterType.None, diagonalMode := true,
                           diagonalThickness := -1, currentViewControl := some 7 }
                 ctl := sampleControl
                 calls := [HostCall.UpdateSelectedRegion 7] })
        (Reachable.activate _ _ _ Reachable.initial) (by unfold OnMouseWheelHook; rfl))⟩

/-- The toggle key on the foreground control calls `SetOccupantFilterOption` with the
filter kind and the diagonal flag given by the three modifier bits. -/
theorem OnKeyDownHook_toggle (ids : BulldozeCursorIds) (fuel : Nat) (mode : ModeState)
    (pThis : Nat) (ctl : cSC4ViewInputControlDemolish) (modifiers : Int) :
    OnKeyDownHook ids fuel mode pThis ctl true keyB modifiers =
      (SetOccupantFilterOption ids fuel mode pThis ctl
        (if (toUInt32 modifiers).testBit 1 then OccupantFilterType.Flora
         else if (toUInt32 modifiers).testBit 0 then OccupantFilterType.Network
         else OccupantFilterType.None)
        ((toUInt32 modifiers).testBit 2)).map fun out => (true, out) := by
  have hall : ModifierKeyFlagAll = 2 ^ 3 - 1 := by decide
  have hmask : toUInt32 modifiers &&& ModifierKeyFlagAll = toUInt32 modifiers % 8 := by
    rw [hall]; exact Nat.and_pow_two_sub_one_eq_mod _ 3
  have h0 : (toUInt32 modifiers).testBit 0 = decide (toUInt32 modifiers % 8 % 2 = 1) := by
    rw [Nat.testBit_to_div_mod]
    congr 1
    simp only [pow_zero, Nat.div_one, eq_iff_iff]
    omega
  have h1 : (toUInt32 modifiers).testBit 1 = decide (toUInt32 modifiers % 8 / 2 % 2 = 1) := by
    rw [Nat.testBit_to_div_mod]
    congr 1
    simp only [pow_one, eq_iff_iff]
    omega
  have h2 : (toUInt32 modifiers).testBit 2 = decide (toUInt32 modifiers % 8 / 4 % 2 = 1) := by
    rw [Nat.testBit_to_div_mod]
    congr 1
    simp only [eq_iff_iff]
    omega
  rw [h0, h1, h2]
  unfold OnKeyDownHook
  dsimp only
  rw [hmask]
  have hlt : toUInt32 modifiers % 8 < 8 := Nat.mod_lt _ (by decide)
  generalize toUInt32 modifiers % 8 = k at hlt
  have hne : keyB ≠ VK_ESCAPE := by decide
  rw [if_pos rfl, if_neg hne, if_pos rfl]
  interval_cases k <;> rfl

/-- C9: on the foreground control the toggle key 'B' returns (with enough fuel for the
host region), is handled, and leaves filter kind and diagonal flag determined by the
Shift, Ctrl and Alt bits of `modifiers` alone: no bit gives (None, off); Alt alone gives
(None, on); Ctrl gives Flora and Shift without Ctrl gives Network, diagonal iff Alt. -/
theorem C9_toggle_key_mapping (ids : BulldozeCursorIds) (fuel : Nat) (mode : ModeState)
    (pThis : Nat) (ctl : cSC4ViewInputControlDemolish) (modifiers : Int)
    (shift ctrl alt : Bool)
    (hfuel : ∀ r, ctl.pCellRegion = some r → regionSpan r < fuel)
    (hshift : (toUInt32 modifiers).testBit 0 = shift)
    (hctrl : (toUInt32 modifiers).testBit 1 = ctrl)
    (halt : (toUInt32 modifiers).testBit 2 = alt) :
    ∃ out, OnKeyDownHook ids fuel mode pThis ctl true keyB modifiers = some (true, out) ∧
      (out.mode.occupantFilterType, out.mode.diagonalMode) = toggleTable shift ctrl alt := by
  rw [OnKeyDownHook_toggle, hshift, hctrl, halt]
  obtain ⟨out, hout⟩ := SetOccupantFilterOption_isSome ids fuel mode pThis ctl
    (if ctrl = true then OccupantFilterType.Flora
     else if shift = true then OccupantFilterType.Network
     else OccupantFilterType.None) alt hfuel
  obtain ⟨hf, hd, -, -⟩ := SetOccupantFilterOption_mode _ _ _ _ _ _ _ _ hout
  refine ⟨out, by rw [hout]; rfl, ?_⟩
  rw [hf, hd]
  cases shift <;> cases ctrl <;> cases alt <;> rfl

/-- Witness of C9: Shift+Alt (plus an unrelated bit) pressed with 'B' while a selection over
the box (0,0)-(4,4) is active and the mode is (Flora, off). -/
theorem C9_toggle_key_mapping_witness :
    ((∀ r, sampleControl.pCellRegion = some r → regionSpan r < (5 : Nat)) ∧
      (toUInt32 13).testBit 0 = true ∧ (toUInt32 13).testBit 1 = false ∧
      (toUInt32 13).testBit 2 = true) ∧
    ∃ out, OnKeyDownHook sampleIds 5
        { occupantFilterType := OccupantFilterType.Flora, diagonalMode := false,
          diagonalThickness := 3, currentViewControl := none }
        7 sampleControl true keyB 13 = some (true, out) ∧
      (out.mode.occupantFilterType, out.mode.diagonalMode) = toggleTable true false true :=
  have hspan : ∀ r, sampleControl.pCellRegion = some r → regionSpan r < (5 : Nat) := by
    intro r hr
    injection hr with hr
    subst hr
    decide
  ⟨⟨hspan, by decide, by decide, by decide⟩,
    C9_toggle_key_mapping sampleIds 5
      { occupantFilterType := OccupantFilterType.Flora, diagonalMode := false,
        diagonalThickness := 3, currentViewControl := none }
      7 sampleControl 13 true false true hspan (by decide) (by decide) (by decide)⟩

/-- C10: after `Activate` the thickness is 1 and the current control is the activated
one; filter kind and diagonal flag are (Flora, off), (Flora, on), (Network, off),
(Network, on), (None, on) for the flora, flora-diagonal, network, network-diagonal and
default-diagonal cursor and (None, off) for every other cursor id.  The result is the same
for every previous mode state and depends on the control only through its cursor id. -/
theorem C10_activate_seeds_mode (ids : BulldozeCursorIds) (hids : ids.caseLabelsDistinct)
    (mode : ModeState) (pThis : Nat) (ctl : cSC4ViewInputControlDemolish) :
    (Activate ids mode pThis ctl).diagonalThickness = 1 ∧
    (Activate ids mode pThis ctl).currentViewControl = some pThis ∧
    (ctl.cursorIID = ids.BulldozeCursorFlora →
      (Activate ids mode pThis ctl).occupantFilterType = OccupantFilterType.Flora ∧
      (Activate ids mode pThis ctl).diagonalMode = false) ∧
    (ctl.cursorIID = ids.BulldozeCursorFloraDiagonal →
      (Activate ids mode pThis ctl).occupantFilterType = OccupantFilterType.Flora ∧
      (Activate ids mode pThis ctl).diagonalMode = true) ∧
    (ctl.cursorIID = ids.BulldozeCursorNetwork →
      (Activate ids mode pThis ctl).occupantFilterType = OccupantFilterType.Network ∧
      (Activate ids mode pThis ctl).diagonalMode = false) ∧
    (ctl.cursorIID = ids.BulldozeCursorNetworkDiagonal →
      (Activate ids mode pThis ctl).occupantFilterType = OccupantFilterType.Network ∧
      (Activate ids mode pThis ctl).diagonalMode = true) ∧
    (ctl.cursorIID = ids.BulldozeCursorDefaultDiagonal →
      (Activate ids mode pThis ctl).occupantFilterType = OccupantFilterType.None ∧
      (Activate ids mode pThis ctl).diagonalMode = true) ∧
    (ctl.cursorIID ∉ [ids.BulldozeCursorFlora, ids.BulldozeCursorFloraDiagonal,
        ids.BulldozeCursorNetwork, ids.BulldozeCursorNetworkDiagonal,
        ids.BulldozeCursorDefaultDiagonal] →
      (Activate ids mode pThis ctl).occupantFilterType = OccupantFilterType.None ∧
      (Activate ids mode pThis ctl).diagonalMode = false) ∧
    (∀ (mode2 : ModeState) (ctl2 : cSC4ViewInputControlDemolish),
      ctl2.cursorIID = ctl.cursorIID →
      Activate ids mode2 pThis ctl2 = Activate ids mode pThis ctl) := by
  unfold BulldozeCursorIds.caseLabelsDistinct at hids
  simp only [List.nodup_cons, List.mem_cons, List.mem_singleton, not_or, List.not_mem_nil,
    not_false_eq_true, List.nodup_nil, and_true] at hids
  obtain ⟨⟨a1, a2, a3, a4⟩, ⟨b1, b2, b3⟩, ⟨c1, c2⟩, d1⟩ := hids
  refine ⟨Activate_thickness ids mode pThis ctl, ?_, ?_, ?_, ?_, ?_, ?_, ?_, ?_⟩
  · unfold Activate
    dsimp only
    split_ifs <;> rfl
  · intro h
    unfold Activate
    dsimp only
    rw [if_pos h]
    exact ⟨rfl, rfl⟩
  · intro h
    unfold Activate
    dsimp only
    rw [h, if_neg (Ne.symm a1), if_pos rfl]
    exact ⟨rfl, rfl⟩
  · intro h
    unfold Activate
    dsimp only
    rw [h, if_neg (Ne.symm a2), if_neg (Ne.symm b1), if_pos rfl]
    exact ⟨rfl, rfl⟩
  · intro h
    unfold Activate
    dsimp only
    rw [h, if_neg (Ne.symm a3), if_neg (Ne.symm b2), if_neg (Ne.symm c1), if_pos rfl]
    exact ⟨rfl, rfl⟩
  · intro h
    unfold Activate
    dsimp only
    rw [h, if_neg (Ne.symm a4), if_neg (Ne.symm b3), if_neg (Ne.symm c2), if_neg (Ne.symm d1),
      if_pos rfl]
    exact ⟨rfl, rfl⟩
  · intro h
    simp only [List.mem_cons, List.mem_singleton, not_or, List.not_mem_nil, or_false] at h
    obtain ⟨e1, e2, e3, e4, e5⟩ := h
    unfold Activate
    dsimp only
    rw [if_neg e1, if_neg e2, if_neg e3, if_neg e4, if_neg e5]
    exact ⟨rfl, rfl⟩
  · intro mode2 ctl2 h
    unfold Activate
    dsimp only
    rw [h]

/-- Witness of C10: activation of a control with the network-diagonal cursor from the mode
state (Flora, off, thickness -4). -/
theorem C10_activate_seeds_mode_witness :
    sampleIds.caseLabelsDistinct ∧
    (cSC4ViewInputControlDemolish.mk 6 true 1 1 none).cursorIID =
      sampleIds.BulldozeCursorNetworkDiagonal ∧
    (Activate sampleIds (ModeState.mk OccupantFilterType.Flora false (-4) (some 3)) 7
      (cSC4ViewInputControlDemolish.mk 6 true 1 1 none)).occupantFilterType =
        OccupantFilterType.Network ∧
    (Activate sampleIds (ModeState.mk OccupantFilterType.Flora false (-4) (some 3)) 7
      (cSC4ViewInputControlDemolish.mk 6 true 1 1 none)).diagonalMode = true :=
  ⟨by decide, rfl,
    (C10_activate_seeds_mode sampleIds (by decide)
      (ModeState.mk OccupantFilterType.Flora false (-4) (some 3)) 7
      (cSC4ViewInputControlDemolish.mk 6 true 1 1 none)).2.2.2.2.2.1 rfl⟩

/-! ## Return values of the input handlers -/

/-- C11: with enough fuel for the host region `OnKeyDownHook` returns, and it returns
"handled" iff the tool is the foreground control and either the key is Escape while a cell
is picked or the key is 'B'.  Escape without a picked cell and every key on a control that
is not in the foreground are "not handled". -/
theorem C11_key_down_handled_iff (ids : BulldozeCursorIds) (fuel : Nat) (mode : ModeState)
    (pThis : Nat) (ctl : cSC4ViewInputControlDemolish) (isOnTop : Bool)
    (vkCode modifiers : Int)
    (hfuel : ∀ r, ctl.pCellRegion = some r → regionSpan r < fuel) :
    ∃ res, OnKeyDownHook ids fuel mode pThis ctl isOnTop vkCode modifiers = some res ∧
      (res.1 = true ↔
        isOnTop = true ∧ ((vkCode = VK_ESCAPE ∧ ctl.bCellPicked = true) ∨ vkCode = keyB)) ∧
      (vkCode = VK_ESCAPE → ctl.bCellPicked = false → res.1 = false) ∧
      (isOnTop = false → res.1 = false) := by
  have hne : keyB ≠ VK_ESCAPE := by decide
  cases isOnTop with
  | false =>
    refine ⟨(false, { mode := mode, ctl := ctl, calls := [] }), rfl, ?_, ?_, ?_⟩
    · simp
    · intro _ _; rfl
    · intro _; rfl
  | true =>
    by_cases hesc : vkCode = VK_ESCAPE
    · subst hesc
      cases hpick : ctl.bCellPicked with
      | false =>
        refine ⟨(false, { mode := mode, ctl := ctl, calls := [] }), ?_, ?_, ?_, ?_⟩
        · unfold OnKeyDownHook; simp [hpick]
        · simp [Ne.symm hne]
        · intro _ _; rfl
        · intro h; exact absurd h (by simp)
      | true =>
        refine ⟨(true, { mode := mode, ctl := ctl, calls := [HostCall.EndInput pThis] }),
          ?_, ?_, ?_, ?_⟩
        · unfold OnKeyDownHook; simp [hpick]
        · simp
        · intro _ h; exact absurd h (by simp)
        · intro h; exact absurd h (by simp)
    · by_cases hb : vkCode = keyB
      · subst hb
        rw [OnKeyDownHook_toggle]
        obtain ⟨out, hout⟩ := SetOccupantFilterOption_isSome ids fuel mode pThis ctl
          (if (toUInt32 modifiers).testBit 1 then OccupantFilterType.Flora
           else if (toUInt32 modifiers).testBit 0 then OccupantFilterType.Network
           else OccupantFilterType.None)
          ((toUInt32 modifiers).testBit 2) hfuel
        refine ⟨(true, out), by rw [hout]; rfl, ?_, ?_, ?_⟩
        · simp
        · intro h; exact absurd h hesc
        · intro h; exact absurd h (by simp)
      · refine ⟨(false, { mode := mode, ctl := ctl, calls := [] }), ?_, ?_, ?_, ?_⟩
        · unfold OnKeyDownHook; simp [hesc, hb]
        · simp [hesc, hb]
        · intro _ _; rfl
        · intro _; rfl

/-- Witness of C11: Escape on the foreground control while a selection over the box
(0,0)-(4,4) is active. -/
theorem C11_key_down_handled_iff_witness :
    (∀ r, sampleControl.pCellRegion = some r → regionSpan r < (5 : Nat)) ∧
    ∃ res, OnKeyDownHook sampleIds 5 ModeState.initial 7 sampleControl true VK_ESCAPE 0 =
        some res ∧
      (res.1 = true ↔
        true = true ∧ ((VK_ESCAPE = VK_ESCAPE ∧ sampleControl.bCellPicked = true) ∨
          VK_ESCAPE = keyB)) ∧
      (VK_ESCAPE = VK_ESCAPE → sampleControl.bCellPicked = false → res.1 = false) ∧
      (true = false → res.1 = false) :=
  have hspan : ∀ r, sampleControl.pCellRegion = some r → regionSpan r < (5 : Nat) := by
    intro r hr
    injection hr with hr
    subst hr
    decide
  ⟨hspan, C11_key_down_handled_iff sampleIds 5 ModeState.initial 7 sampleControl true
    VK_ESCAPE 0 hspan⟩

/-- C12: `OnMouseWheelHook` always returns; it returns "handled" iff diagonal mode is
active and the Alt bit of `modifiers` is set.  In every other case the mode state (the
thickness included) and the control with its region are unchanged and no host routine is
called, for every wheel delta. -/
theorem C12_mouse_wheel_handled_iff (ids : BulldozeCursorIds) (fuel : Nat) (mode : ModeState)
    (pThis : Nat) (ctl : cSC4ViewInputControlDemolish) (x z : Int) (modifiers : Nat)
    (wheelDelta : Int) :
    ∃ res, OnMouseWheelHook ids fuel mode pThis ctl x z modifiers wheelDelta = some res ∧
      (res.1 = true ↔
        mode.diagonalMode = true ∧ (modifiers &&& ModifierKeyFlagAlt) ≠ 0) ∧
      (¬ (mode.diagonalMode = true ∧ (modifiers &&& ModifierKeyFlagAlt) ≠ 0) →
        res.1 = false ∧ res.2.mode = mode ∧ res.2.ctl = ctl ∧ res.2.calls = []) := by
  unfold OnMouseWheelHook
  dsimp only
  split
  · rename_i hc
    split
    · split
      · have hs := SetOccupantFilterOption_same ids fuel
          { mode with diagonalThickness := wheelThickness mode.diagonalThickness wheelDelta }
          pThis ctl
        dsimp only at hs
        rw [hs]
        exact ⟨_, rfl, ⟨fun _ => hc, fun _ => rfl⟩, fun h => absurd hc h⟩
      · exact ⟨_, rfl, ⟨fun _ => hc, fun _ => rfl⟩, fun h => absurd hc h⟩
    · exact ⟨_, rfl, ⟨fun _ => hc, fun _ => rfl⟩, fun h => absurd hc h⟩
  · rename_i hc
    refine ⟨_, rfl, ⟨fun h => ?_, fun h => absurd h hc⟩, fun _ => ⟨rfl, rfl, rfl, rfl⟩⟩
    exact absurd h (by simp)

/-! ## The in-place copy -/

theorem copyColumn_spec (d : CellMap) (x : Nat) :
    ∀ (n : Nat) (m : CellMap),
      ((List.range n).foldl (fun m z => m.SetValue x z (d.GetValue x z)) m).width = m.width ∧
      ((List.range n).foldl (fun m z => m.SetValue x z (d.GetValue x z)) m).height = m.height ∧
      ∀ u v : Nat,
        ((List.range n).foldl (fun m z => m.SetValue x z (d.GetValue x z)) m).GetValue u v =
          if u = x ∧ v < n ∧ x < m.width ∧ v < m.height then d.GetValue x v
          else m.GetValue u v := by
  intro n
  induction n with
  | zero =>
    intro m
    refine ⟨rfl, rfl, ?_⟩
    intro u v
    simp
  | succ n ih =>
    intro m
    obtain ⟨hw, hh, hg⟩ := ih m
    rw [List.range_succ, List.foldl_append]
    simp only [List.foldl_cons, List.foldl_nil]
    refine ⟨?_, ?_, ?_⟩
    · rw [CellMap.SetValue_width, hw]
    · rw [CellMap.SetValue_height, hh]
    · intro u v
      rw [CellMap.GetValue_SetValue, hw, hh, hg]
      by_cases h1 : u = x ∧ v = n ∧ x < m.width ∧ n < m.height
      · obtain ⟨rfl, rfl, h3, h4⟩ := h1
        rw [if_pos ⟨rfl, rfl, h3, h4⟩, if_pos ⟨rfl, Nat.lt_succ_self _, h3, h4⟩]
      · rw [if_neg h1]
        by_cases h2 : u = x ∧ v < n ∧ x < m.width ∧ v < m.height
        · rw [if_pos h2, if_pos ⟨h2.1, Nat.lt_succ_of_lt h2.2.1, h2.2.2⟩]
        · rw [if_neg h2, if_neg]
          rintro ⟨a1, a2, a3, a4⟩
          rcases Nat.lt_succ_iff_lt_or_eq.mp a2 with h | h
          · exact h2 ⟨a1, h, a3, a4⟩
          · subst h
            exact h1 ⟨a1, rfl, a3, a4⟩

/-- The copy loops keep the dimensions of the existing map and overwrite exactly the cells
`(u, v)` with `u < width`, `v < height` that the existing map has. -/
theorem copyCellMap_spec (e d : CellMap) (height : Nat) :
    ∀ width : Nat,
      (copyCellMap e d width height).width = e.width ∧
      (copyCellMap e d width height).height = e.height ∧
      ∀ u v : Nat, (copyCellMap e d width height).GetValue u v =
        if u < width ∧ v < height ∧ u < e.width ∧ v < e.height then d.GetValue u v
        else e.GetValue u v := by
  intro width
  induction width with
  | zero =>
    refine ⟨rfl, rfl, ?_⟩
    intro u v
    simp [copyCellMap]
  | succ n ih =>
    obtain ⟨hw, hh, hg⟩ := ih
    unfold copyCellMap at hw hh hg ⊢
    rw [List.range_succ, List.foldl_append]
    simp only [List.foldl_cons, List.foldl_nil]
    obtain ⟨cw, ch, cg⟩ := copyColumn_spec d n height
      ((List.range n).foldl
        (fun m x => (List.range height).foldl
          (fun m z => m.SetValue x z (d.GetValue x z)) m) e)
    refine ⟨cw.trans hw, ch.trans hh, ?_⟩
    intro u v
    rw [cg, hw, hh, hg]
    by_cases h1 : u = n ∧ v < height ∧ n < e.width ∧ v < e.height
    · obtain ⟨rfl, h2, h3, h4⟩ := h1
      rw [if_pos ⟨rfl, h2, h3, h4⟩, if_pos ⟨Nat.lt_succ_self _, h2, h3, h4⟩]
    · rw [if_neg h1]
      by_cases h2 : u < n ∧ v < height ∧ u < e.width ∧ v < e.height
      · rw [if_pos h2, if_pos ⟨Nat.lt_succ_of_lt h2.1, h2.2⟩]
      · rw [if_neg h2, if_neg]
        rintro ⟨a1, a2, a3, a4⟩
        rcases Nat.lt_succ_iff_lt_or_eq.mp a1 with h | h
        · exact h2 ⟨h, a2, a3, a4⟩
        · subst h
          exact h1 ⟨rfl, a2, a3, a4⟩

/-- The in-place rewrite of `SetOccupantFilterOption` keeps bounds and dimensions, and
leaves the map alone when the bounds disagree. -/
theorem rewriteRegion_frame (fuel : Nat) (region region1 : SC4CellRegion)
    (clickX clickZ t : Int) (h : rewriteRegion fuel region clickX clickZ t = some region1) :
    region1.bounds = region.bounds ∧
    region1.cellMap.width = region.cellMap.width ∧
    region1.cellMap.height = region.cellMap.height ∧
    ∀ diagonalRegion,
      CreateDiagonalRegion fuel region.bounds.topLeftX region.bounds.topLeftY
        region.bounds.bottomRightX region.bounds.bottomRightY clickX clickZ t =
          some diagonalRegion →
      region.bounds ≠ diagonalRegion.bounds → region1.cellMap = region.cellMap := by
  unfold rewriteRegion at h
  dsimp only at h
  split at h
  · exact absurd h (by simp)
  · rename_i diag hdiag
    split at h
    · rename_i heq
      injection h with h
      subst h
      obtain ⟨cw, ch, -⟩ := copyCellMap_spec region.cellMap diag.cellMap
        (toUInt32 (region.bounds.bottomRightY - region.bounds.topLeftY + 1))
        (toUInt32 (region.bounds.bottomRightX - region.bounds.topLeftX + 1))
      refine ⟨rfl, cw, ch, ?_⟩
      intro d2 hd2 hne
      rw [hdiag] at hd2
      injection hd2 with hd2
      subst hd2
      exfalso
      apply hne
      obtain ⟨a1, a2, a3, a4⟩ := heq
      cases hb : region.bounds
      cases hd : diag.bounds
      rw [hb, hd] at a1 a2 a3 a4
      simp only at a1 a2 a3 a4
      rw [a1, a2, a3, a4]
    · injection h with h
      subst h
      exact ⟨rfl, rfl, rfl, fun _ _ _ => rfl⟩

/-- The copy of the preview hook keeps bounds and dimensions, and leaves the map alone
when the bounds disagree. -/
theorem previewCopy_frame (existing : SC4CellRegion) (bounds : SC4Rect)
    (diagonalRegion : SC4CellRegion) :
    (previewCopy existing bounds diagonalRegion).bounds = existing.bounds ∧
    (previewCopy existing bounds diagonalRegion).cellMap.width = existing.cellMap.width ∧
    (previewCopy existing bounds diagonalRegion).cellMap.height = existing.cellMap.height ∧
    (existing.bounds ≠ diagonalRegion.bounds →
      (previewCopy existing bounds diagonalRegion).cellMap = existing.cellMap) := by
  unfold previewCopy
  dsimp only
  split
  · rename_i heq
    obtain ⟨cw, ch, -⟩ := copyCellMap_spec existing.cellMap diagonalRegion.cellMap
      (toUInt32 (bounds.bottomRightY - bounds.topLeftY + 1))
      (toUInt32 (bounds.bottomRightX - bounds.topLeftX + 1))
    refine ⟨rfl, cw, ch, ?_⟩
    intro hne
    exfalso
    apply hne
    obtain ⟨a1, a2, a3, a4⟩ := heq
    cases hb : existing.bounds
    cases hd : diagonalRegion.bounds
    rw [hb, hd] at a1 a2 a3 a4
    simp only at a1 a2 a3 a4
    rw [a1, a2, a3, a4]
  · exact ⟨rfl, rfl, rfl, fun _ => rfl⟩

/-- Frame of `SetOccupantFilterOption` on the host region. -/
theorem SetOccupantFilterOption_frame (ids : BulldozeCursorIds) (fuel : Nat) (mode : ModeState)
    (pThis : Nat) (ctl : cSC4ViewInputControlDemolish) (type : OccupantFilterType)
    (diagonal : Bool) (out : HookOutcome) (region : SC4CellRegion)
    (h : SetOccupantFilterOption ids fuel mode pThis ctl type diagonal = some out)
    (hreg : ctl.pCellRegion = some region) :
    ∃ region1, out.ctl.pCellRegion = some region1 ∧
      region1.bounds = region.bounds ∧
      region1.cellMap.width = region.cellMap.width ∧
      region1.cellMap.height = region.cellMap.height ∧
      ∀ diagonalRegion,
        CreateDiagonalRegion fuel region.bounds.topLeftX region.bounds.topLeftY
          region.bounds.bottomRightX region.bounds.bottomRightY ctl.clickX ctl.clickZ
          mode.diagonalThickness = some diagonalRegion →
        region.bounds ≠ diagonalRegion.bounds → region1.cellMap = region.cellMap := by
  unfold SetOccupantFilterOption at h
  dsimp only at h
  split at h
  · split at h
    · split at h
      · rename_i region0 hreg0
        have hr0 : region0 = region := by
          split at hreg0
          · rw [hreg] at hreg0
            injection hreg0 with hreg0
            exact hreg0.symm
          · exact absurd hreg0 (by simp)
        subst hr0
        split at h
        · exact absurd h (by simp)
        · rename_i region1 hrw
          injection h with h
          subst h
          exact ⟨region1, rfl, rewriteRegion_frame fuel region0 region1 _ _ _ hrw⟩
      · injection h with h; subst h
        exact ⟨region, hreg, rfl, rfl, rfl, fun _ _ _ => rfl⟩
    · injection h with h; subst h
      exact ⟨region, hreg, rfl, rfl, rfl, fun _ _ _ => rfl⟩
  · injection h with h; subst h
    exact ⟨region, hreg, rfl, rfl, rfl, fun _ _ _ => rfl⟩

/-- Frame of the preview hook on the region of the view control. -/
theorem UpdateSelectedRegionDemolishRegion_frame (fuel : Nat) (mode : ModeState)
    (viewControl : cSC4ViewInputControlDemolish) (host : DemolishCall → Bool)
    (pDemolition : Nat) (cellRegion : SC4CellRegion) (unused : Int) (flags : Nat)
    (clearZonedArea : Bool) (pOccupantFilter : OccupantFilterPtr)
    (rest : DemolishPassThrough) (out : DemolishHookOutcome) (existing : SC4CellRegion)
    (h : UpdateSelectedRegionDemolishRegion fuel mode viewControl host pDemolition cellRegion
      unused flags clearZonedArea pOccupantFilter rest = some out)
    (hreg : viewControl.pCellRegion = some existing) :
    ∃ existing1, out.viewControl.pCellRegion = some existing1 ∧
      existing1.bounds = existing.bounds ∧
      existing1.cellMap.width = existing.cellMap.width ∧
      existing1.cellMap.height = existing.cellMap.height ∧
      ∀ diagonalRegion,
        CreateDiagonalRegion fuel cellRegion.bounds.topLeftX cellRegion.bounds.topLeftY
          cellRegion.bounds.bottomRightX cellRegion.bounds.bottomRightY viewControl.clickX
          viewControl.clickZ mode.diagonalThickness = some diagonalRegion →
        existing.bounds ≠ diagonalRegion.bounds → existing1.cellMap = existing.cellMap := by
  unfold UpdateSelectedRegionDemolishRegion at h
  dsimp only at h
  split at h
  · rename_i existing0 hreg0
    have hr0 : existing0 = existing := by
      split at hreg0
      · rw [hreg] at hreg0
        injection hreg0 with hreg0
        exact hreg0.symm
      · exact absurd hreg0 (by simp)
    subst hr0
    split at h
    · exact absurd h (by simp)
    · rename_i diag hdiag
      injection h with h
      subst h
      obtain ⟨b, w, hh, hm⟩ := previewCopy_frame existing0 cellRegion.bounds diag
      refine ⟨_, rfl, b, w, hh, ?_⟩
      intro d2 hd2 hne
      rw [hdiag] at hd2
      injection hd2 with hd2
      subst hd2
      exact hm hne
  · injection h with h; subst h
    exact ⟨existing, hreg, rfl, rfl, rfl, fun _ _ _ => rfl⟩

/-! ## The demolition hooks -/

theorem CreateDiagonalRegion_isSome (x1 z1 x2 z2 startX startZ t : Int) (fuel : Nat)
    (hfuel : max (max x1 x2 - min x1 x2) (max z1 z2 - min z1 z2) < fuel) :
    ∃ r, CreateDiagonalRegion fuel x1 z1 x2 z2 startX startZ t = some r := by
  obtain ⟨r, s, tail, hrun, -⟩ :=
    CreateDiagonalRegionRun_spec x1 z1 x2 z2 startX startZ t fuel hfuel
  exact ⟨r, by unfold CreateDiagonalRegion; rw [hrun]; rfl⟩

/-- The preview hook in its diagonal branch. -/
theorem UpdateSelectedRegionDemolishRegion_diagonal (fuel : Nat) (mode : ModeState)
    (viewControl : cSC4ViewInputControlDemolish) (host : DemolishCall → Bool)
    (pDemolition : Nat) (cellRegion : SC4CellRegion) (unused : Int) (flags : Nat)
    (clearZonedArea : Bool) (pOccupantFilter : OccupantFilterPtr)
    (rest : DemolishPassThrough) (existing diagonalRegion : SC4CellRegion)
    (hdiag : mode.diagonalMode = true) (hcur : mode.currentViewControl.isSome = true)
    (hreg : viewControl.pCellRegion = some existing)
    (hcreate : CreateDiagonalRegion fuel cellRegion.bounds.topLeftX cellRegion.bounds.topLeftY
      cellRegion.bounds.bottomRightX cellRegion.bounds.bottomRightY viewControl.clickX
      viewControl.clickZ mode.diagonalThickness = some diagonalRegion) :
    UpdateSelectedRegionDemolishRegion fuel mode viewControl host pDemolition cellRegion
      unused flags clearZonedArea pOccupantFilter rest =
      some
        { result := (DemolishRegion mode host pDemolition false diagonalRegion 1 flags
            clearZonedArea rest).1
          viewControl :=
            { viewControl with
              pCellRegion := some (previewCopy existing cellRegion.bounds diagonalRegion) }
          demolishOK := some (previewColorFor mode.occupantFilterType)
          call := (DemolishRegion mode host pDemolition false diagonalRegion 1 flags
            clearZonedArea rest).2 } := by
  unfold UpdateSelectedRegionDemolishRegion
  dsimp only
  rw [if_pos ⟨hdiag, hcur⟩, hreg]
  dsimp only
  rw [hcreate, if_pos hcur]

/-- The preview hook in its rectangular branch. -/
theorem UpdateSelectedRegionDemolishRegion_rectangular (fuel : Nat) (mode : ModeState)
    (viewControl : cSC4ViewInputControlDemolish) (host : DemolishCall → Bool)
    (pDemolition : Nat) (cellRegion : SC4CellRegion) (unused : Int) (flags : Nat)
    (clearZonedArea : Bool) (pOccupantFilter : OccupantFilterPtr)
    (rest : DemolishPassThrough)
    (hrect : ¬ (mode.diagonalMode = true ∧ mode.currentViewControl.isSome = true ∧
      viewControl.pCellRegion.isSome = true)) :
    UpdateSelectedRegionDemolishRegion fuel mode viewControl host pDemolition cellRegion
      unused flags clearZonedArea pOccupantFilter rest =
      some
        { result := (DemolishRegion mode host pDemolition false cellRegion 1 flags
            clearZonedArea rest).1
          viewControl := viewControl
          demolishOK :=
            if mode.currentViewControl.isSome then some (previewColorFor mode.occupantFilterType)
            else none
          call := (DemolishRegion mode host pDemolition false cellRegion 1 flags
            clearZonedArea rest).2 } := by
  have hnone : (if mode.diagonalMode = true ∧ mode.currentViewControl.isSome = true then
      viewControl.pCellRegion else none) = none := by
    split
    · rename_i h
      cases hr : viewControl.pCellRegion with
      | none => rfl
      | some r => exact absurd ⟨h.1, h.2, by rw [hr]; rfl⟩ hrect
    · rfl
  unfold UpdateSelectedRegionDemolishRegion
  dsimp only
  rw [hnone]

/-- C14, as stated, fails: in diagonal mode with a current control that owns no region the
preview hook passes the rectangular input region (which selects the cell (0,4)), not the
diagonal region computed by `CreateDiagonalRegion` (which does not). -/
theorem C14_counterexample :
    sampleDiagonalMode.diagonalMode = true ∧
    (UpdateSelectedRegionDemolishRegion 5 sampleDiagonalMode sampleControlNoRegion
      (fun _ => true) 0 (SC4CellRegion.create 0 0 4 4 true) 0 0 false
      OccupantFilterPtr.null samplePassThrough).map
        (fun out => (out.call.demolish, out.call.cellRegion.selected 0 4)) =
      some (false, true) ∧
    (CreateDiagonalRegion 5 0 0 4 4 sampleControlNoRegion.clickX sampleControlNoRegion.clickZ
      sampleDiagonalMode.diagonalThickness).map (fun r => r.selected 0 4) = some false := by
  refine ⟨rfl, ?_, ?_⟩
  · decide
  · decide

/-- C14, amended: with enough fuel the preview hook returns and calls the demolition
routine with `demolish = false`.  When diagonal mode is active, the current control is set
and owns a region, the region passed is the one computed by `CreateDiagonalRegion` over
the bounds of the input region with the click anchor of the current control.  Otherwise
(in particular whenever diagonal mode is off) the input region is passed unmodified and
the control with its region is left as it was. -/
theorem C14_preview_call_amended (fuel : Nat) (mode : ModeState)
    (viewControl : cSC4ViewInputControlDemolish) (host : DemolishCall → Bool)
    (pDemolition : Nat) (cellRegion : SC4CellRegion) (unused : Int) (flags : Nat)
    (clearZonedArea : Bool) (pOccupantFilter : OccupantFilterPtr)
    (rest : DemolishPassThrough) (hfuel : regionSpan cellRegion < fuel) :
    ∃ out, UpdateSelectedRegionDemolishRegion fuel mode viewControl host pDemolition
        cellRegion unused flags clearZonedArea pOccupantFilter rest = some out ∧
      out.call.demolish = false ∧
      (mode.diagonalMode = true ∧ mode.currentViewControl.isSome = true ∧
          viewControl.pCellRegion.isSome = true →
        CreateDiagonalRegion fuel cellRegion.bounds.topLeftX cellRegion.bounds.topLeftY
          cellRegion.bounds.bottomRightX cellRegion.bounds.bottomRightY viewControl.clickX
          viewControl.clickZ mode.diagonalThickness = some out.call.cellRegion) ∧
      (¬ (mode.diagonalMode = true ∧ mode.currentViewControl.isSome = true ∧
          viewControl.pCellRegion.isSome = true) →
        out.call.cellRegion = cellRegion ∧ out.viewControl = viewControl) ∧
      (mode.diagonalMode = false →
        out.call.cellRegion = cellRegion ∧ out.viewControl = viewControl) := by
  by_cases hg : mode.diagonalMode = true ∧ mode.currentViewControl.isSome = true ∧
      viewControl.pCellRegion.isSome = true
  · obtain ⟨hdiag, hcur, hsome⟩ := hg
    obtain ⟨existing, hreg⟩ := Option.isSome_iff_exists.mp hsome
    obtain ⟨diag, hcreate⟩ := CreateDiagonalRegion_isSome cellRegion.bounds.topLeftX
      cellRegion.bounds.topLeftY cellRegion.bounds.bottomRightX cellRegion.bounds.bottomRightY
      viewControl.clickX viewControl.clickZ mode.diagonalThickness fuel hfuel
    rw [UpdateSelectedRegionDemolishRegion_diagonal fuel mode viewControl host pDemolition
      cellRegion unused flags clearZonedArea pOccupantFilter rest existing diag hdiag hcur hreg
      hcreate]
    refine ⟨_, rfl, rfl, fun _ => hcreate, fun h => absurd ⟨hdiag, hcur, hsome⟩ h, ?_⟩
    intro h
    rw [hdiag] at h
    exact absurd h (by simp)
  · rw [UpdateSelectedRegionDemolishRegion_rectangular fuel mode viewControl host pDemolition
      cellRegion unused flags clearZonedArea pOccupantFilter rest hg]
    exact ⟨_, rfl, rfl, fun h => absurd h hg, fun _ => ⟨rfl, rfl⟩, fun _ => ⟨rfl, rfl⟩⟩

/-- Witness of the amended C14: diagonal mode, the current control owns the region
(0,0)-(4,4) and the input region has the same bounds; fuel 5. -/
theorem C14_preview_call_amended_witness :
    regionSpan (SC4CellRegion.create 0 0 4 4 true) < (5 : Nat) ∧
    (sampleDiagonalMode.diagonalMode = true ∧
      sampleDiagonalMode.currentViewControl.isSome = true ∧
      sampleControl.pCellRegion.isSome = true) ∧
    ∃ out, UpdateSelectedRegionDemolishRegion 5 sampleDiagonalMode sampleControl
        (fun _ => true) 0 (SC4CellRegion.create 0 0 4 4 true) 0 0 false
        OccupantFilterPtr.null samplePassThrough = some out ∧
      out.call.demolish = false ∧
      CreateDiagonalRegion 5 0 0 4 4 1 1 1 = some out.call.cellRegion :=
  ⟨by decide, ⟨rfl, rfl, rfl⟩,
    match C14_preview_call_amended 5 sampleDiagonalMode sampleControl (fun _ => true) 0
      (SC4CellRegion.create 0 0 4 4 true) 0 0 false OccupantFilterPtr.null samplePassThrough
      (by decide) with
    | ⟨out, h1, h2, h3, _⟩ => ⟨out, h1, h2, h3 ⟨rfl, rfl, rfl⟩⟩⟩

/-- The commit hook in diagonal mode with a current control. -/
theorem OnMouseUpLDemolishRegion_diagonal (fuel : Nat) (mode : ModeState)
    (viewControl : cSC4ViewInputControlDemolish) (host : DemolishCall → Bool)
    (pDemolition : Nat) (cellRegion : SC4CellRegion) (unused : Int) (flags : Nat)
    (clearZonedArea : Bool) (pOccupantFilter : OccupantFilterPtr)
    (rest : DemolishPassThrough) (diagonalRegion : SC4CellRegion)
    (hdiag : mode.diagonalMode = true) (hcur : mode.currentViewControl.isSome = true)
    (hcreate : CreateDiagonalRegion fuel cellRegion.bounds.topLeftX cellRegion.bounds.topLeftY
      cellRegion.bounds.bottomRightX cellRegion.bounds.bottomRightY viewControl.clickX
      viewControl.clickZ mode.diagonalThickness = some diagonalRegion) :
    OnMouseUpLDemolishRegion fuel mode viewControl host pDemolition cellRegion
      unused flags clearZonedArea pOccupantFilter rest =
      some
        { result := (DemolishRegion mode host pDemolition true diagonalRegion 1 flags
            clearZonedArea rest).1
          viewControl := viewControl
          demolishOK := none
          call := (DemolishRegion mode host pDemolition true diagonalRegion 1 flags
            clearZonedArea rest).2 } := by
  unfold OnMouseUpLDemolishRegion
  dsimp only
  rw [if_pos hdiag, if_pos hcur, if_pos hcur, hcreate]

/-- The commit hook outside diagonal mode. -/
theorem OnMouseUpLDemolishRegion_rectangular (fuel : Nat) (mode : ModeState)
    (viewControl : cSC4ViewInputControlDemolish) (host : DemolishCall → Bool)
    (pDemolition : Nat) (cellRegion : SC4CellRegion) (unused : Int) (flags : Nat)
    (clearZonedArea : Bool) (pOccupantFilter : OccupantFilterPtr)
    (rest : DemolishPassThrough) (hdiag : mode.diagonalMode = false) :
    OnMouseUpLDemolishRegion fuel mode viewControl host pDemolition cellRegion
      unused flags clearZonedArea pOccupantFilter rest =
      some
        { result := (DemolishRegion mode host pDemolition true cellRegion 1 flags
            clearZonedArea rest).1
          viewControl := viewControl
          demolishOK := none
          call := (DemolishRegion mode host pDemolition true cellRegion 1 flags
            clearZonedArea rest).2 } := by
  unfold OnMouseUpLDemolishRegion
  dsimp only
  rw [if_neg (by rw [hdiag]; simp)]

/-- C15, as stated, fails: in diagonal mode with a current control that owns no region the
preview hook passes the rectangular input region (which selects the cell (0,4)) while the
commit hook passes the diagonal region (which does not). -/
theorem C15_counterexample :
    (UpdateSelectedRegionDemolishRegion 5 sampleDiagonalMode sampleControlNoRegion
      (fun _ => true) 0 (SC4CellRegion.create 0 0 4 4 true) 0 0 false
      OccupantFilterPtr.null samplePassThrough).map
        (fun out => (out.call.demolish, out.call.cellRegion.selected 0 4)) =
      some (false, true) ∧
    (OnMouseUpLDemolishRegion 5 sampleDiagonalMode sampleControlNoRegion
      (fun _ => true) 0 (SC4CellRegion.create 0 0 4 4 true) 0 0 false
      OccupantFilterPtr.null samplePassThrough).map
        (fun out => (out.call.demolish, out.call.cellRegion.selected 0 4)) =
      some (true, false) := by
  refine ⟨?_, ?_⟩
  · decide
  · decide

/-- C15, amended: when diagonal mode is off, or the current control is set and owns a
region, then (with enough fuel) the preview hook and the commit hook both return, and for
the same inputs the commit hook calls the demolition routine with the arguments of the
preview hook except `demolish`, which is true for the commit and false for the preview;
in particular the region and the occupant filter are the same. -/
theorem C15_commit_matches_preview_amended (fuel : Nat) (mode : ModeState)
    (viewControl : cSC4ViewInputControlDemolish) (host : DemolishCall → Bool)
    (pDemolition : Nat) (cellRegion : SC4CellRegion) (unusedPreview unusedCommit : Int)
    (flags : Nat) (clearZonedArea : Bool) (filterPreview filterCommit : OccupantFilterPtr)
    (rest : DemolishPassThrough)
    (hguard : mode.diagonalMode = false ∨
      (mode.currentViewControl.isSome = true ∧ viewControl.pCellRegion.isSome = true))
    (hfuel : regionSpan cellRegion < fuel) :
    ∃ preview commit,
      UpdateSelectedRegionDemolishRegion fuel mode viewControl host pDemolition cellRegion
        unusedPreview flags clearZonedArea filterPreview rest = some preview ∧
      OnMouseUpLDemolishRegion fuel mode viewControl host pDemolition cellRegion
        unusedCommit flags clearZonedArea filterCommit rest = some commit ∧
      preview.call.demolish = false ∧ commit.call.demolish = true ∧
      commit.call.cellRegion = preview.call.cellRegion ∧
      commit.call.occupantFilter = preview.call.occupantFilter ∧
      commit.call = { preview.call with demolish := true } := by
  cases hd : mode.diagonalMode with
  | false =>
    rw [UpdateSelectedRegionDemolishRegion_rectangular fuel mode viewControl host pDemolition
      cellRegion unusedPreview flags clearZonedArea filterPreview rest
      (by rw [hd]; simp),
      OnMouseUpLDemolishRegion_rectangular fuel mode viewControl host pDemolition
      cellRegion unusedCommit flags clearZonedArea filterCommit rest hd]
    exact ⟨_, _, rfl, rfl, rfl, rfl, rfl, rfl, rfl⟩
  | true =>
    rcases hguard with h | ⟨hcur, hsome⟩
    · rw [hd] at h
      exact absurd h (by simp)
    · obtain ⟨existing, hreg⟩ := Option.isSome_iff_exists.mp hsome
      obtain ⟨diag, hcreate⟩ := CreateDiagonalRegion_isSome cellRegion.bounds.topLeftX
        cellRegion.bounds.topLeftY cellRegion.bounds.bottomRightX
        cellRegion.bounds.bottomRightY viewControl.clickX viewControl.clickZ
        mode.diagonalThickness fuel hfuel
      rw [UpdateSelectedRegionDemolishRegion_diagonal fuel mode viewControl host pDemolition
        cellRegion unusedPreview flags clearZonedArea filterPreview rest existing diag hd hcur
        hreg hcreate,
        OnMouseUpLDemolishRegion_diagonal fuel mode viewControl host pDemolition
        cellRegion unusedCommit flags clearZonedArea filterCommit rest diag hd hcur hcreate]
      exact ⟨_, _, rfl, rfl, rfl, rfl, rfl, rfl, rfl⟩

/-- Witness of the amended C15: diagonal mode with a current control that owns the region
(0,0)-(4,4); the host call sites supply different filter arguments. -/
theorem C15_commit_matches_preview_amended_witness :
    (sampleDiagonalMode.diagonalMode = false ∨
      (sampleDiagonalMode.currentViewControl.isSome = true ∧
        sampleControl.pCellRegion.isSome = true)) ∧
    regionSpan (SC4CellRegion.create 0 0 4 4 true) < (5 : Nat) ∧
    ∃ preview commit,
      UpdateSelectedRegionDemolishRegion 5 sampleDiagonalMode sampleControl (fun _ => true) 0
        (SC4CellRegion.create 0 0 4 4 true) 1 0 false (OccupantFilterPtr.hostFilter 11)
        samplePassThrough = some preview ∧
      OnMouseUpLDemolishRegion 5 sampleDiagonalMode sampleControl (fun _ => true) 0
        (SC4CellRegion.create 0 0 4 4 true) 2 0 false (OccupantFilterPtr.hostFilter 12)
        samplePassThrough = some commit ∧
      preview.call.demolish = false ∧ commit.call.demolish = true ∧
      commit.call.cellRegion = preview.call.cellRegion ∧
      commit.call.occupantFilter = preview.call.occupantFilter ∧
      commit.call = { preview.call with demolish := true } :=
  ⟨Or.inr ⟨rfl, rfl⟩, by decide,
    C15_commit_matches_preview_amended 5 sampleDiagonalMode sampleControl (fun _ => true) 0
      (SC4CellRegion.create 0 0 4 4 true) 1 2 0 false (OccupantFilterPtr.hostFilter 11)
      (OccupantFilterPtr.hostFilter 12) samplePassThrough (Or.inr ⟨rfl, rfl⟩) (by decide)⟩

/-! ## The patch installer -/

theorem runWrites_written (patcher : PatchWrite → PatchResult) :
    ∀ ws : List PatchWrite,
      (runWrites patcher ws).2 = PatchResult.written ↔
        ∀ w ∈ ws, patcher w = PatchResult.written := by
  intro ws
  induction ws with
  | nil => simp [runWrites]
  | cons w ws ih =>
    unfold runWrites
    cases hw : patcher w with
    | written =>
      simp only [List.mem_cons, forall_eq_or_imp, hw, true_and]
      exact ih
    | resultException => simp [hw]
    | otherException => simp [hw]

/-- C16: `Install` returns success iff the game version is 641 and no call of the patcher
raises an exception; for every other version it returns failure and makes no write. -/
theorem C16_install_success_iff (gameVersion : Nat) (patcher : PatchWrite → PatchResult) :
    ((Install gameVersion patcher).returned = some true ↔
      gameVersion = 641 ∧ ∀ w ∈ installWrites, patcher w = PatchResult.written) ∧
    (gameVersion ≠ 641 →
      (Install gameVersion patcher).returned = some false ∧
      (Install gameVersion patcher).writes = []) := by
  have hrun := runWrites_written patcher installWrites
  unfold Install
  by_cases hv : gameVersion = 641
  · rw [if_pos hv]
    refine ⟨?_, fun h => absurd hv h⟩
    rw [← hrun]
    generalize runWrites patcher installWrites = res
    obtain ⟨writes, outcome⟩ := res
    cases outcome <;> simp [hv]
  · rw [if_neg hv]
    exact ⟨by simp [hv], fun _ => ⟨rfl, rfl⟩⟩

/-- Witness of C16: version 640 with a patcher that never raises. -/
theorem C16_install_success_iff_witness :
    (640 : Nat) ≠ 641 ∧
    (Install 640 (fun _ => PatchResult.written)).returned = some false ∧
    (Install 640 (fun _ => PatchResult.written)).writes = [] :=
  ⟨by decide, (C16_install_success_iff 640 (fun _ => PatchResult.written)).2 (by decide)⟩

/-! ## Thick lines -/

theorem length_thicknessOffsets (t : Int) :
    (thicknessOffsets t).length = t.natAbs := by
  unfold thicknessOffsets
  dsimp only
  rw [List.length_map, List.length_range]
  split_ifs <;> omega

/-- C17: for a box whose spans differ, any anchor and a thickness `t ≠ 0`,
`CreateDiagonalRegion` returns (for every fuel above the longer span), and a cell is
selected iff it lies in the box and is a traced cell shifted by an offset `k` along Z when
the horizontal span is the larger one and along X when the vertical span is the larger
one, with `0 ≤ k ≤ t - 1` for `t > 0` and `t + 1 ≤ k ≤ 0` for `t < 0`.  There are `|t|`
offsets, so every step marks at most `|t|` cells. -/
theorem C17_thick_line_cells (x1 z1 x2 z2 startX startZ t : Int) (fuel : Nat)
    (hspans : max x1 x2 - min x1 x2 ≠ max z1 z2 - min z1 z2) (ht : t ≠ 0)
    (hfuel : max (max x1 x2 - min x1 x2) (max z1 z2 - min z1 z2) < fuel) :
    ∃ (r : SC4CellRegion) (trace : List (Int × Int)),
      CreateDiagonalRegion fuel x1 z1 x2 z2 startX startZ t = some r ∧
      CreateDiagonalTrace fuel x1 z1 x2 z2 startX startZ t = some trace ∧
      (thicknessOffsets t).length = t.natAbs ∧
      ∀ X Z : Int, r.selected X Z = true ↔
        (min x1 x2 ≤ X ∧ X ≤ max x1 x2 ∧ min z1 z2 ≤ Z ∧ Z ≤ max z1 z2) ∧
          ∃ c ∈ trace, ∃ k : Int,
            ((0 < t ∧ 0 ≤ k ∧ k ≤ t - 1) ∨ (t < 0 ∧ t + 1 ≤ k ∧ k ≤ 0)) ∧
            ((max z1 z2 - min z1 z2 < max x1 x2 - min x1 x2 ∧ X = c.1 ∧ Z = c.2 + k) ∨
              (max x1 x2 - min x1 x2 < max z1 z2 - min z1 z2 ∧ X = c.1 + k ∧ Z = c.2)) := by
  obtain ⟨r, s, hrun, -, -, -, hsel⟩ :=
    CreateDiagonalRegionRun_selected x1 z1 x2 z2 startX startZ t fuel hfuel
  have hdx := lineParams_dx x1 z1 x2 z2 startX startZ t
  have hdz := lineParams_dz x1 z1 x2 z2 startX startZ t
  have hx0 : 0 ≤ max x1 x2 - min x1 x2 := by omega
  have hz0 : 0 ≤ max z1 z2 - min z1 z2 := by omega
  have hperp : ∀ a b k : Int, perpCell (lineParams x1 z1 x2 z2 startX startZ t) a b k =
      if max z1 z2 - min z1 z2 < max x1 x2 - min x1 x2 then (a, b + k) else (a + k, b) := by
    intro a b k
    unfold perpCell cabs
    rw [hdx, hdz, if_neg (not_lt.mpr hx0), if_neg (not_lt.mpr hz0)]
  refine ⟨r, s.visited, by unfold CreateDiagonalRegion; rw [hrun]; rfl,
    by unfold CreateDiagonalTrace; rw [hrun]; rfl, length_thicknessOffsets t, ?_⟩
  intro X Z
  rw [hsel]
  constructor
  · rintro ⟨hbox, c, hc, k, hk, hp⟩
    rw [mem_thicknessOffsets] at hk
    rw [hperp] at hp
    refine ⟨hbox, c, hc, k, by omega, ?_⟩
    split at hp
    · rename_i hlt
      injection hp with e1 e2
      exact Or.inl ⟨hlt, e1.symm, e2.symm⟩
    · rename_i hlt
      injection hp with e1 e2
      exact Or.inr ⟨by omega, e1.symm, e2.symm⟩
  · rintro ⟨hbox, c, hc, k, hk, hp⟩
    refine ⟨hbox, c, hc, k, ?_, ?_⟩
    · rw [mem_thicknessOffsets]; omega
    · rw [hperp]
      rcases hp with ⟨hlt, e1, e2⟩ | ⟨hlt, e1, e2⟩
      · rw [if_pos hlt, e1, e2]
      · rw [if_neg (by omega), e1, e2]

/-- Witness of C17: box (0,0)-(7,3), anchor (6,3) in the south-east, thickness -2,
fuel 8. -/
theorem C17_thick_line_cells_witness :
    (max (0 : Int) 7 - min 0 7 ≠ max (0 : Int) 3 - min 0 3 ∧ (-2 : Int) ≠ 0 ∧
      max (max (0 : Int) 7 - min 0 7) (max (0 : Int) 3 - min 0 3) < (8 : Nat)) ∧
    ∃ (r : SC4CellRegion) (trace : List (Int × Int)),
      CreateDiagonalRegion 8 0 0 7 3 6 3 (-2) = some r ∧
      CreateDiagonalTrace 8 0 0 7 3 6 3 (-2) = some trace ∧
      (thicknessOffsets (-2)).length = (-2 : Int).natAbs ∧
      ∀ X Z : Int, r.selected X Z = true ↔
        (min 0 7 ≤ X ∧ X ≤ max 0 7 ∧ min 0 3 ≤ Z ∧ Z ≤ max 0 3) ∧
          ∃ c ∈ trace, ∃ k : Int,
            ((0 < (-2 : Int) ∧ 0 ≤ k ∧ k ≤ -2 - 1) ∨ ((-2 : Int) < 0 ∧ -2 + 1 ≤ k ∧ k ≤ 0)) ∧
            ((max (0 : Int) 3 - min 0 3 < max (0 : Int) 7 - min 0 7 ∧ X = c.1 ∧ Z = c.2 + k) ∨
              (max (0 : Int) 7 - min 0 7 < max (0 : Int) 3 - min 0 3 ∧
                X = c.1 + k ∧ Z = c.2)) :=
  ⟨⟨by decide, by decide, by decide⟩,
    C17_thick_line_cells 0 0 7 3 6 3 (-2) 8 (by decide) (by decide) (by decide)⟩

/-! ## Recomputation on a mode change -/

/-- The in-place rewrite over a host region with ordered bounds and a map of matching
dimensions leaves the map of the freshly computed diagonal region in the host region. -/
theorem rewriteRegion_copies (fuel : Nat) (region : SC4CellRegion) (clickX clickZ t : Int)
    (hx : region.bounds.topLeftX ≤ region.bounds.bottomRightX)
    (hz : region.bounds.topLeftY ≤ region.bounds.bottomRightY)
    (hw : (region.cellMap.width : Int) =
      region.bounds.bottomRightX - region.bounds.topLeftX + 1)
    (hh : (region.cellMap.height : Int) =
      region.bounds.bottomRightY - region.bounds.topLeftY + 1)
    (hwr : region.bounds.bottomRightX - region.bounds.topLeftX + 1 < 2147483648)
    (hhr : region.bounds.bottomRightY - region.bounds.topLeftY + 1 < 2147483648)
    (hfuel : regionSpan region < fuel) :
    ∃ diagonalRegion region1,
      CreateDiagonalRegion fuel region.bounds.topLeftX region.bounds.topLeftY
        region.bounds.bottomRightX region.bounds.bottomRightY clickX clickZ t =
          some diagonalRegion ∧
      rewriteRegion fuel region clickX clickZ t = some region1 ∧
      region1.bounds = region.bounds ∧
      ∀ u v : Nat, region1.cellMap.GetValue u v = diagonalRegion.cellMap.GetValue u v := by
  obtain ⟨r, s, tail, hrun, hb, hdw, hdh, -⟩ := CreateDiagonalRegionRun_spec
    region.bounds.topLeftX region.bounds.topLeftY region.bounds.bottomRightX
    region.bounds.bottomRightY clickX clickZ t fuel hfuel
  have hr : CreateDiagonalRegion fuel region.bounds.topLeftX region.bounds.topLeftY
      region.bounds.bottomRightX region.bounds.bottomRightY clickX clickZ t = some r := by
    unfold CreateDiagonalRegion; rw [hrun]; rfl
  rw [min_eq_left hx, max_eq_right hx] at hdw
  rw [min_eq_left hz, max_eq_right hz] at hdh
  rw [min_eq_left hx, max_eq_right hx, min_eq_left hz, max_eq_right hz] at hb
  have hwu : toUInt32 (region.bounds.bottomRightX - region.bounds.topLeftX + 1) =
      region.cellMap.width := by
    unfold toUInt32; omega
  have hhu : toUInt32 (region.bounds.bottomRightY - region.bounds.topLeftY + 1) =
      region.cellMap.height := by
    unfold toUInt32; omega
  have hrw : r.cellMap.width = region.cellMap.width := by omega
  have hrh : r.cellMap.height = region.cellMap.height := by omega
  refine ⟨r, { bounds := region.bounds
               cellMap := copyCellMap region.cellMap r.cellMap region.cellMap.width
                 region.cellMap.height }, hr, ?_, rfl, ?_⟩
  · unfold rewriteRegion
    dsimp only
    rw [hr]
    dsimp only
    rw [hb, hwu, hhu]
    dsimp only
    rw [if_pos ⟨rfl, rfl, rfl, rfl⟩]
  · intro u v
    obtain ⟨-, -, hg⟩ := copyCellMap_spec region.cellMap r.cellMap region.cellMap.height
      region.cellMap.width
    dsimp only
    rw [hg]
    split
    · rfl
    · rename_i hout
      have h1 : region.cellMap.GetValue u v = false := by
        unfold CellMap.GetValue
        rw [if_neg]
        rintro ⟨a, b⟩
        exact hout ⟨a, b, a, b⟩
      have h2 : r.cellMap.GetValue u v = false := by
        unfold CellMap.GetValue
        rw [if_neg]
        rintro ⟨a, b⟩
        rw [hrw] at a
        rw [hrh] at b
        exact hout ⟨a, b, a, b⟩
      rw [h1, h2]

/-- C18: when `SetOccupantFilterOption` changes the filter kind or the diagonal flag to a
state with diagonal enabled while a cell is picked and the host region has ordered bounds
and a map of the dimensions of the bounds, it returns (with enough fuel); afterwards every
cell of the host map equals the cell of the region `CreateDiagonalRegion` computes over
the bounds of the host region with the click anchor, the bounds are unchanged, and the
host routine `UpdateSelectedRegion` was called. -/
theorem C18_mode_change_rewrites_selection (ids : BulldozeCursorIds) (fuel : Nat)
    (mode : ModeState) (pThis : Nat) (ctl : cSC4ViewInputControlDemolish)
    (type : OccupantFilterType) (region : SC4CellRegion)
    (hchange : mode.occupantFilterType ≠ type ∨ mode.diagonalMode ≠ true)
    (hpick : ctl.bCellPicked = true) (hreg : ctl.pCellRegion = some region)
    (hx : region.bounds.topLeftX ≤ region.bounds.bottomRightX)
    (hz : region.bounds.topLeftY ≤ region.bounds.bottomRightY)
    (hw : (region.cellMap.width : Int) =
      region.bounds.bottomRightX - region.bounds.topLeftX + 1)
    (hh : (region.cellMap.height : Int) =
      region.bounds.bottomRightY - region.bounds.topLeftY + 1)
    (hwr : region.bounds.bottomRightX - region.bounds.topLeftX + 1 < 2147483648)
    (hhr : region.bounds.bottomRightY - region.bounds.topLeftY + 1 < 2147483648)
    (hfuel : regionSpan region < fuel) :
    ∃ out diagonalRegion region1,
      SetOccupantFilterOption ids fuel mode pThis ctl type true = some out ∧
      CreateDiagonalRegion fuel region.bounds.topLeftX region.bounds.topLeftY
        region.bounds.bottomRightX region.bounds.bottomRightY ctl.clickX ctl.clickZ
        mode.diagonalThickness = some diagonalRegion ∧
      out.ctl.pCellRegion = some region1 ∧
      region1.bounds = region.bounds ∧
      (∀ u v : Nat, region1.cellMap.GetValue u v = diagonalRegion.cellMap.GetValue u v) ∧
      HostCall.UpdateSelectedRegion pThis ∈ out.calls ∧
      out.mode.occupantFilterType = type ∧ out.mode.diagonalMode = true := by
  obtain ⟨diag, region1, hcreate, hrw, hb, hg⟩ := rewriteRegion_copies fuel region ctl.clickX
    ctl.clickZ mode.diagonalThickness hx hz hw hh hwr hhr hfuel
  refine ⟨HookOutcome.mk (ModeState.mk type true mode.diagonalThickness (some pThis))
      { ctl with pCellRegion := some region1 }
      [HostCall.SetCursor pThis (cursorFor ids type true), HostCall.UpdateSelectedRegion pThis],
    diag, region1, ?_, hcreate, rfl, hb, hg, by simp, rfl, rfl⟩
  unfold SetOccupantFilterOption
  dsimp only
  rw [if_pos hchange, if_pos hpick, if_pos rfl, hreg]
  dsimp only
  rw [hrw]

/-- Witness of C18: the mode changes from (None, off) to (Flora, on) while a rectangular
selection over the box (0,0)-(4,4) is active. -/
theorem C18_mode_change_rewrites_selection_witness :
    ((ModeState.initial.occupantFilterType ≠ OccupantFilterType.Flora ∨
        ModeState.initial.diagonalMode ≠ true) ∧
      sampleControl.bCellPicked = true ∧
      sampleControl.pCellRegion = some (SC4CellRegion.create 0 0 4 4 true) ∧
      regionSpan (SC4CellRegion.create 0 0 4 4 true) < (5 : Nat)) ∧
    ∃ out diagonalRegion region1,
      SetOccupantFilterOption sampleIds 5 ModeState.initial 7 sampleControl
        OccupantFilterType.Flora true = some out ∧
      CreateDiagonalRegion 5 (SC4CellRegion.create 0 0 4 4 true).bounds.topLeftX
        (SC4CellRegion.create 0 0 4 4 true).bounds.topLeftY
        (SC4CellRegion.create 0 0 4 4 true).bounds.bottomRightX
        (SC4CellRegion.create 0 0 4 4 true).bounds.bottomRightY sampleControl.clickX
        sampleControl.clickZ ModeState.initial.diagonalThickness = some diagonalRegion ∧
      out.ctl.pCellRegion = some region1 ∧
      region1.bounds = (SC4CellRegion.create 0 0 4 4 true).bounds ∧
      (∀ u v : Nat, region1.cellMap.GetValue u v = diagonalRegion.cellMap.GetValue u v) ∧
      HostCall.UpdateSelectedRegion 7 ∈ out.calls ∧
      out.mode.occupantFilterType = OccupantFilterType.Flora ∧ out.mode.diagonalMode = true :=
  ⟨⟨by decide, rfl, rfl, by decide⟩,
    C18_mode_change_rewrites_selection sampleIds 5 ModeState.initial 7 sampleControl
      OccupantFilterType.Flora (SC4CellRegion.create 0 0 4 4 true) (by decide) rfl rfl
      (by decide) (by decide) (by decide) (by decide) (by decide) (by decide) (by decide)⟩

/-- The in-place rewrite is the copy of the preview hook over the bounds of the host
region. -/
theorem rewriteRegion_previewCopy (fuel : Nat) (region : SC4CellRegion)
    (clickX clickZ t : Int) (diagonalRegion : SC4CellRegion)
    (hcreate : CreateDiagonalRegion fuel region.bounds.topLeftX region.bounds.topLeftY
      region.bounds.bottomRightX region.bounds.bottomRightY clickX clickZ t =
        some diagonalRegion) :
    rewriteRegion fuel region clickX clickZ t =
      some (previewCopy region region.bounds diagonalRegion) := by
  unfold rewriteRegion previewCopy
  dsimp only
  rw [hcreate]
  dsimp only
  split <;> rfl

/-- C19: a wheel event with Alt held in diagonal mode that changes the thickness while a
cell is picked and the host region is present returns "handled", stores the new thickness
and calls the host routine `UpdateSelectedRegion`; the handler itself leaves the control
as it is.  The host routine enters the preview hook at its patched call site: when it
passes the bounds of the region the control owns there, and that region has ordered bounds
and a map of the dimensions of the bounds, the preview hook returns (with enough fuel) and
afterwards every cell of the host map equals the cell of the region `CreateDiagonalRegion`
computes over these bounds with the click anchor and the new thickness. -/
theorem C19_wheel_recomputes_preview (ids : BulldozeCursorIds) (fuel : Nat) (mode : ModeState)
    (pThis : Nat) (ctl : cSC4ViewInputControlDemolish) (x z : Int) (modifiers : Nat)
    (wheelDelta : Int) (redraw : cSC4ViewInputControlDemolish → RedrawSite)
    (existing : SC4CellRegion)
    (hdiag : mode.diagonalMode = true) (halt : (modifiers &&& ModifierKeyFlagAlt) ≠ 0)
    (hchange : wheelThickness mode.diagonalThickness wheelDelta ≠ mode.diagonalThickness)
    (hpick : ctl.bCellPicked = true) (hreg : ctl.pCellRegion.isSome = true)
    (hsite : (redraw ctl).viewControl.pCellRegion = some existing)
    (hbounds : (redraw ctl).cellRegion.bounds = existing.bounds)
    (hx : existing.bounds.topLeftX ≤ existing.bounds.bottomRightX)
    (hz : existing.bounds.topLeftY ≤ existing.bounds.bottomRightY)
    (hw : (existing.cellMap.width : Int) =
      existing.bounds.bottomRightX - existing.bounds.topLeftX + 1)
    (hh : (existing.cellMap.height : Int) =
      existing.bounds.bottomRightY - existing.bounds.topLeftY + 1)
    (hwr : existing.bounds.bottomRightX - existing.bounds.topLeftX + 1 < 2147483648)
    (hhr : existing.bounds.bottomRightY - existing.bounds.topLeftY + 1 < 2147483648)
    (hfuel : regionSpan existing < fuel) :
    ∃ out preview diagonalRegion existing1,
      OnMouseWheelHookRedraw ids fuel mode pThis ctl x z modifiers wheelDelta redraw =
        some (true, out, some preview) ∧
      out.mode.diagonalThickness = wheelThickness mode.diagonalThickness wheelDelta ∧
      out.mode.currentViewControl = some pThis ∧
      out.ctl = ctl ∧
      out.calls = [HostCall.UpdateSelectedRegion pThis] ∧
      CreateDiagonalRegion fuel existing.bounds.topLeftX existing.bounds.topLeftY
        existing.bounds.bottomRightX existing.bounds.bottomRightY
        (redraw ctl).viewControl.clickX (redraw ctl).viewControl.clickZ
        (wheelThickness mode.diagonalThickness wheelDelta) = some diagonalRegion ∧
      preview.viewControl.pCellRegion = some existing1 ∧
      existing1.bounds = existing.bounds ∧
      (∀ u v : Nat, existing1.cellMap.GetValue u v = diagonalRegion.cellMap.GetValue u v) ∧
      preview.call.demolish = false ∧
      preview.call.cellRegion = diagonalRegion := by
  obtain ⟨diag, region1, hcreate, hrw, hb, hg⟩ := rewriteRegion_copies fuel existing
    (redraw ctl).viewControl.clickX (redraw ctl).viewControl.clickZ
    (wheelThickness mode.diagonalThickness wheelDelta) hx hz hw hh hwr hhr hfuel
  rw [rewriteRegion_previewCopy fuel existing _ _ _ diag hcreate] at hrw
  injection hrw with hrw
  have hsame := SetOccupantFilterOption_same ids fuel
    { mode with diagonalThickness := wheelThickness mode.diagonalThickness wheelDelta }
    pThis ctl
  dsimp only at hsame
  have hwheel : OnMouseWheelHook ids fuel mode pThis ctl x z modifiers wheelDelta =
      some (true,
        { mode := { mode with
                    diagonalThickness := wheelThickness mode.diagonalThickness wheelDelta
                    currentViewControl := some pThis }
          ctl := ctl
          calls := [HostCall.UpdateSelectedRegion pThis] }) := by
    unfold OnMouseWheelHook
    dsimp only
    rw [if_pos ⟨hdiag, halt⟩, if_pos hchange, if_pos ⟨hpick, hreg⟩, hsame]
    rfl
  have hprev : ∃ preview,
      UpdateSelectedRegion fuel
        (ModeState.mk mode.occupantFilterType mode.diagonalMode
          (wheelThickness mode.diagonalThickness wheelDelta) (some pThis))
        (redraw ctl) = some preview ∧
      preview.viewControl.pCellRegion =
        some (previewCopy existing (redraw ctl).cellRegion.bounds diag) ∧
      preview.call.demolish = false ∧ preview.call.cellRegion = diag := by
    unfold UpdateSelectedRegion
    rw [UpdateSelectedRegionDemolishRegion_diagonal fuel
      (ModeState.mk mode.occupantFilterType mode.diagonalMode
        (wheelThickness mode.diagonalThickness wheelDelta) (some pThis))
      (redraw ctl).viewControl
      (redraw ctl).host (redraw ctl).pDemolition (redraw ctl).cellRegion (redraw ctl).unused
      (redraw ctl).flags (redraw ctl).clearZonedArea (redraw ctl).pOccupantFilter
      (redraw ctl).rest existing diag hdiag rfl hsite (by rw [hbounds]; exact hcreate)]
    exact ⟨_, rfl, rfl, rfl, rfl⟩
  obtain ⟨preview, hp1, hp2, hp3, hp4⟩ := hprev
  refine ⟨HookOutcome.mk
      (ModeState.mk mode.occupantFilterType mode.diagonalMode
        (wheelThickness mode.diagonalThickness wheelDelta) (some pThis))
      ctl [HostCall.UpdateSelectedRegion pThis],
    preview, diag, region1, ?_, rfl, rfl, rfl, rfl, hcreate, ?_, hb, hg, hp3, hp4⟩
  · unfold OnMouseWheelHookRedraw
    rw [hwheel]
    dsimp only
    rw [if_pos (List.mem_singleton.mpr rfl), hp1]
  · rw [hp2, hbounds, hrw]

/-- Witness of C19: in diagonal mode with thickness 1, a wheel-up event with Alt held on
the control with a selection over (0,0)-(4,4); the host routine passes the rectangle
(0,0)-(4,4).  The thickness becomes 2 and after the redraw the cell (1,0), which belongs to
the pattern of thickness 2 only, is set in the host map. -/
theorem C19_wheel_recomputes_preview_witness :
    (sampleDiagonalMode.diagonalMode = true ∧ (4 &&& ModifierKeyFlagAlt) ≠ 0 ∧
      wheelThickness sampleDiagonalMode.diagonalThickness 120 ≠
        sampleDiagonalMode.diagonalThickness ∧
      sampleControl.bCellPicked = true ∧ sampleControl.pCellRegion.isSome = true ∧
      (sampleRedraw sampleControl).viewControl.pCellRegion =
        some (SC4CellRegion.create 0 0 4 4 true) ∧
      regionSpan (SC4CellRegion.create 0 0 4 4 true) < (5 : Nat)) ∧
    ∃ out preview existing1,
      OnMouseWheelHookRedraw sampleIds 5 sampleDiagonalMode 7 sampleControl 0 0 4 120
        sampleRedraw = some (true, out, some preview) ∧
      out.mode.diagonalThickness = 2 ∧
      out.calls = [HostCall.UpdateSelectedRegion 7] ∧
      preview.viewControl.pCellRegion = some existing1 ∧
      existing1.cellMap.GetValue 1 0 = true ∧
      existing1.cellMap.GetValue 0 1 = false := by
  refine ⟨⟨rfl, by decide, by decide, rfl, rfl, rfl, by decide⟩, ?_⟩
  obtain ⟨out, preview, diag, existing1, h1, h2, -, -, h5, h6, h7, -, h9, -, -⟩ :=
    C19_wheel_recomputes_preview sampleIds 5 sampleDiagonalMode 7 sampleControl 0 0 4 120
      sampleRedraw (SC4CellRegion.create 0 0 4 4 true) rfl (by decide) (by decide) rfl rfl
      rfl rfl (by decide) (by decide) (by decide) (by decide) (by decide) (by decide)
      (by decide)
  have hd : (CreateDiagonalRegion 5 0 0 4 4 1 1 2).map
      (fun r => (r.cellMap.GetValue 1 0, r.cellMap.GetValue 0 1)) = some (true, false) := by
    decide
  have h6b : CreateDiagonalRegion 5 0 0 4 4 1 1 2 = some diag := h6
  rw [h6b] at hd
  simp only [Option.map_some', Option.some.injEq, Prod.mk.injEq] at hd
  exact ⟨out, preview, existing1, h1, h2, h5, h7, by rw [h9]; exact hd.1,
    by rw [h9]; exact hd.2⟩

/-! ## The occupant filter -/

/-- With enough fuel the preview hook returns, and the filter it hands over is the one
made from the filter kind. -/
theorem UpdateSelectedRegionDemolishRegion_filter (fuel : Nat) (mode : ModeState)
    (viewControl : cSC4ViewInputControlDemolish) (host : DemolishCall → Bool)
    (pDemolition : Nat) (cellRegion : SC4CellRegion) (unused : Int) (flags : Nat)
    (clearZonedArea : Bool) (pOccupantFilter : OccupantFilterPtr)
    (rest : DemolishPassThrough) (hfuel : regionSpan cellRegion < fuel) :
    ∃ out, UpdateSelectedRegionDemolishRegion fuel mode viewControl host pDemolition
        cellRegion unused flags clearZonedArea pOccupantFilter rest = some out ∧
      out.call.occupantFilter = occupantFilterFor mode.occupantFilterType := by
  by_cases hg : mode.diagonalMode = true ∧ mode.currentViewControl.isSome = true ∧
      viewControl.pCellRegion.isSome = true
  · obtain ⟨hdiag, hcur, hsome⟩ := hg
    obtain ⟨existing, hreg⟩ := Option.isSome_iff_exists.mp hsome
    obtain ⟨diag, hcreate⟩ := CreateDiagonalRegion_isSome cellRegion.bounds.topLeftX
      cellRegion.bounds.topLeftY cellRegion.bounds.bottomRightX cellRegion.bounds.bottomRightY
      viewControl.clickX viewControl.clickZ mode.diagonalThickness fuel hfuel
    rw [UpdateSelectedRegionDemolishRegion_diagonal fuel mode viewControl host pDemolition
      cellRegion unused flags clearZonedArea pOccupantFilter rest existing diag hdiag hcur hreg
      hcreate]
    exact ⟨_, rfl, rfl⟩
  · rw [UpdateSelectedRegionDemolishRegion_rectangular fuel mode viewControl host pDemolition
      cellRegion unused flags clearZonedArea pOccupantFilter rest hg]
    exact ⟨_, rfl, rfl⟩

/-- With enough fuel the commit hook returns, and the filter it hands over is the one made
from the filter kind. -/
theorem OnMouseUpLDemolishRegion_filter (fuel : Nat) (mode : ModeState)
    (viewControl : cSC4ViewInputControlDemolish) (host : DemolishCall → Bool)
    (pDemolition : Nat) (cellRegion : SC4CellRegion) (unused : Int) (flags : Nat)
    (clearZonedArea : Bool) (pOccupantFilter : OccupantFilterPtr)
    (rest : DemolishPassThrough) (hfuel : regionSpan cellRegion < fuel) :
    ∃ out, OnMouseUpLDemolishRegion fuel mode viewControl host pDemolition
        cellRegion unused flags clearZonedArea pOccupantFilter rest = some out ∧
      out.call.occupantFilter = occupantFilterFor mode.occupantFilterType := by
  unfold OnMouseUpLDemolishRegion
  dsimp only
  split
  · obtain ⟨diag, hcreate⟩ := CreateDiagonalRegion_isSome cellRegion.bounds.topLeftX
      cellRegion.bounds.topLeftY cellRegion.bounds.bottomRightX cellRegion.bounds.bottomRightY
      (if mode.currentViewControl.isSome then viewControl.clickX else -1)
      (if mode.currentViewControl.isSome then viewControl.clickZ else -1)
      mode.diagonalThickness fuel hfuel
    rw [hcreate]
    exact ⟨_, rfl, rfl⟩
  · exact ⟨_, rfl, rfl⟩

/-- C20: with enough fuel the preview hook and the commit hook return, and the occupant
filter each hands to the host demolition routine is a new flora filter when the filter
kind is Flora, a new network filter for `AllTransportationNetworks` when it is Network and
null when it is None, whatever filter argument the call site supplied; it is never a
filter object of the host. -/
theorem C20_occupant_filter_from_kind (fuel : Nat) (mode : ModeState)
    (viewControl : cSC4ViewInputControlDemolish) (host : DemolishCall → Bool)
    (pDemolition : Nat) (cellRegion : SC4CellRegion) (unused : Int) (flags : Nat)
    (clearZonedArea : Bool) (pOccupantFilter : OccupantFilterPtr)
    (rest : DemolishPassThrough) (hfuel : regionSpan cellRegion < fuel) :
    ∃ preview commit,
      UpdateSelectedRegionDemolishRegion fuel mode viewControl host pDemolition cellRegion
        unused flags clearZonedArea pOccupantFilter rest = some preview ∧
      OnMouseUpLDemolishRegion fuel mode viewControl host pDemolition cellRegion
        unused flags clearZonedArea pOccupantFilter rest = some commit ∧
      commit.call.occupantFilter = preview.call.occupantFilter ∧
      (mode.occupantFilterType = OccupantFilterType.Flora →
        preview.call.occupantFilter = OccupantFilterPtr.newFloraOccupantFilter) ∧
      (mode.occupantFilterType = OccupantFilterType.Network →
        preview.call.occupantFilter =
          OccupantFilterPtr.newNetworkOccupantFilter
            NetworkTypeFlags.AllTransportationNetworks) ∧
      (mode.occupantFilterType = OccupantFilterType.None →
        preview.call.occupantFilter = OccupantFilterPtr.null) ∧
      (∀ address : Nat, preview.call.occupantFilter ≠ OccupantFilterPtr.hostFilter address) := by
  obtain ⟨p, hp, hpf⟩ := UpdateSelectedRegionDemolishRegion_filter fuel mode viewControl host
    pDemolition cellRegion unused flags clearZonedArea pOccupantFilter rest hfuel
  obtain ⟨c, hc, hcf⟩ := OnMouseUpLDemolishRegion_filter fuel mode viewControl host
    pDemolition cellRegion unused flags clearZonedArea pOccupantFilter rest hfuel
  refine ⟨p, c, hp, hc, hcf.trans hpf.symm, ?_, ?_, ?_, ?_⟩
  · intro h; rw [hpf, h]; rfl
  · intro h; rw [hpf, h]; rfl
  · intro h; rw [hpf, h]; rfl
  · intro a
    rw [hpf]
    cases mode.occupantFilterType <;> simp [occupantFilterFor]

/-- Witness of C20: filter kind Network in diagonal mode, with a host filter object
supplied by the call site. -/
theorem C20_occupant_filter_from_kind_witness :
    regionSpan (SC4CellRegion.create 0 0 4 4 true) < (5 : Nat) ∧
    (ModeState.mk OccupantFilterType.Network true 3 (some 7)).occupantFilterType =
      OccupantFilterType.Network ∧
    ∃ preview commit,
      UpdateSelectedRegionDemolishRegion 5
        (ModeState.mk OccupantFilterType.Network true 3 (some 7)) sampleControl
        (fun _ => true) 0 (SC4CellRegion.create 0 0 4 4 true) 0 0 false
        (OccupantFilterPtr.hostFilter 11) samplePassThrough = some preview ∧
      OnMouseUpLDemolishRegion 5
        (ModeState.mk OccupantFilterType.Network true 3 (some 7)) sampleControl
        (fun _ => true) 0 (SC4CellRegion.create 0 0 4 4 true) 0 0 false
        (OccupantFilterPtr.hostFilter 11) samplePassThrough = some commit ∧
      commit.call.occupantFilter = preview.call.occupantFilter ∧
      preview.call.occupantFilter =
        OccupantFilterPtr.newNetworkOccupantFilter NetworkTypeFlags.AllTransportationNetworks :=
  ⟨by decide, rfl,
    match C20_occupant_filter_from_kind 5
      (ModeState.mk OccupantFilterType.Network true 3 (some 7)) sampleControl
      (fun _ => true) 0 (SC4CellRegion.create 0 0 4 4 true) 0 0 false
      (OccupantFilterPtr.hostFilter 11) samplePassThrough (by decide) with
    | ⟨p, c, h1, h2, h3, _, h5, _⟩ => ⟨p, c, h1, h2, h3, h5 rfl⟩⟩

/-! ## Wheel witness and the in-place recomputation frame -/

/-- Witness of C12: a wheel event without Alt in diagonal mode on an active selection. -/
theorem C12_mouse_wheel_handled_iff_witness :
    ¬ (sampleDiagonalMode.diagonalMode = true ∧ (3 &&& ModifierKeyFlagAlt) ≠ 0) ∧
    ∃ res, OnMouseWheelHook sampleIds 5 sampleDiagonalMode 7 sampleControl 2 2 3 120 =
        some res ∧
      res.1 = false ∧ res.2.mode = sampleDiagonalMode ∧ res.2.ctl = sampleControl ∧
      res.2.calls = [] :=
  ⟨by decide,
    match C12_mouse_wheel_handled_iff sampleIds 5 sampleDiagonalMode 7 sampleControl 2 2 3 120
      with
    | ⟨res, h1, _, h3⟩ => ⟨res, h1, h3 (by decide)⟩⟩

/-- C13: the in-place recomputation of `SetOccupantFilterOption` and of the preview hook
`UpdateSelectedRegionDemolishRegion` returns (with enough fuel) and leaves the bounds and
the dimensions of the host region as they were; and when the bounds of the host region
differ from the bounds of the diagonal region just computed, the membership map is left
as it was (no cell is written). -/
theorem C13_in_place_recomputation_frame :
    (∀ (ids : BulldozeCursorIds) (fuel : Nat) (mode : ModeState) (pThis : Nat)
        (ctl : cSC4ViewInputControlDemolish) (type : OccupantFilterType) (diagonal : Bool)
        (region : SC4CellRegion),
      ctl.pCellRegion = some region → regionSpan region < fuel →
      ∃ out region1,
        SetOccupantFilterOption ids fuel mode pThis ctl type diagonal = some out ∧
        out.ctl.pCellRegion = some region1 ∧
        region1.bounds = region.bounds ∧
        region1.cellMap.width = region.cellMap.width ∧
        region1.cellMap.height = region.cellMap.height ∧
        ∀ diagonalRegion,
          CreateDiagonalRegion fuel region.bounds.topLeftX region.bounds.topLeftY
            region.bounds.bottomRightX region.bounds.bottomRightY ctl.clickX ctl.clickZ
            mode.diagonalThickness = some diagonalRegion →
          region.bounds ≠ diagonalRegion.bounds → region1.cellMap = region.cellMap) ∧
    (∀ (fuel : Nat) (mode : ModeState) (viewControl : cSC4ViewInputControlDemolish)
        (host : DemolishCall → Bool) (pDemolition : Nat) (cellRegion : SC4CellRegion)
        (unused : Int) (flags : Nat) (clearZonedArea : Bool)
        (pOccupantFilter : OccupantFilterPtr) (rest : DemolishPassThrough)
        (existing : SC4CellRegion),
      viewControl.pCellRegion = some existing → regionSpan cellRegion < fuel →
      ∃ out existing1,
        UpdateSelectedRegionDemolishRegion fuel mode viewControl host pDemolition cellRegion
          unused flags clearZonedArea pOccupantFilter rest = some out ∧
        out.viewControl.pCellRegion = some existing1 ∧
        existing1.bounds = existing.bounds ∧
        existing1.cellMap.width = existing.cellMap.width ∧
        existing1.cellMap.height = existing.cellMap.height ∧
        ∀ diagonalRegion,
          CreateDiagonalRegion fuel cellRegion.bounds.topLeftX cellRegion.bounds.topLeftY
            cellRegion.bounds.bottomRightX cellRegion.bounds.bottomRightY viewControl.clickX
            viewControl.clickZ mode.diagonalThickness = some diagonalRegion →
          existing.bounds ≠ diagonalRegion.bounds → existing1.cellMap = existing.cellMap) := by
  constructor
  · intro ids fuel mode pThis ctl type diagonal region hreg hfuel
    obtain ⟨out, hout⟩ := SetOccupantFilterOption_isSome ids fuel mode pThis ctl type diagonal
      (fun r hr => by rw [hreg] at hr; injection hr with hr; rw [← hr]; exact hfuel)
    obtain ⟨region1, h⟩ := SetOccupantFilterOption_frame ids fuel mode pThis ctl type diagonal
      out region hout hreg
    exact ⟨out, region1, hout, h⟩
  · intro fuel mode viewControl host pDemolition cellRegion unused flags clearZonedArea
      pOccupantFilter rest existing hreg hfuel
    obtain ⟨out, hout, -⟩ := UpdateSelectedRegionDemolishRegion_filter fuel mode viewControl
      host pDemolition cellRegion unused flags clearZonedArea pOccupantFilter rest hfuel
    obtain ⟨existing1, h⟩ := UpdateSelectedRegionDemolishRegion_frame fuel mode viewControl
      host pDemolition cellRegion unused flags clearZonedArea pOccupantFilter rest out existing
      hout hreg
    exact ⟨out, existing1, hout, h⟩

/-- Witness of C13: a mode change on a control whose region has the inverted bounds
(4,4)-(0,0), and a preview over the box (0,0)-(4,4) while the current control owns a region
over the box (0,0)-(2,2).  In both cases the bounds of the diagonal region differ from
those of the host region: bounds and dimensions are kept and the map is left alone. -/
theorem C13_in_place_recomputation_frame_witness :
    (regionSpan (SC4CellRegion.mk (SC4Rect.mk 4 4 0 0)
        (SC4CellRegion.create 0 0 4 4 true).cellMap) < (5 : Nat) ∧
      regionSpan (SC4CellRegion.create 0 0 4 4 true) < (5 : Nat)) ∧
    (∃ out region1,
      SetOccupantFilterOption sampleIds 5 ModeState.initial 7
        { sampleControl with
          pCellRegion := some (SC4CellRegion.mk (SC4Rect.mk 4 4 0 0)
            (SC4CellRegion.create 0 0 4 4 true).cellMap) }
        OccupantFilterType.Flora true = some out ∧
      out.ctl.pCellRegion = some region1 ∧
      region1.bounds = SC4Rect.mk 4 4 0 0 ∧
      region1.cellMap.width = (SC4CellRegion.create 0 0 4 4 true).cellMap.width ∧
      region1.cellMap.height = (SC4CellRegion.create 0 0 4 4 true).cellMap.height ∧
      region1.cellMap = (SC4CellRegion.create 0 0 4 4 true).cellMap) ∧
    (∃ out existing1,
      UpdateSelectedRegionDemolishRegion 5 sampleDiagonalMode
        { sampleControl with pCellRegion := some (SC4CellRegion.create 0 0 2 2 true) }
        (fun _ => true) 0 (SC4CellRegion.create 0 0 4 4 true) 0 0 false
        OccupantFilterPtr.null samplePassThrough = some out ∧
      out.viewControl.pCellRegion = some existing1 ∧
      existing1.bounds = (SC4CellRegion.create 0 0 2 2 true).bounds ∧
      existing1.cellMap.width = (SC4CellRegion.create 0 0 2 2 true).cellMap.width ∧
      existing1.cellMap.height = (SC4CellRegion.create 0 0 2 2 true).cellMap.height ∧
      existing1.cellMap = (SC4CellRegion.create 0 0 2 2 true).cellMap) := by
  refine ⟨⟨by decide, by decide⟩, ?_, ?_⟩
  · obtain ⟨out, region1, hout, h1, h2, h3, h4, h5⟩ :=
      C13_in_place_recomputation_frame.1 sampleIds 5 ModeState.initial 7
        { sampleControl with
          pCellRegion := some (SC4CellRegion.mk (SC4Rect.mk 4 4 0 0)
            (SC4CellRegion.create 0 0 4 4 true).cellMap) }
        OccupantFilterType.Flora true _ rfl (by decide)
    obtain ⟨diag, s, tail, hrun, hb, -⟩ :=
      CreateDiagonalRegionRun_spec 4 4 0 0 1 1 1 5 (by decide)
    refine ⟨out, region1, hout, h1, h2, h3, h4, h5 diag ?_ ?_⟩
    · unfold CreateDiagonalRegion
      exact (congrArg (Option.map Prod.fst) hrun)
    · rw [hb]
      decide
  · obtain ⟨out, existing1, hout, h1, h2, h3, h4, h5⟩ :=
      C13_in_place_recomputation_frame.2 5 sampleDiagonalMode
        { sampleControl with pCellRegion := some (SC4CellRegion.create 0 0 2 2 true) }
        (fun _ => true) 0 (SC4CellRegion.create 0 0 4 4 true) 0 0 false OccupantFilterPtr.null
        samplePassThrough _ rfl (by decide)
    obtain ⟨diag, s, tail, hrun, hb, -⟩ :=
      CreateDiagonalRegionRun_spec 0 0 4 4 1 1 1 5 (by decide)
    refine ⟨out, existing1, hout, h1, h2, h3, h4, h5 diag ?_ ?_⟩
    · unfold CreateDiagonalRegion
      exact (congrArg (Option.map Prod.fst) hrun)
    · rw [hb]
      decide

/-! ## Order of the patch steps -/

/-- A run of `try` statements whose call number `k` is the first to throw a
`wil::ResultException`: the writes made are the `k` calls before it, and the calls made are
those and the failing one. -/
theorem runWrites_raise (patcher : PatchWrite → PatchResult) :
    ∀ (ws : List PatchWrite) (k : Nat) (hk : k < ws.length),
      (∀ w ∈ ws.take k, patcher w = PatchResult.written) →
      patcher (ws.get ⟨k, hk⟩) = PatchResult.resultException →
      runWrites patcher ws = (ws.take k, PatchResult.resultException) ∧
      attemptedWrites patcher ws = ws.take (k + 1) := by
  intro ws
  induction ws with
  | nil => intro k hk; simp at hk
  | cons w ws ih =>
    intro k hk hbefore hraise
    cases k with
    | zero =>
      simp only [List.get_eq_getElem, List.getElem_cons_zero] at hraise
      unfold runWrites attemptedWrites
      simp [hraise]
    | succ k =>
      have hw : patcher w = PatchResult.written := hbefore w (by simp)
      have hk2 : k < ws.length := by simpa using hk
      obtain ⟨h1, h2⟩ := ih k hk2
        (fun v hv => hbefore v (by simp [hv]))
        (by simpa using hraise)
      unfold runWrites attemptedWrites
      simp [hw, h1, h2]

theorem runWrites_all_written (patcher : PatchWrite → PatchResult) :
    ∀ ws : List PatchWrite, (∀ w ∈ ws, patcher w = PatchResult.written) →
      runWrites patcher ws = (ws, PatchResult.written) ∧ attemptedWrites patcher ws = ws := by
  intro ws
  induction ws with
  | nil => intro _; exact ⟨rfl, rfl⟩
  | cons w ws ih =>
    intro h
    have hw : patcher w = PatchResult.written := h w (by simp)
    obtain ⟨h1, h2⟩ := ih (fun v hv => h v (by simp [hv]))
    unfold runWrites attemptedWrites
    simp [hw, h1, h2]

/-- C21: on version 641 `Install` calls the `Patcher` in the fixed order key-down hook,
mouse-wheel hook, activation hook, the three writes of the preview call site, commit call
site.  When no call throws, all seven writes are made in that order.  When call number `k`
is the first to throw a `wil::ResultException`, `Install` returns failure, the calls made
are exactly the first `k + 1` (no later call is attempted) and the writes made are exactly
the first `k`: they stay applied. -/
theorem C21_install_order_no_rollback (patcher : PatchWrite → PatchResult) :
    ((∀ w ∈ installWrites, patcher w = PatchResult.written) →
      (Install 641 patcher).writes =
        [ PatchWrite.InstallJumpTableHook 0xa901d8 HookFunction.OnKeyDownHook
        , PatchWrite.InstallJumpTableHook 0xa901f4 HookFunction.OnMouseWheelHook
        , PatchWrite.InstallJumpTableHook 0xa901fc HookFunction.Activate
        , PatchWrite.OverwriteMemory 0x4b97ed 0x56
        , PatchWrite.OverwriteMemory 0x4b97ee 0x50
        , PatchWrite.InstallCallHook 0x4b97ef HookFunction.UpdateSelectedRegionDemolishRegion
        , PatchWrite.InstallCallHook 0x4b9d02 HookFunction.OnMouseUpLDemolishRegion ] ∧
      InstallAttempts 641 patcher = (Install 641 patcher).writes ∧
      (Install 641 patcher).writes.filterMap PatchWrite.installedHook =
        [ HookFunction.OnKeyDownHook, HookFunction.OnMouseWheelHook, HookFunction.Activate
        , HookFunction.UpdateSelectedRegionDemolishRegion
        , HookFunction.OnMouseUpLDemolishRegion ]) ∧
    (∀ (k : Nat) (hk : k < installWrites.length),
      (∀ w ∈ installWrites.take k, patcher w = PatchResult.written) →
      patcher (installWrites.get ⟨k, hk⟩) = PatchResult.resultException →
      (Install 641 patcher).returned = some false ∧
      (Install 641 patcher).writes = installWrites.take k ∧
      InstallAttempts 641 patcher = installWrites.take (k + 1) ∧
      (∀ w ∈ installWrites.drop (k + 1), w ∉ InstallAttempts 641 patcher)) := by
  constructor
  · intro h
    obtain ⟨h1, h2⟩ := runWrites_all_written patcher installWrites h
    have hw : (Install 641 patcher).writes = installWrites := by
      unfold Install
      rw [if_pos rfl, h1]
    have ha : InstallAttempts 641 patcher = installWrites := by
      unfold InstallAttempts
      rw [if_pos rfl, h2]
    rw [ha, hw]
    exact ⟨rfl, rfl, rfl⟩
  · intro k hk hbefore hraise
    obtain ⟨h1, h2⟩ := runWrites_raise patcher installWrites k hk hbefore hraise
    have ha : InstallAttempts 641 patcher = installWrites.take (k + 1) := by
      unfold InstallAttempts
      rw [if_pos rfl, h2]
    refine ⟨?_, ?_, ha, ?_⟩
    · unfold Install
      rw [if_pos rfl, h1]
    · unfold Install
      rw [if_pos rfl, h1]
    · rw [ha]
      have hnodup : installWrites.Nodup := by decide
      intro w hw hw2
      have := List.disjoint_take_drop hnodup (le_refl (k + 1))
      exact this hw2 hw

/-- Witness of C21: the call hook of the preview call site (call number 5) throws.  The
three jump table hooks and the two bytes written at the preview call site stay applied,
the commit call site is not patched. -/
theorem C21_install_order_no_rollback_witness :
    (∀ w ∈ installWrites.take 5, samplePatcher w = PatchResult.written) ∧
    samplePatcher (installWrites.get ⟨5, by decide⟩) = PatchResult.resultException ∧
    (Install 641 samplePatcher).returned = some false ∧
    (Install 641 samplePatcher).writes =
      [ PatchWrite.InstallJumpTableHook 0xa901d8 HookFunction.OnKeyDownHook
      , PatchWrite.InstallJumpTableHook 0xa901f4 HookFunction.OnMouseWheelHook
      , PatchWrite.InstallJumpTableHook 0xa901fc HookFunction.Activate
      , PatchWrite.OverwriteMemory 0x4b97ed 0x56
      , PatchWrite.OverwriteMemory 0x4b97ee 0x50 ] ∧
    PatchWrite.InstallCallHook 0x4b9d02 HookFunction.OnMouseUpLDemolishRegion ∉
      InstallAttempts 641 samplePatcher :=
  have h := (C21_install_order_no_rollback samplePatcher).2 5 (by decide) (by decide)
    (by decide)
  ⟨by decide, by decide, h.1, h.2.1, h.2.2.2 _ (by decide)⟩

/-! ## Shortcut messages -/

/-- The mode state after `Activate` on a control whose cursor is one of the five cursors
of the shortcut table. -/
theorem Activate_shortcut (ids : BulldozeCursorIds) (hids : ids.caseLabelsDistinct)
    (mode : ModeState) (pThis : Nat) (ctl : cSC4ViewInputControlDemolish)
    (e : Nat × Nat × OccupantFilterType × Bool) (he : e ∈ shortcutTable ids)
    (hcur : ctl.cursorIID = e.2.1) :
    Activate ids mode pThis ctl =
      { occupantFilterType := e.2.2.1, diagonalMode := e.2.2.2, diagonalThickness := 1
        currentViewControl := some pThis } := by
  unfold BulldozeCursorIds.caseLabelsDistinct at hids
  simp only [List.nodup_cons, List.mem_cons, List.mem_singleton, not_or, List.not_mem_nil,
    not_false_eq_true, List.nodup_nil, and_true] at hids
  obtain ⟨⟨a1, a2, a3, a4⟩, ⟨b1, b2, b3⟩, ⟨c1, c2⟩, d1⟩ := hids
  unfold shortcutTable at he
  simp only [List.mem_cons, List.mem_singleton, List.not_mem_nil, or_false] at he
  unfold Activate
  dsimp only
  rcases he with rfl | rfl | rfl | rfl | rfl <;> dsimp only at hcur ⊢ <;> rw [hcur]
  · rw [if_neg (Ne.symm a4), if_neg (Ne.symm b3), if_neg (Ne.symm c2), if_neg (Ne.symm d1),
      if_pos rfl]
  · rw [if_pos rfl]
  · rw [if_neg (Ne.symm a1), if_pos rfl]
  · rw [if_neg (Ne.symm a2), if_neg (Ne.symm b1), if_pos rfl]
  · rw [if_neg (Ne.symm a3), if_neg (Ne.symm b2), if_neg (Ne.symm c1), if_pos rfl]

/-- A shortcut message is dispatched to `ActivateBulldozeTool` with its cursor. -/
theorem DoMessage_shortcut (ids : BulldozeCursorIds) (host : DirectorHost)
    (pView3D : Option Nat) (e : Nat × Nat × OccupantFilterType × Bool)
    (he : e ∈ shortcutTable ids) :
    DoMessage ids host pView3D e.1 =
      { returned := true, pView3D := pView3D
        calls := ActivateBulldozeTool host pView3D e.2.1 } := by
  unfold shortcutTable at he
  simp only [List.mem_cons, List.mem_singleton, List.not_mem_nil, or_false] at he
  unfold DoMessage
  rcases he with rfl | rfl | rfl | rfl | rfl <;> dsimp only
  · rw [if_neg (by decide), if_neg (by decide), if_neg (by decide), if_pos rfl]
  · rw [if_neg (by decide), if_neg (by decide), if_neg (by decide), if_neg (by decide),
      if_pos rfl]
  · rw [if_neg (by decide), if_neg (by decide), if_neg (by decide), if_neg (by decide),
      if_neg (by decide), if_pos rfl]
  · rw [if_neg (by decide), if_neg (by decide), if_neg (by decide), if_neg (by decide),
      if_neg (by decide), if_neg (by decide), if_pos rfl]
  · rw [if_neg (by decide), if_neg (by decide), if_neg (by decide), if_neg (by decide),
      if_neg (by decide), if_neg (by decide), if_neg (by decide), if_pos rfl]

/-- C22 (as claimed, refuted): a 3D view is available and the current control is a
bulldoze control (its id is `BulldozeControlID`).  The flora shortcut makes no call at
all: no control is created and the active tool is not switched, so the mode state is not
seeded. -/
theorem C22_counterexample :
    sampleHostBulldoze.currentControlID = some BulldozeControlID ∧
    (DoMessage sampleIds sampleHostBulldoze (some 3) BulldozeFloraShortcutID).calls = [] ∧
    (DoMessage sampleIds sampleHostBulldoze (some 3) BulldozeFloraShortcutID).pView3D =
      some 3 ∧
    (DoMessage sampleIds sampleHostIdle (some 3) BulldozeFloraShortcutID).calls.length = 1 := by
  have he : (BulldozeFloraShortcutID, sampleIds.BulldozeCursorFlora, OccupantFilterType.Flora,
      false) ∈ shortcutTable sampleIds := by
    unfold shortcutTable; simp
  have h1 := DoMessage_shortcut sampleIds sampleHostBulldoze (some 3) _ he
  have h2 := DoMessage_shortcut sampleIds sampleHostIdle (some 3) _ he
  dsimp only at h1 h2
  rw [h1, h2]
  exact ⟨rfl, rfl, rfl, rfl⟩

/-- C22 (amended): for each of the five shortcut messages, when a 3D view is available,
`DoMessage` returns true and keeps `pView3D`.  If the current control of the view is null
or is not a bulldoze control, and the allocation of the new control succeeds, it makes one
call: `SetCurrentViewInputControl` with `RemoveAllControls` on a new control that was given
the matching cursor; provided the host `SetCursor` stores the cursor id, `Activate` on that
control seeds the mode state with the matching filter kind and diagonal flag, thickness 1
and the new control as current one, whatever the mode state was.  If the current control is
a bulldoze control, no call is made. -/
theorem C22_shortcut_switches_tool_amended (ids : BulldozeCursorIds)
    (hids : ids.caseLabelsDistinct) (host : DirectorHost) (view pControl : Nat)
    (e : Nat × Nat × OccupantFilterType × Bool) (he : e ∈ shortcutTable ids)
    (hcursor : ∀ c cursor, (host.SetCursor c cursor).cursorIID = cursor)
    (halloc : host.allocated = some pControl) :
    (DoMessage ids host (some view) e.1).returned = true ∧
    (DoMessage ids host (some view) e.1).pView3D = some view ∧
    (host.currentControlID ≠ some BulldozeControlID →
      ∃ ctl,
        (DoMessage ids host (some view) e.1).calls =
          [DirectorCall.SetCurrentViewInputControlRemoveAllControls view
            (some (pControl, ctl))] ∧
        ctl = host.SetCursor host.constructed e.2.1 ∧
        ctl.cursorIID = e.2.1 ∧
        ∀ mode : ModeState, Activate ids mode pControl ctl =
          { occupantFilterType := e.2.2.1, diagonalMode := e.2.2.2, diagonalThickness := 1
            currentViewControl := some pControl }) ∧
    (host.currentControlID = some BulldozeControlID →
      (DoMessage ids host (some view) e.1).calls = []) := by
  rw [DoMessage_shortcut ids host (some view) e he]
  refine ⟨rfl, rfl, ?_, ?_⟩
  · intro hne
    refine ⟨host.SetCursor host.constructed e.2.1, ?_, rfl, hcursor _ _, ?_⟩
    · unfold ActivateBulldozeTool CreateViewInputControl
      dsimp only
      rw [if_pos (Or.inr hne), halloc]
    · intro mode
      exact Activate_shortcut ids hids mode pControl _ e he (hcursor _ _)
  · intro heq
    unfold ActivateBulldozeTool
    dsimp only
    rw [if_neg (by rw [heq]; simp)]

/-- Witness of C22 (amended): the flora-diagonal shortcut while no control is current. -/
theorem C22_shortcut_switches_tool_amended_witness :
    sampleIds.caseLabelsDistinct ∧
    sampleHostIdle.currentControlID ≠ some BulldozeControlID ∧
    ∃ ctl,
      (DoMessage sampleIds sampleHostIdle (some 3) BulldozeFloraDiagonalShortcutID).calls =
        [DirectorCall.SetCurrentViewInputControlRemoveAllControls 3 (some (9, ctl))] ∧
      ctl.cursorIID = sampleIds.BulldozeCursorFloraDiagonal ∧
      Activate sampleIds ModeState.initial 9 ctl =
        { occupantFilterType := OccupantFilterType.Flora, diagonalMode := true
          diagonalThickness := 1, currentViewControl := some 9 } :=
  ⟨by decide, by decide,
    match (C22_shortcut_switches_tool_amended sampleIds (by decide) sampleHostIdle 3 9
      (BulldozeFloraDiagonalShortcutID, sampleIds.BulldozeCursorFloraDiagonal,
        OccupantFilterType.Flora, true)
      (by unfold shortcutTable; simp) (fun _ _ => rfl) rfl).2.2.1 (by decide) with
    | ⟨ctl, h1, _, h3, h4⟩ => ⟨ctl, h1, h3, h4 ModeState.initial⟩⟩

/-! ## The cells traced by the line walk -/

/-- Cells traced by a line that is at least as wide as it is high: X takes the values
`currentX + sx * i` for `i = 0..a` in order, and Z stays between the current row and the
end row. -/
theorem lineLoop_xtrace (p : LineParams) (hsx : p.sx = 1 ∨ p.sx = -1) (hdz : 0 ≤ p.dz)
    (hle : p.dz ≤ p.dx) (hpos : 0 < p.dx) :
    ∀ (a fuel : Nat) (s : LineState) (b : Int), a < fuel →
      s.currentX + p.sx * a = p.diagEndX → s.currentZ + p.sz * b = p.diagEndZ →
      s.err = p.dx - p.dz + a * p.dz - b * p.dx →
      -p.dz < 2 * s.err → 2 * s.err < 3 * p.dx - 2 * p.dz →
      ∃ r tail, lineLoop p fuel s = some r ∧ r.visited = s.visited ++ tail ∧
        tail.map Prod.fst =
          (List.range (a + 1)).map (fun (i : Nat) => s.currentX + p.sx * (i : Int)) ∧
        ∀ c ∈ tail, ∃ j : Int, 0 ≤ j ∧ j ≤ b ∧ c.2 + p.sz * j = p.diagEndZ := by
  intro a
  induction a with
  | zero =>
    intro fuel s b hf hx hz he hlo hhi
    obtain ⟨f, rfl⟩ : ∃ f, fuel = f + 1 := ⟨fuel - 1, by omega⟩
    have hb : b = 0 := by
      simp only [Nat.cast_zero, zero_mul, add_zero] at he
      rw [he] at hlo hhi
      by_contra hne
      rcases lt_or_gt_of_ne hne with h | h
      · have : b * p.dx ≤ -1 * p.dx := by
          apply mul_le_mul_of_nonneg_right _ hpos.le
          omega
        omega
      · have : 1 * p.dx ≤ b * p.dx := by
          apply mul_le_mul_of_nonneg_right _ hpos.le
          omega
        omega
    subst hb
    simp only [Nat.cast_zero, mul_zero, add_zero] at hx hz
    unfold lineLoop
    dsimp only
    rw [if_pos ⟨hx, hz⟩]
    refine ⟨_, [(s.currentX, s.currentZ)], rfl, rfl, ?_, ?_⟩
    · simp [List.range_succ]
    · intro c hc
      rw [List.mem_singleton] at hc
      subst hc
      exact ⟨0, le_refl _, le_refl _, by simpa using hz⟩
  | succ a ih =>
    intro fuel s b hf hx hz he hlo hhi
    obtain ⟨f, rfl⟩ : ∃ f, fuel = f + 1 := ⟨fuel - 1, by omega⟩
    have hb0 : 0 ≤ b := by
      by_contra hneg
      have h1 : b * p.dx ≤ -1 * p.dx := by
        apply mul_le_mul_of_nonneg_right _ hpos.le
        omega
      have h2 : 0 ≤ ((a + 1 : Nat) : Int) * p.dz := mul_nonneg (by omega) hdz
      omega
    have hne : ¬ (s.currentX = p.diagEndX ∧ s.currentZ = p.diagEndZ) := by
      rintro ⟨h, -⟩
      rw [h] at hx
      push_cast at hx
      rcases hsx with h1 | h1 <;> rw [h1] at hx <;> omega
    have hx2 : s.currentX + p.sx + p.sx * (a : Int) = p.diagEndX := by
      rw [← hx]; push_cast; ring
    have he2 : s.err - p.dz = p.dx - p.dz + (a : Int) * p.dz - b * p.dx := by
      rw [he]; push_cast; ring
    have hmap : ∀ tail : List (Int × Int),
        tail.map Prod.fst =
          (List.range (a + 1)).map (fun (i : Nat) => s.currentX + p.sx + p.sx * (i : Int)) →
        ((s.currentX, s.currentZ) :: tail).map Prod.fst =
          (List.range (a + 1 + 1)).map (fun (i : Nat) => s.currentX + p.sx * (i : Int)) := by
      intro tail ht
      rw [List.range_succ_eq_map (a + 1), List.map_cons, List.map_cons, List.map_map, ht]
      congr 1
      · simp
      · apply List.map_congr_left
        intro i _
        simp only [Function.comp, Nat.cast_succ]
        ring
    unfold lineLoop
    dsimp only
    rw [if_neg hne]
    by_cases hz2 : 2 * s.err < p.dx
    · have hadv : lineAdvance p s.err s.currentX s.currentZ =
          (s.err - p.dz + p.dx, s.currentX + p.sx, s.currentZ + p.sz) := by
        simp [lineAdvance, hlo, hz2]
      rw [hadv]
      obtain ⟨r, tail, hr, hvis, hfst, hsnd⟩ := ih f
        { cellMap := (markThickness p s.currentX s.currentZ (s.cellMap, s.tileCount)).1
          tileCount := (markThickness p s.currentX s.currentZ (s.cellMap, s.tileCount)).2
          err := s.err - p.dz + p.dx
          currentX := s.currentX + p.sx
          currentZ := s.currentZ + p.sz
          visited := s.visited ++ [(s.currentX, s.currentZ)] } (b - 1) (by omega) hx2
        (by dsimp only; rw [← hz]; ring) (by dsimp only; rw [he2]; ring)
        (by dsimp only; omega) (by dsimp only; omega)
      refine ⟨r, (s.currentX, s.currentZ) :: tail, hr, ?_, hmap tail hfst, ?_⟩
      · rw [hvis]; simp
      · intro c hc
        rcases List.mem_cons.mp hc with rfl | hc
        · exact ⟨b, hb0, le_refl _, hz⟩
        · obtain ⟨j, h1, h2, h3⟩ := hsnd c hc
          exact ⟨j, h1, by omega, h3⟩
    · have hadv : lineAdvance p s.err s.currentX s.currentZ =
          (s.err - p.dz, s.currentX + p.sx, s.currentZ) := by
        simp [lineAdvance, hlo, hz2]
      rw [hadv]
      obtain ⟨r, tail, hr, hvis, hfst, hsnd⟩ := ih f
        { cellMap := (markThickness p s.currentX s.currentZ (s.cellMap, s.tileCount)).1
          tileCount := (markThickness p s.currentX s.currentZ (s.cellMap, s.tileCount)).2
          err := s.err - p.dz
          currentX := s.currentX + p.sx
          currentZ := s.currentZ
          visited := s.visited ++ [(s.currentX, s.currentZ)] } b (by omega) hx2
        hz he2 (by dsimp only; omega) (by dsimp only; omega)
      refine ⟨r, (s.currentX, s.currentZ) :: tail, hr, ?_, hmap tail hfst, ?_⟩
      · rw [hvis]; simp
      · intro c hc
        rcases List.mem_cons.mp hc with rfl | hc
        · exact ⟨b, hb0, le_refl _, hz⟩
        · exact hsnd c hc

/-- Cells traced by a line that is at least as high as it is wide: Z takes the values
`currentZ + sz * i` for `i = 0..a` in order, and X stays between the current column and
the end column. -/
theorem lineLoop_ztrace (p : LineParams) (hsz : p.sz = 1 ∨ p.sz = -1) (hdx : 0 ≤ p.dx)
    (hle : p.dx ≤ p.dz) (hpos : 0 < p.dz) :
    ∀ (a fuel : Nat) (s : LineState) (b : Int), a < fuel →
      s.currentZ + p.sz * a = p.diagEndZ → s.currentX + p.sx * b = p.diagEndX →
      s.err = p.dx - p.dz + b * p.dz - a * p.dx →
      2 * p.dx - 3 * p.dz < 2 * s.err → 2 * s.err < p.dx →
      ∃ r tail, lineLoop p fuel s = some r ∧ r.visited = s.visited ++ tail ∧
        tail.map Prod.snd =
          (List.range (a + 1)).map (fun (i : Nat) => s.currentZ + p.sz * (i : Int)) ∧
        ∀ c ∈ tail, ∃ j : Int, 0 ≤ j ∧ j ≤ b ∧ c.1 + p.sx * j = p.diagEndX := by
  intro a
  induction a with
  | zero =>
    intro fuel s b hf hz hx he hlo hhi
    obtain ⟨f, rfl⟩ : ∃ f, fuel = f + 1 := ⟨fuel - 1, by omega⟩
    have hb : b = 0 := by
      simp only [Nat.cast_zero, zero_mul, sub_zero] at he
      rw [he] at hlo hhi
      by_contra hne
      rcases lt_or_gt_of_ne hne with h | h
      · have : b * p.dz ≤ -1 * p.dz := by
          apply mul_le_mul_of_nonneg_right _ hpos.le
          omega
        omega
      · have : 1 * p.dz ≤ b * p.dz := by
          apply mul_le_mul_of_nonneg_right _ hpos.le
          omega
        omega
    subst hb
    simp only [Nat.cast_zero, mul_zero, add_zero] at hx hz
    unfold lineLoop
    dsimp only
    rw [if_pos ⟨hx, hz⟩]
    refine ⟨_, [(s.currentX, s.currentZ)], rfl, rfl, ?_, ?_⟩
    · simp [List.range_succ]
    · intro c hc
      rw [List.mem_singleton] at hc
      subst hc
      exact ⟨0, le_refl _, le_refl _, by simpa using hx⟩
  | succ a ih =>
    intro fuel s b hf hz hx he hlo hhi
    obtain ⟨f, rfl⟩ : ∃ f, fuel = f + 1 := ⟨fuel - 1, by omega⟩
    have hb0 : 0 ≤ b := by
      by_contra hneg
      have h1 : b * p.dz ≤ -1 * p.dz := by
        apply mul_le_mul_of_nonneg_right _ hpos.le
        omega
      have h2 : 0 ≤ ((a + 1 : Nat) : Int) * p.dx := mul_nonneg (by omega) hdx
      omega
    have hne : ¬ (s.currentX = p.diagEndX ∧ s.currentZ = p.diagEndZ) := by
      rintro ⟨-, h⟩
      rw [h] at hz
      push_cast at hz
      rcases hsz with h1 | h1 <;> rw [h1] at hz <;> omega
    have hz2 : s.currentZ + p.sz + p.sz * (a : Int) = p.diagEndZ := by
      rw [← hz]; push_cast; ring
    have he2 : s.err + p.dx = p.dx - p.dz + b * p.dz - (a : Int) * p.dx := by
      rw [he]; push_cast; ring
    have hmap : ∀ tail : List (Int × Int),
        tail.map Prod.snd =
          (List.range (a + 1)).map (fun (i : Nat) => s.currentZ + p.sz + p.sz * (i : Int)) →
        ((s.currentX, s.currentZ) :: tail).map Prod.snd =
          (List.range (a + 1 + 1)).map (fun (i : Nat) => s.currentZ + p.sz * (i : Int)) := by
      intro tail ht
      rw [List.range_succ_eq_map (a + 1), List.map_cons, List.map_cons, List.map_map, ht]
      congr 1
      · simp
      · apply List.map_congr_left
        intro i _
        simp only [Function.comp, Nat.cast_succ]
        ring
    unfold lineLoop
    dsimp only
    rw [if_neg hne]
    by_cases hx2 : 2 * s.err > -p.dz
    · have hadv : lineAdvance p s.err s.currentX s.currentZ =
          (s.err - p.dz + p.dx, s.currentX + p.sx, s.currentZ + p.sz) := by
        simp [lineAdvance, hhi, hx2]
      rw [hadv]
      obtain ⟨r, tail, hr, hvis, hsnd, hfst⟩ := ih f
        { cellMap := (markThickness p s.currentX s.currentZ (s.cellMap, s.tileCount)).1
          tileCount := (markThickness p s.currentX s.currentZ (s.cellMap, s.tileCount)).2
          err := s.err - p.dz + p.dx
          currentX := s.currentX + p.sx
          currentZ := s.currentZ + p.sz
          visited := s.visited ++ [(s.currentX, s.currentZ)] } (b - 1) (by omega) hz2
        (by dsimp only; rw [← hx]; ring)
        (by dsimp only; rw [show s.err - p.dz + p.dx = s.err + p.dx - p.dz by ring, he2]; ring)
        (by dsimp only; omega) (by dsimp only; omega)
      refine ⟨r, (s.currentX, s.currentZ) :: tail, hr, ?_, hmap tail hsnd, ?_⟩
      · rw [hvis]; simp
      · intro c hc
        rcases List.mem_cons.mp hc with rfl | hc
        · exact ⟨b, hb0, le_refl _, hx⟩
        · obtain ⟨j, h1, h2, h3⟩ := hfst c hc
          exact ⟨j, h1, by omega, h3⟩
    · have hadv : lineAdvance p s.err s.currentX s.currentZ =
          (s.err + p.dx, s.currentX, s.currentZ + p.sz) := by
        simp [lineAdvance, hhi, hx2]
      rw [hadv]
      obtain ⟨r, tail, hr, hvis, hsnd, hfst⟩ := ih f
        { cellMap := (markThickness p s.currentX s.currentZ (s.cellMap, s.tileCount)).1
          tileCount := (markThickness p s.currentX s.currentZ (s.cellMap, s.tileCount)).2
          err := s.err + p.dx
          currentX := s.currentX
          currentZ := s.currentZ + p.sz
          visited := s.visited ++ [(s.currentX, s.currentZ)] } b (by omega) hz2
        hx he2 (by dsimp only; omega) (by dsimp only; omega)
      refine ⟨r, (s.currentX, s.currentZ) :: tail, hr, ?_, hmap tail hsnd, ?_⟩
      · rw [hvis]; simp
      · intro c hc
        rcases List.mem_cons.mp hc with rfl | hc
        · exact ⟨b, hb0, le_refl _, hx⟩
        · exact hfst c hc

/-- The values `a + sgn * i`, `i = 0..d`, of a coordinate that moves from `a` to `e` in unit
steps: they are pairwise different and they are exactly the values between `a` and `e`. -/
theorem stepList_spec (a e sgn d : Int) (hs : sgn = if a < e then 1 else -1)
    (hd : d = cabs (e - a)) :
    ((List.range (d.toNat + 1)).map (fun (i : Nat) => a + sgn * (i : Int))).Nodup ∧
    (∀ v ∈ (List.range (d.toNat + 1)).map (fun (i : Nat) => a + sgn * (i : Int)),
      min a e ≤ v ∧ v ≤ max a e) ∧
    (∀ X, min a e ≤ X → X ≤ max a e →
      X ∈ (List.range (d.toNat + 1)).map (fun (i : Nat) => a + sgn * (i : Int))) := by
  unfold cabs at hd
  refine ⟨?_, ?_, ?_⟩
  · apply List.Nodup.map_on _ (List.nodup_range _)
    intro i _ j _ hij
    split_ifs at hs <;> subst hs <;> omega
  · intro v hv
    rw [List.mem_map] at hv
    obtain ⟨i, hi, rfl⟩ := hv
    rw [List.mem_range] at hi
    split_ifs at hs hd <;> subst hs <;> omega
  · intro X h1 h2
    rw [List.mem_map]
    split_ifs at hs hd <;> subst hs
    all_goals first
      | omega
      | exact ⟨(X - a).toNat, by rw [List.mem_range]; omega, by omega⟩
      | exact ⟨(a - X).toNat, by rw [List.mem_range]; omega, by omega⟩

theorem between_of_step (a e sgn d j v : Int) (hs : sgn = if a < e then 1 else -1)
    (hd : d = cabs (e - a)) (h0 : 0 ≤ j) (h1 : j ≤ d) (hv : v + sgn * j = e) :
    min a e ≤ v ∧ v ≤ max a e := by
  unfold cabs at hd
  split_ifs at hs hd <;> subst hs <;> omega

/-- The cells traced by the line walk from a start corner to an end corner: every fuel
above `max dx dz` returns; every traced cell lies between the two corners; along the
longer axis every coordinate value between the corners is taken by exactly one traced
cell. -/
theorem lineLoop_trace (p : LineParams) (s : LineState)
    (hdx : p.dx = cabs (p.diagEndX - s.currentX)) (hdz : p.dz = cabs (p.diagEndZ - s.currentZ))
    (hsx : p.sx = if s.currentX < p.diagEndX then 1 else -1)
    (hsz : p.sz = if s.currentZ < p.diagEndZ then 1 else -1)
    (herr : s.err = p.dx - p.dz) (fuel : Nat) (hfuel : max p.dx p.dz < fuel) :
    ∃ r tail, lineLoop p fuel s = some r ∧ r.visited = s.visited ++ tail ∧
      (∀ c ∈ tail,
        min s.currentX p.diagEndX ≤ c.1 ∧ c.1 ≤ max s.currentX p.diagEndX ∧
        min s.currentZ p.diagEndZ ≤ c.2 ∧ c.2 ≤ max s.currentZ p.diagEndZ) ∧
      (p.dz ≤ p.dx → (tail.map Prod.fst).Nodup ∧
        ∀ X, min s.currentX p.diagEndX ≤ X → X ≤ max s.currentX p.diagEndX →
          X ∈ tail.map Prod.fst) ∧
      (p.dx ≤ p.dz → (tail.map Prod.snd).Nodup ∧
        ∀ Z, min s.currentZ p.diagEndZ ≤ Z → Z ≤ max s.currentZ p.diagEndZ →
          Z ∈ tail.map Prod.snd) := by
  have h0x : 0 ≤ p.dx := hdx ▸ cabs_nonneg _
  have h0z : 0 ≤ p.dz := hdz ▸ cabs_nonneg _
  have hsx1 : p.sx = 1 ∨ p.sx = -1 := by rw [hsx]; split <;> simp
  have hsz1 : p.sz = 1 ∨ p.sz = -1 := by rw [hsz]; split <;> simp
  have hxe : s.currentX + p.sx * p.dx = p.diagEndX := by
    rw [hsx, hdx]; exact step_sign _ _
  have hze : s.currentZ + p.sz * p.dz = p.diagEndZ := by
    rw [hsz, hdz]; exact step_sign _ _
  have hcx : ((p.dx.toNat : Nat) : Int) = p.dx := Int.toNat_of_nonneg h0x
  have hcz : ((p.dz.toNat : Nat) : Int) = p.dz := Int.toNat_of_nonneg h0z
  have hX := stepList_spec s.currentX p.diagEndX p.sx p.dx hsx hdx
  have hZ := stepList_spec s.currentZ p.diagEndZ p.sz p.dz hsz hdz
  -- the walk along X
  have xcase : p.dz ≤ p.dx → 0 < p.dx →
      ∃ r tail, lineLoop p fuel s = some r ∧ r.visited = s.visited ++ tail ∧
        (∀ c ∈ tail,
          min s.currentX p.diagEndX ≤ c.1 ∧ c.1 ≤ max s.currentX p.diagEndX ∧
          min s.currentZ p.diagEndZ ≤ c.2 ∧ c.2 ≤ max s.currentZ p.diagEndZ) ∧
        (tail.map Prod.fst).Nodup ∧
          ∀ X, min s.currentX p.diagEndX ≤ X → X ≤ max s.currentX p.diagEndX →
            X ∈ tail.map Prod.fst := by
    intro hle hpos
    obtain ⟨r, tail, hr, hvis, hfst, hsnd⟩ :=
      lineLoop_xtrace p hsx1 h0z hle hpos p.dx.toNat fuel s p.dz
        (by rw [max_eq_left hle] at hfuel; omega)
        (by rw [hcx]; exact hxe) hze (by rw [hcx, herr]; ring)
        (by rw [herr]; omega) (by rw [herr]; omega)
    refine ⟨r, tail, hr, hvis, ?_, ?_, ?_⟩
    · intro c hc
      have h1 := hX.2.1 c.1 (by rw [← hfst]; exact List.mem_map_of_mem _ hc)
      obtain ⟨j, j0, j1, j2⟩ := hsnd c hc
      have h2 := between_of_step s.currentZ p.diagEndZ p.sz p.dz j c.2 hsz hdz j0 j1 j2
      exact ⟨h1.1, h1.2, h2.1, h2.2⟩
    · rw [hfst]; exact hX.1
    · rw [hfst]; exact hX.2.2
  -- the walk along Z
  have zcase : p.dx ≤ p.dz → 0 < p.dz →
      ∃ r tail, lineLoop p fuel s = some r ∧ r.visited = s.visited ++ tail ∧
        (∀ c ∈ tail,
          min s.currentX p.diagEndX ≤ c.1 ∧ c.1 ≤ max s.currentX p.diagEndX ∧
          min s.currentZ p.diagEndZ ≤ c.2 ∧ c.2 ≤ max s.currentZ p.diagEndZ) ∧
        (tail.map Prod.snd).Nodup ∧
          ∀ Z, min s.currentZ p.diagEndZ ≤ Z → Z ≤ max s.currentZ p.diagEndZ →
            Z ∈ tail.map Prod.snd := by
    intro hle hpos
    obtain ⟨r, tail, hr, hvis, hsnd, hfst⟩ :=
      lineLoop_ztrace p hsz1 h0x hle hpos p.dz.toNat fuel s p.dx
        (by rw [max_eq_right hle] at hfuel; omega)
        (by rw [hcz]; exact hze) hxe (by rw [hcz, herr]; ring)
        (by rw [herr]; omega) (by rw [herr]; omega)
    refine ⟨r, tail, hr, hvis, ?_, ?_, ?_⟩
    · intro c hc
      have h1 := hZ.2.1 c.2 (by rw [← hsnd]; exact List.mem_map_of_mem _ hc)
      obtain ⟨j, j0, j1, j2⟩ := hfst c hc
      have h2 := between_of_step s.currentX p.diagEndX p.sx p.dx j c.1 hsx hdx j0 j1 j2
      exact ⟨h2.1, h2.2, h1.1, h1.2⟩
    · rw [hsnd]; exact hZ.1
    · rw [hsnd]; exact hZ.2.2
  by_cases hpx : 0 < p.dx
  · by_cases hle : p.dz ≤ p.dx
    · obtain ⟨r, tail, hr, hvis, hbox, hnd, hall⟩ := xcase hle hpx
      refine ⟨r, tail, hr, hvis, hbox, fun _ => ⟨hnd, hall⟩, ?_⟩
      intro hge
      obtain ⟨r2, tail2, hr2, hvis2, -, hnd2, hall2⟩ := zcase hge (by omega)
      rw [hr] at hr2
      injection hr2 with hr2
      subst hr2
      rw [hvis] at hvis2
      have ht := List.append_cancel_left hvis2
      subst ht
      exact ⟨hnd2, hall2⟩
    · obtain ⟨r, tail, hr, hvis, hbox, hnd, hall⟩ := zcase (by omega) (by omega)
      exact ⟨r, tail, hr, hvis, hbox, fun h => absurd h hle, fun _ => ⟨hnd, hall⟩⟩
  · by_cases hpz : 0 < p.dz
    · obtain ⟨r, tail, hr, hvis, hbox, hnd, hall⟩ := zcase (by omega) hpz
      exact ⟨r, tail, hr, hvis, hbox, fun h => absurd h (by omega), fun _ => ⟨hnd, hall⟩⟩
    · have hx0 : p.dx = 0 := by omega
      have hz0 : p.dz = 0 := by omega
      rw [hx0] at hxe
      rw [hz0] at hze
      simp only [mul_zero, add_zero] at hxe hze
      obtain ⟨f, rfl⟩ : ∃ f, fuel = f + 1 := ⟨fuel - 1, by omega⟩
      unfold lineLoop
      dsimp only
      rw [if_pos ⟨hxe, hze⟩]
      refine ⟨_, [(s.currentX, s.currentZ)], rfl, rfl, ?_, ?_, ?_⟩
      · intro c hc
        rw [List.mem_singleton] at hc
        subst hc
        dsimp only
        omega
      · intro _
        refine ⟨by simp, ?_⟩
        intro X h1 h2
        simp only [List.map_cons, List.map_nil, List.mem_singleton]
        omega
      · intro _
        refine ⟨by simp, ?_⟩
        intro Z h1 h2
        simp only [List.map_cons, List.map_nil, List.mem_singleton]
        omega

/-- Every run of `CreateDiagonalRegion` with more fuel than the longer span of the box
returns; every traced cell lies in the box; along the longer axis of the box every
coordinate value of the box is taken by exactly one traced cell. -/
theorem CreateDiagonalRegionRun_trace (x1 z1 x2 z2 startX startZ t : Int) (fuel : Nat)
    (hfuel : max (max x1 x2 - min x1 x2) (max z1 z2 - min z1 z2) < fuel) :
    ∃ (r : SC4CellRegion) (s : LineState),
      CreateDiagonalRegionRun fuel x1 z1 x2 z2 startX startZ t = some (r, s) ∧
      (∀ c ∈ s.visited,
        min x1 x2 ≤ c.1 ∧ c.1 ≤ max x1 x2 ∧ min z1 z2 ≤ c.2 ∧ c.2 ≤ max z1 z2) ∧
      (max z1 z2 - min z1 z2 ≤ max x1 x2 - min x1 x2 →
        (s.visited.map Prod.fst).Nodup ∧
        ∀ X, min x1 x2 ≤ X → X ≤ max x1 x2 → X ∈ s.visited.map Prod.fst) ∧
      (max x1 x2 - min x1 x2 ≤ max z1 z2 - min z1 z2 →
        (s.visited.map Prod.snd).Nodup ∧
        ∀ Z, min z1 z2 ≤ Z → Z ≤ max z1 z2 → Z ∈ s.visited.map Prod.snd) := by
  have hdx := lineParams_dx x1 z1 x2 z2 startX startZ t
  have hdz := lineParams_dz x1 z1 x2 z2 startX startZ t
  have hxle : min x1 x2 ≤ max x1 x2 := min_le_max
  have hzle : min z1 z2 ≤ max z1 z2 := min_le_max
  have hcorner := diagonalEndpoints_corners (min x1 x2) (min z1 z2) (max x1 x2) (max z1 z2)
    startX startZ
  unfold CreateDiagonalRegionRun
  dsimp only
  generalize hp : lineParams x1 z1 x2 z2 startX startZ t = p at hdx hdz ⊢
  have hminX : p.minX = min x1 x2 := by rw [← hp]; rfl
  have hminZ : p.minZ = min z1 z2 := by rw [← hp]; rfl
  have hmaxX : p.maxX = max x1 x2 := by rw [← hp]; rfl
  have hmaxZ : p.maxZ = max z1 z2 := by rw [← hp]; rfl
  rw [hminX, hminZ, hmaxX, hmaxZ]
  generalize hends :
    diagonalEndpoints (min x1 x2) (min z1 z2) (max x1 x2) (max z1 z2) startX startZ = ends
    at hcorner
  have hpdx : p.dx = cabs (p.diagEndX - ends.1) := by rw [← hp, ← hends]; rfl
  have hpdz : p.dz = cabs (p.diagEndZ - ends.2.1) := by rw [← hp, ← hends]; rfl
  have hpsx : p.sx = if ends.1 < p.diagEndX then 1 else -1 := by rw [← hp, ← hends]; rfl
  have hpsz : p.sz = if ends.2.1 < p.diagEndZ then 1 else -1 := by rw [← hp, ← hends]; rfl
  have hex : p.diagEndX = ends.2.2.1 := by rw [← hp, ← hends]; rfl
  have hez : p.diagEndZ = ends.2.2.2 := by rw [← hp, ← hends]; rfl
  generalize (SC4CellRegion.create (min x1 x2) (min z1 z2) (max x1 x2) (max z1 z2)
    false).cellMap = m0
  generalize hs0 : LineState.mk m0 0 (p.dx - p.dz) ends.1 ends.2.1 [] = s0
  have hs0x : s0.currentX = ends.1 := by rw [← hs0]
  have hs0z : s0.currentZ = ends.2.1 := by rw [← hs0]
  have hs0v : s0.visited = [] := by rw [← hs0]
  obtain ⟨r, tail, hr, hvis, hbox, hcol, hrow⟩ := lineLoop_trace p s0
    (by rw [hs0x]; exact hpdx) (by rw [hs0z]; exact hpdz) (by rw [hs0x]; exact hpsx)
    (by rw [hs0z]; exact hpsz) (by rw [← hs0]) fuel (by rw [hdx, hdz]; exact hfuel)
  rw [hs0v, List.nil_append] at hvis
  simp only [hs0x, hs0z, hex, hez, hdx, hdz] at hbox hcol hrow
  have hmx : min ends.1 ends.2.2.1 = min x1 x2 ∧ max ends.1 ends.2.2.1 = max x1 x2 := by
    rcases hcorner.1 with ⟨h1, h2⟩ | ⟨h1, h2⟩ <;> rw [h1, h2] <;> omega
  have hmz : min ends.2.1 ends.2.2.2 = min z1 z2 ∧ max ends.2.1 ends.2.2.2 = max z1 z2 := by
    rcases hcorner.2 with ⟨h1, h2⟩ | ⟨h1, h2⟩ <;> rw [h1, h2] <;> omega
  simp only [hmx.1, hmx.2, hmz.1, hmz.2] at hbox hcol hrow
  refine ⟨_, r, by rw [hr]; rfl, ?_, ?_, ?_⟩
  · rw [hvis]; exact hbox
  · rw [hvis]; exact hcol
  · rw [hvis]; exact hrow

/-! ## Termination of the walk in the box -/

/-- C23: for every box and every anchor the line walk of `CreateDiagonalRegion` returns
for every fuel above `max dx dz`, where `dx` and `dz` are the horizontal and the vertical
span of the box.  It starts at the start corner and reaches the end corner after exactly
`max dx dz` steps (the trace has `max dx dz + 1` cells, no cell is traced twice and the
last one is the end corner), and every traced cell lies in the box. -/
theorem C23_line_walk_terminates (x1 z1 x2 z2 startX startZ t : Int) (fuel : Nat)
    (hfuel : max (max x1 x2 - min x1 x2) (max z1 z2 - min z1 z2) < fuel) :
    ∃ trace : List (Int × Int),
      CreateDiagonalTrace fuel x1 z1 x2 z2 startX startZ t = some trace ∧
      trace.length = (max (max x1 x2 - min x1 x2) (max z1 z2 - min z1 z2)).toNat + 1 ∧
      trace.head? = some
        ((diagonalEndpoints (min x1 x2) (min z1 z2) (max x1 x2) (max z1 z2) startX startZ).1,
         (diagonalEndpoints (min x1 x2) (min z1 z2) (max x1 x2) (max z1 z2) startX startZ).2.1) ∧
      trace.getLast? = some
        ((diagonalEndpoints (min x1 x2) (min z1 z2) (max x1 x2) (max z1 z2) startX startZ).2.2.1,
         (diagonalEndpoints (min x1 x2) (min z1 z2) (max x1 x2) (max z1 z2) startX startZ).2.2.2) ∧
      trace.Nodup ∧
      ∀ c ∈ trace,
        min x1 x2 ≤ c.1 ∧ c.1 ≤ max x1 x2 ∧ min z1 z2 ≤ c.2 ∧ c.2 ≤ max z1 z2 := by
  obtain ⟨r, s, tail, hrun, -, -, -, hvis, hlast, hlen, -⟩ :=
    CreateDiagonalRegionRun_spec x1 z1 x2 z2 startX startZ t fuel hfuel
  obtain ⟨r2, s2, hrun2, hbox, hcol, hrow⟩ :=
    CreateDiagonalRegionRun_trace x1 z1 x2 z2 startX startZ t fuel hfuel
  rw [hrun] at hrun2
  injection hrun2 with hrun2
  injection hrun2 with h1 h2
  subst h1 h2
  have hnd : s.visited.Nodup := by
    by_cases hle : max z1 z2 - min z1 z2 ≤ max x1 x2 - min x1 x2
    · exact List.Nodup.of_map _ (hcol hle).1
    · exact List.Nodup.of_map _ (hrow (by omega)).1
  refine ⟨s.visited, ?_, hlen, by rw [hvis]; rfl, hlast, hnd, hbox⟩
  unfold CreateDiagonalTrace
  rw [hrun]
  rfl

/-- Witness of C23: the box (0,0)-(6,2) with the anchor (5,0) is walked from (6,0) to
(0,2) in 6 steps. -/
theorem C23_line_walk_terminates_witness :
    max (max (0 : Int) 6 - min 0 6) (max 0 2 - min 0 2) < ((7 : Nat) : Int) ∧
    ∃ trace : List (Int × Int),
      CreateDiagonalTrace 7 0 0 6 2 5 0 1 = some trace ∧
      trace.length = 7 ∧ trace.head? = some (6, 0) ∧ trace.getLast? = some (0, 2) ∧
      ∀ c ∈ trace, 0 ≤ c.1 ∧ c.1 ≤ 6 ∧ 0 ≤ c.2 ∧ c.2 ≤ 2 :=
  ⟨by decide,
    match C23_line_walk_terminates 0 0 6 2 5 0 1 7 (by decide) with
    | ⟨trace, h1, h2, h3, h4, _, h6⟩ => ⟨trace, h1, h2, h3, h4, h6⟩⟩

/-! ## Index range of the in-place copy -/

theorem mem_copyIndices (width height : Nat) (c : Nat × Nat) :
    c ∈ copyIndices width height ↔ c.1 < width ∧ c.2 < height := by
  unfold copyIndices
  simp only [List.mem_flatMap, List.mem_map, List.mem_range]
  constructor
  · rintro ⟨x, hx, z, hz, rfl⟩
    exact ⟨hx, hz⟩
  · rintro ⟨hx, hz⟩
    exact ⟨c.1, hx, c.2, hz, rfl⟩

/-- The copy loops are the fold of their body over the index pairs of `copyIndices`. -/
theorem copyCellMap_copyIndices (e d : CellMap) (width height : Nat) :
    copyCellMap e d width height =
      (copyIndices width height).foldl
        (fun m c => m.SetValue c.1 c.2 (d.GetValue c.1 c.2)) e := by
  unfold copyCellMap copyIndices
  generalize List.range width = xs
  induction xs generalizing e with
  | nil => rfl
  | cons x xs ih =>
    rw [List.foldl_cons, ih, List.flatMap_cons, List.foldl_append, List.foldl_map]

/-- The in-place rewrite is the fold of the loop body over the index pairs of its ghost
trace. -/
theorem rewriteRegion_rewriteIndices (fuel : Nat) (region : SC4CellRegion)
    (clickX clickZ t : Int) (diagonalRegion : SC4CellRegion)
    (hcreate : CreateDiagonalRegion fuel region.bounds.topLeftX region.bounds.topLeftY
      region.bounds.bottomRightX region.bounds.bottomRightY clickX clickZ t =
        some diagonalRegion) :
    ∃ idx, rewriteIndices fuel region clickX clickZ t = some idx ∧
      rewriteRegion fuel region clickX clickZ t =
        some { bounds := region.bounds
               cellMap := idx.foldl
                 (fun m c => m.SetValue c.1 c.2 (diagonalRegion.cellMap.GetValue c.1 c.2))
                 region.cellMap } := by
  unfold rewriteIndices rewriteRegion
  dsimp only
  rw [hcreate]
  dsimp only
  split
  · exact ⟨_, rfl, by rw [copyCellMap_copyIndices]⟩
  · exact ⟨[], rfl, rfl⟩

/-- The copy of the preview hook is the fold of the loop body over the index pairs of its
ghost trace. -/
theorem previewCopy_previewCopyIndices (existing : SC4CellRegion) (bounds : SC4Rect)
    (diagonalRegion : SC4CellRegion) :
    previewCopy existing bounds diagonalRegion =
      { bounds := existing.bounds
        cellMap := (previewCopyIndices existing bounds diagonalRegion).foldl
          (fun m c => m.SetValue c.1 c.2 (diagonalRegion.cellMap.GetValue c.1 c.2))
          existing.cellMap } := by
  unfold previewCopy previewCopyIndices
  dsimp only
  split
  · rw [copyCellMap_copyIndices]
  · rfl

theorem toUInt32_le (v : Int) (h : 0 ≤ v) : toUInt32 v ≤ v.toNat := by
  unfold toUInt32
  omega

/-- Bounds and dimensions of the region `CreateDiagonalRegion` returns. -/
theorem CreateDiagonalRegion_dims (x1 z1 x2 z2 startX startZ t : Int) (fuel : Nat)
    (r : SC4CellRegion) (h : CreateDiagonalRegion fuel x1 z1 x2 z2 startX startZ t = some r) :
    r.bounds = { topLeftX := min x1 x2, topLeftY := min z1 z2,
                 bottomRightX := max x1 x2, bottomRightY := max z1 z2 } ∧
    r.cellMap.width = (max x1 x2 - min x1 x2 + 1).toNat ∧
    r.cellMap.height = (max z1 z2 - min z1 z2 + 1).toNat := by
  unfold CreateDiagonalRegion CreateDiagonalRegionRun at h
  dsimp only at h
  simp only [Option.map_map, Option.map_eq_some', Function.comp] at h
  obtain ⟨s, hs, rfl⟩ := h
  have hd := lineLoop_dims _ _ _ _ hs
  exact ⟨rfl, hd.1, hd.2⟩

/-- Index range of the copy loops when the bounds of the host region are those of the
diagonal region computed over `bounds`, and `bounds` is ordered. -/
theorem copyIndices_inRange (existing diagonalRegion : SC4CellRegion) (bounds : SC4Rect)
    (fuel : Nat) (startX startZ t : Int)
    (hcreate : CreateDiagonalRegion fuel bounds.topLeftX bounds.topLeftY bounds.bottomRightX
      bounds.bottomRightY startX startZ t = some diagonalRegion)
    (hw : existing.cellMap.width =
      (existing.bounds.bottomRightX - existing.bounds.topLeftX + 1).toNat)
    (hh : existing.cellMap.height =
      (existing.bounds.bottomRightY - existing.bounds.topLeftY + 1).toNat)
    (hx : bounds.topLeftX ≤ bounds.bottomRightX) (hz : bounds.topLeftY ≤ bounds.bottomRightY)
    (heq : existing.bounds.topLeftX = diagonalRegion.bounds.topLeftX ∧
      existing.bounds.topLeftY = diagonalRegion.bounds.topLeftY ∧
      existing.bounds.bottomRightX = diagonalRegion.bounds.bottomRightX ∧
      existing.bounds.bottomRightY = diagonalRegion.bounds.bottomRightY) :
    ∀ c ∈ copyIndices (toUInt32 (bounds.bottomRightX - bounds.topLeftX + 1))
        (toUInt32 (bounds.bottomRightY - bounds.topLeftY + 1)),
      existing.cellMap.inRange c ∧ diagonalRegion.cellMap.inRange c := by
  obtain ⟨hb, hdw, hdh⟩ := CreateDiagonalRegion_dims _ _ _ _ _ _ _ _ _ hcreate
  obtain ⟨e1, e2, e3, e4⟩ := heq
  rw [hb] at e1 e2 e3 e4
  dsimp only at e1 e2 e3 e4
  rw [min_eq_left hx] at e1 hdw
  rw [min_eq_left hz] at e2 hdh
  rw [max_eq_right hx] at e3 hdw
  rw [max_eq_right hz] at e4 hdh
  have l1 := toUInt32_le (bounds.bottomRightX - bounds.topLeftX + 1) (by omega)
  have l2 := toUInt32_le (bounds.bottomRightY - bounds.topLeftY + 1) (by omega)
  intro c hc
  rw [mem_copyIndices] at hc
  unfold CellMap.inRange
  rw [hw, hh, hdw, hdh, e1, e2, e3, e4]
  omega

/-- Index range of the in-place rewrite of `SetOccupantFilterOption`: with enough fuel the
rewrite returns, and every index pair it accesses lies within the host map and within the
diagonal map. -/
theorem rewriteIndices_inRange (fuel : Nat) (region : SC4CellRegion) (clickX clickZ t : Int)
    (hw : region.cellMap.width =
      (region.bounds.bottomRightX - region.bounds.topLeftX + 1).toNat)
    (hh : region.cellMap.height =
      (region.bounds.bottomRightY - region.bounds.topLeftY + 1).toNat)
    (hfuel : regionSpan region < fuel) :
    ∃ idx diagonalRegion,
      rewriteIndices fuel region clickX clickZ t = some idx ∧
      CreateDiagonalRegion fuel region.bounds.topLeftX region.bounds.topLeftY
        region.bounds.bottomRightX region.bounds.bottomRightY clickX clickZ t =
          some diagonalRegion ∧
      ∀ c ∈ idx, region.cellMap.inRange c ∧ diagonalRegion.cellMap.inRange c := by
  obtain ⟨diag, hcreate⟩ := CreateDiagonalRegion_isSome region.bounds.topLeftX
    region.bounds.topLeftY region.bounds.bottomRightX region.bounds.bottomRightY
    clickX clickZ t fuel hfuel
  unfold rewriteIndices
  dsimp only
  rw [hcreate]
  dsimp only
  split
  · rename_i heq
    refine ⟨_, diag, rfl, rfl, ?_⟩
    have hb := (CreateDiagonalRegion_dims _ _ _ _ _ _ _ _ _ hcreate).1
    have hx : region.bounds.topLeftX ≤ region.bounds.bottomRightX := by
      have := heq.1
      rw [hb] at this
      dsimp only at this
      omega
    have hz : region.bounds.topLeftY ≤ region.bounds.bottomRightY := by
      have := heq.2.1
      rw [hb] at this
      dsimp only at this
      omega
    exact copyIndices_inRange region diag region.bounds fuel clickX clickZ t hcreate hw hh
      hx hz heq
  · exact ⟨[], diag, rfl, rfl, fun c hc => absurd hc (List.not_mem_nil c)⟩

/-- Index range of the copy loops of the preview hook when the bounds check passes: the
input region has the bounds of the host region, or it is a region whose map has the
dimensions of its box. -/
theorem previewCopyIndices_inRange (existing diagonalRegion cellRegion : SC4CellRegion)
    (fuel : Nat) (startX startZ t : Int)
    (hcreate : CreateDiagonalRegion fuel cellRegion.bounds.topLeftX
      cellRegion.bounds.topLeftY cellRegion.bounds.bottomRightX
      cellRegion.bounds.bottomRightY startX startZ t = some diagonalRegion)
    (hw : existing.cellMap.width =
      (existing.bounds.bottomRightX - existing.bounds.topLeftX + 1).toNat)
    (hh : existing.cellMap.height =
      (existing.bounds.bottomRightY - existing.bounds.topLeftY + 1).toNat)
    (hinput : cellRegion.bounds = existing.bounds ∨
      ((cellRegion.cellMap.width : Int) =
          cellRegion.bounds.bottomRightX - cellRegion.bounds.topLeftX + 1 ∧
        (cellRegion.cellMap.height : Int) =
          cellRegion.bounds.bottomRightY - cellRegion.bounds.topLeftY + 1)) :
    ∀ c ∈ previewCopyIndices existing cellRegion.bounds diagonalRegion,
      existing.cellMap.inRange c ∧ diagonalRegion.cellMap.inRange c := by
  unfold previewCopyIndices
  dsimp only
  split
  · rename_i heq
    have hb := (CreateDiagonalRegion_dims _ _ _ _ _ _ _ _ _ hcreate).1
    by_cases hord : cellRegion.bounds.topLeftX ≤ cellRegion.bounds.bottomRightX ∧
        cellRegion.bounds.topLeftY ≤ cellRegion.bounds.bottomRightY
    · exact copyIndices_inRange existing diagonalRegion cellRegion.bounds fuel startX startZ t
        hcreate hw hh hord.1 hord.2 heq
    · rcases hinput with hsame | ⟨hcw, hch⟩
      · exfalso
        apply hord
        obtain ⟨e1, e2, e3, e4⟩ := heq
        rw [hb] at e1 e2 e3 e4
        dsimp only at e1 e2 e3 e4
        rw [← hsame] at e1 e2 e3 e4
        omega
      · intro c hc
        rw [mem_copyIndices] at hc
        exfalso
        have h1 : cellRegion.bounds.bottomRightX - cellRegion.bounds.topLeftX + 1 = 0 ∨
            cellRegion.bounds.bottomRightY - cellRegion.bounds.topLeftY + 1 = 0 := by
          omega
        unfold toUInt32 at hc
        rcases h1 with h1 | h1 <;> rw [h1] at hc <;> simp at hc
  · exact fun c hc => absurd hc (List.not_mem_nil c)

/-- C24: with enough fuel the in-place rewrite of `SetOccupantFilterOption` and the in-place
copy of the preview hook `UpdateSelectedRegionDemolishRegion` return, and every index pair
`(x, z)` their copy loops access lies within the dimensions of the host map and of the
diagonal map, the dimensions of the host map being those of its bounds.  The input region
of the preview hook is a region as the host passes it: it has the bounds of the host region
or its own map has the dimensions of its box. -/
theorem C24_copy_index_range :
    (∀ (fuel : Nat) (mode : ModeState) (ctl : cSC4ViewInputControlDemolish)
        (type : OccupantFilterType) (diagonal : Bool) (region : SC4CellRegion),
      ctl.pCellRegion = some region →
      region.cellMap.width =
        (region.bounds.bottomRightX - region.bounds.topLeftX + 1).toNat →
      region.cellMap.height =
        (region.bounds.bottomRightY - region.bounds.topLeftY + 1).toNat →
      regionSpan region < fuel →
      ∃ idx diagonalRegion,
        SetOccupantFilterOptionIndices fuel mode ctl type diagonal = some idx ∧
        CreateDiagonalRegion fuel region.bounds.topLeftX region.bounds.topLeftY
          region.bounds.bottomRightX region.bounds.bottomRightY ctl.clickX ctl.clickZ
          mode.diagonalThickness = some diagonalRegion ∧
        ∀ c ∈ idx, region.cellMap.inRange c ∧ diagonalRegion.cellMap.inRange c) ∧
    (∀ (fuel : Nat) (mode : ModeState) (viewControl : cSC4ViewInputControlDemolish)
        (cellRegion existing : SC4CellRegion),
      viewControl.pCellRegion = some existing →
      existing.cellMap.width =
        (existing.bounds.bottomRightX - existing.bounds.topLeftX + 1).toNat →
      existing.cellMap.height =
        (existing.bounds.bottomRightY - existing.bounds.topLeftY + 1).toNat →
      (cellRegion.bounds = existing.bounds ∨
        ((cellRegion.cellMap.width : Int) =
            cellRegion.bounds.bottomRightX - cellRegion.bounds.topLeftX + 1 ∧
          (cellRegion.cellMap.height : Int) =
            cellRegion.bounds.bottomRightY - cellRegion.bounds.topLeftY + 1)) →
      regionSpan cellRegion < fuel →
      ∃ idx diagonalRegion,
        UpdateSelectedRegionDemolishRegionIndices fuel mode viewControl cellRegion =
          some idx ∧
        CreateDiagonalRegion fuel cellRegion.bounds.topLeftX cellRegion.bounds.topLeftY
          cellRegion.bounds.bottomRightX cellRegion.bounds.bottomRightY viewControl.clickX
          viewControl.clickZ mode.diagonalThickness = some diagonalRegion ∧
        ∀ c ∈ idx, existing.cellMap.inRange c ∧ diagonalRegion.cellMap.inRange c) := by
  constructor
  · intro fuel mode ctl type diagonal region hreg hw hh hfuel
    obtain ⟨idx, diag, hidx, hcreate, hrange⟩ :=
      rewriteIndices_inRange fuel region ctl.clickX ctl.clickZ mode.diagonalThickness hw hh
        hfuel
    have hnil : ∃ idx diagonalRegion,
        (some [] : Option (List (Nat × Nat))) = some idx ∧
        CreateDiagonalRegion fuel region.bounds.topLeftX region.bounds.topLeftY
          region.bounds.bottomRightX region.bounds.bottomRightY ctl.clickX ctl.clickZ
          mode.diagonalThickness = some diagonalRegion ∧
        ∀ c ∈ idx, region.cellMap.inRange c ∧ diagonalRegion.cellMap.inRange c :=
      ⟨[], diag, rfl, hcreate, fun c hc => absurd hc (List.not_mem_nil c)⟩
    unfold SetOccupantFilterOptionIndices
    split
    · split
      · cases diagonal with
        | false => exact hnil
        | true =>
          simp only [if_true, hreg]
          exact ⟨idx, diag, hidx, hcreate, hrange⟩
      · exact hnil
    · exact hnil
  · intro fuel mode viewControl cellRegion existing hreg hw hh hinput hfuel
    obtain ⟨diag, hcreate⟩ := CreateDiagonalRegion_isSome cellRegion.bounds.topLeftX
      cellRegion.bounds.topLeftY cellRegion.bounds.bottomRightX
      cellRegion.bounds.bottomRightY viewControl.clickX viewControl.clickZ
      mode.diagonalThickness fuel hfuel
    unfold UpdateSelectedRegionDemolishRegionIndices
    split
    · rename_i existing2 hex
      have he : existing2 = existing := by
        split at hex
        · rw [hreg] at hex
          injection hex with hex
          exact hex.symm
        · exact absurd hex (by simp)
      subst he
      dsimp only
      rw [hcreate]
      exact ⟨_, diag, rfl, rfl,
        previewCopyIndices_inRange existing2 diag cellRegion fuel viewControl.clickX
          viewControl.clickZ mode.diagonalThickness hcreate hw hh hinput⟩
    · exact ⟨[], diag, rfl, hcreate, fun c hc => absurd hc (List.not_mem_nil c)⟩

/-- Witness of C24: the preview over the box (0,0)-(4,4) in diagonal mode while the current
control owns a region over the same box; the copy loops run over all 25 index pairs. -/
theorem C24_copy_index_range_witness :
    (sampleControl.pCellRegion = some (SC4CellRegion.create 0 0 4 4 true) ∧
      (SC4CellRegion.create 0 0 4 4 true).bounds = (SC4CellRegion.create 0 0 4 4 true).bounds ∧
      regionSpan (SC4CellRegion.create 0 0 4 4 true) < (5 : Nat)) ∧
    ∃ idx diagonalRegion,
      UpdateSelectedRegionDemolishRegionIndices 5 sampleDiagonalMode sampleControl
        (SC4CellRegion.create 0 0 4 4 true) = some idx ∧
      CreateDiagonalRegion 5 0 0 4 4 1 1 1 = some diagonalRegion ∧
      idx.length = 25 ∧
      ∀ c ∈ idx, (SC4CellRegion.create 0 0 4 4 true).cellMap.inRange c ∧
        diagonalRegion.cellMap.inRange c := by
  refine ⟨⟨rfl, rfl, by decide⟩, ?_⟩
  obtain ⟨idx, diag, h1, h2, h3⟩ :=
    C24_copy_index_range.2 5 sampleDiagonalMode sampleControl
      (SC4CellRegion.create 0 0 4 4 true) (SC4CellRegion.create 0 0 4 4 true) rfl rfl rfl
      (Or.inl rfl) (by decide)
  refine ⟨idx, diag, h1, h2, ?_, h3⟩
  have hl : (UpdateSelectedRegionDemolishRegionIndices 5 sampleDiagonalMode sampleControl
      (SC4CellRegion.create 0 0 4 4 true)).map List.length = some 25 := by decide
  rw [h1] at hl
  simpa using hl

/-! ## Selected cells of a region -/

theorem mem_selectedCells (r : SC4CellRegion) (c : Int × Int) :
    c ∈ r.selectedCells ↔ r.selected c.1 c.2 = true := by
  unfold SC4CellRegion.selectedCells SC4CellRegion.selected
  simp only [List.mem_flatMap, List.mem_map, List.mem_filter, List.mem_range,
    Bool.and_eq_true, decide_eq_true_iff]
  constructor
  · rintro ⟨i, _, j, ⟨_, hget⟩, rfl⟩
    dsimp only
    refine ⟨⟨by omega, by omega⟩, ?_⟩
    rw [show (r.bounds.topLeftX + (i : Int) - r.bounds.topLeftX).toNat = i by omega,
      show (r.bounds.topLeftY + (j : Int) - r.bounds.topLeftY).toNat = j by omega]
    exact hget
  · rintro ⟨⟨hx, hz⟩, hget⟩
    have hin : (c.1 - r.bounds.topLeftX).toNat < r.cellMap.width ∧
        (c.2 - r.bounds.topLeftY).toNat < r.cellMap.height := by
      unfold CellMap.GetValue at hget
      by_contra hn
      rw [if_neg hn] at hget
      exact absurd hget (by simp)
    refine ⟨(c.1 - r.bounds.topLeftX).toNat, hin.1, (c.2 - r.bounds.topLeftY).toNat,
      ⟨hin.2, hget⟩, ?_⟩
    exact Prod.ext (by dsimp only; omega) (by dsimp only; omega)

theorem selectedCells_nodup (r : SC4CellRegion) : r.selectedCells.Nodup := by
  unfold SC4CellRegion.selectedCells
  rw [List.nodup_flatMap]
  constructor
  · intro i _
    apply List.Nodup.map_on _ ((List.nodup_range _).filter _)
    intro a _ b _ hab
    simp only [Prod.mk.injEq, true_and] at hab
    omega
  · apply List.Pairwise.imp _ (List.nodup_range r.cellMap.width)
    intro a b hab
    simp only [Function.onFun]
    rw [List.disjoint_left]
    intro c hc1 hc2
    rw [List.mem_map] at hc1 hc2
    obtain ⟨j1, _, rfl⟩ := hc1
    obtain ⟨j2, _, h2⟩ := hc2
    simp only [Prod.mk.injEq] at h2
    apply hab
    omega

theorem thicknessOffsets_one : thicknessOffsets 1 = [0] := by decide

theorem perpCell_zero (p : LineParams) (x z : Int) : perpCell p x z 0 = (x, z) := by
  unfold perpCell
  split <;> simp

/-- With thickness 1 the selected cells are the traced cells. -/
theorem CreateDiagonalRegionRun_thin (x1 z1 x2 z2 startX startZ : Int) (fuel : Nat)
    (hfuel : max (max x1 x2 - min x1 x2) (max z1 z2 - min z1 z2) < fuel) :
    ∃ (r : SC4CellRegion) (s : LineState),
      CreateDiagonalRegionRun fuel x1 z1 x2 z2 startX startZ 1 = some (r, s) ∧
      (∀ X Z : Int, r.selected X Z = true ↔ (X, Z) ∈ s.visited) ∧
      r.selectedCells.length = s.visited.length := by
  obtain ⟨r, s, hrun, -, -, -, hsel⟩ :=
    CreateDiagonalRegionRun_selected x1 z1 x2 z2 startX startZ 1 fuel hfuel
  obtain ⟨r2, s2, hrun2, hbox, hcol, hrow⟩ :=
    CreateDiagonalRegionRun_trace x1 z1 x2 z2 startX startZ 1 fuel hfuel
  rw [hrun] at hrun2
  injection hrun2 with hrun2
  injection hrun2 with h1 h2
  subst h1 h2
  have hiff : ∀ X Z : Int, r.selected X Z = true ↔ (X, Z) ∈ s.visited := by
    intro X Z
    rw [hsel, thicknessOffsets_one]
    simp only [List.mem_singleton, exists_eq_left, perpCell_zero]
    constructor
    · rintro ⟨-, c, hc, hcx⟩
      rw [← hcx]
      exact hc
    · intro h
      have := hbox (X, Z) h
      exact ⟨this, (X, Z), h, rfl⟩
  have hnd : s.visited.Nodup := by
    by_cases hle : max z1 z2 - min z1 z2 ≤ max x1 x2 - min x1 x2
    · exact List.Nodup.of_map _ (hcol hle).1
    · exact List.Nodup.of_map _ (hrow (by omega)).1
  refine ⟨r, s, hrun, hiff, ?_⟩
  apply List.Perm.length_eq
  rw [List.perm_ext_iff_of_nodup (selectedCells_nodup r) hnd]
  intro c
  rw [mem_selectedCells, hiff]

/-! ## The thin line -/

/-- C25: for every box and every anchor, with thickness 1 `CreateDiagonalRegion` returns
(for every fuel above the longer span) and selects `max width height` cells, where
`width` and `height` are the numbers of columns and rows of the box; when the box is at
least as wide as high every column holds exactly one selected cell, when it is at least
as high as wide every row holds exactly one selected cell; the start corner and the end
corner are selected. -/
theorem C25_thin_line_count (x1 z1 x2 z2 startX startZ : Int) (fuel : Nat)
    (hfuel : max (max x1 x2 - min x1 x2) (max z1 z2 - min z1 z2) < fuel) :
    ∃ r : SC4CellRegion,
      CreateDiagonalRegion fuel x1 z1 x2 z2 startX startZ 1 = some r ∧
      (r.selectedCells.length : Int) =
        max (max x1 x2 - min x1 x2 + 1) (max z1 z2 - min z1 z2 + 1) ∧
      (max z1 z2 - min z1 z2 + 1 ≤ max x1 x2 - min x1 x2 + 1 →
        ∀ X, min x1 x2 ≤ X → X ≤ max x1 x2 → ∃! Z, r.selected X Z = true) ∧
      (max x1 x2 - min x1 x2 + 1 ≤ max z1 z2 - min z1 z2 + 1 →
        ∀ Z, min z1 z2 ≤ Z → Z ≤ max z1 z2 → ∃! X, r.selected X Z = true) ∧
      r.selected
        (diagonalEndpoints (min x1 x2) (min z1 z2) (max x1 x2) (max z1 z2) startX startZ).1
        (diagonalEndpoints (min x1 x2) (min z1 z2) (max x1 x2) (max z1 z2) startX startZ).2.1 =
          true ∧
      r.selected
        (diagonalEndpoints (min x1 x2) (min z1 z2) (max x1 x2) (max z1 z2) startX startZ).2.2.1
        (diagonalEndpoints (min x1 x2) (min z1 z2) (max x1 x2) (max z1 z2) startX startZ).2.2.2 =
          true := by
  obtain ⟨r, s, tail, hrun, -, -, -, hvis, hlast, hlen, -⟩ :=
    CreateDiagonalRegionRun_spec x1 z1 x2 z2 startX startZ 1 fuel hfuel
  obtain ⟨r2, s2, hrun2, hbox, hcol, hrow⟩ :=
    CreateDiagonalRegionRun_trace x1 z1 x2 z2 startX startZ 1 fuel hfuel
  rw [hrun] at hrun2
  injection hrun2 with hrun2
  injection hrun2 with h1 h2
  subst h1 h2
  obtain ⟨r3, s3, hrun3, hiff, hcount⟩ :=
    CreateDiagonalRegionRun_thin x1 z1 x2 z2 startX startZ fuel hfuel
  rw [hrun] at hrun3
  injection hrun3 with hrun3
  injection hrun3 with h1 h2
  subst h1 h2
  refine ⟨r, by unfold CreateDiagonalRegion; rw [hrun]; rfl, ?_, ?_, ?_, ?_, ?_⟩
  · rw [hcount, hlen]
    omega
  · intro hle X hX1 hX2
    obtain ⟨hnd, hall⟩ := hcol (by omega)
    have hmem := hall X hX1 hX2
    rw [List.mem_map] at hmem
    obtain ⟨c, hc, hcX⟩ := hmem
    refine ⟨c.2, ?_, ?_⟩
    · dsimp only
      rw [hiff, ← hcX]
      exact hc
    · intro Z hZ
      rw [hiff] at hZ
      have := List.inj_on_of_nodup_map hnd hZ hc (by rw [hcX])
      rw [← this]
  · intro hle Z hZ1 hZ2
    obtain ⟨hnd, hall⟩ := hrow (by omega)
    have hmem := hall Z hZ1 hZ2
    rw [List.mem_map] at hmem
    obtain ⟨c, hc, hcZ⟩ := hmem
    refine ⟨c.1, ?_, ?_⟩
    · dsimp only
      rw [hiff, ← hcZ]
      exact hc
    · intro X hX
      rw [hiff] at hX
      have := List.inj_on_of_nodup_map hnd hX hc (by rw [hcZ])
      rw [← this]
  · rw [hiff, hvis]
    exact List.mem_cons_self _ _
  · rw [hiff]
    exact List.mem_of_getLast?_eq_some hlast

/-- Witness of C25: the box (0,0)-(6,2) with the anchor (5,0): 7 cells are selected, one in
every column, among them the corners (6,0) and (0,2). -/
theorem C25_thin_line_count_witness :
    max (max (0 : Int) 6 - min 0 6) (max 0 2 - min 0 2) < ((7 : Nat) : Int) ∧
    ∃ r : SC4CellRegion,
      CreateDiagonalRegion 7 0 0 6 2 5 0 1 = some r ∧
      (r.selectedCells.length : Int) = 7 ∧
      (∀ X, (0 : Int) ≤ X → X ≤ 6 → ∃! Z, r.selected X Z = true) ∧
      r.selected 6 0 = true ∧ r.selected 0 2 = true :=
  ⟨by decide,
    match C25_thin_line_count 0 0 6 2 5 0 7 (by decide) with
    | ⟨r, h1, h2, h3, _, h5, h6⟩ => ⟨r, h1, h2, h3 (by decide), h5, h6⟩⟩

/-! ## The current control in diagonal mode -/

/-- The key handler leaves the mode state alone or makes its control the current one. -/
theorem OnKeyDownHook_current (ids : BulldozeCursorIds) (fuel : Nat) (mode : ModeState)
    (pThis : Nat) (ctl : cSC4ViewInputControlDemolish) (isOnTop : Bool)
    (vkCode modifiers : Int) (res : Bool × HookOutcome)
    (h : OnKeyDownHook ids fuel mode pThis ctl isOnTop vkCode modifiers = some res) :
    res.2.mode = mode ∨ res.2.mode.currentViewControl = some pThis := by
  unfold OnKeyDownHook at h
  dsimp only at h
  split_ifs at h
  all_goals first
    | (injection h with h; subst h; exact Or.inl rfl)
    | (rw [Option.map_eq_some'] at h
       obtain ⟨out, hout, rfl⟩ := h
       exact Or.inr (SetOccupantFilterOption_mode _ _ _ _ _ _ _ _ hout).2.2.2)

/-- The wheel handler keeps the diagonal flag, and it keeps the current control or makes
its own control the current one. -/
theorem OnMouseWheelHook_current (ids : BulldozeCursorIds) (fuel : Nat) (mode : ModeState)
    (pThis : Nat) (ctl : cSC4ViewInputControlDemolish) (x z : Int) (modifiers : Nat)
    (wheelDelta : Int) (res : Bool × HookOutcome)
    (h : OnMouseWheelHook ids fuel mode pThis ctl x z modifiers wheelDelta = some res) :
    res.2.mode.diagonalMode = mode.diagonalMode ∧
      (res.2.mode.currentViewControl = mode.currentViewControl ∨
        res.2.mode.currentViewControl = some pThis) := by
  unfold OnMouseWheelHook at h
  dsimp only at h
  split at h
  · split at h
    · split at h
      · split at h
        · exact absurd h (by simp)
        · rename_i out hout
          injection h with h
          subst h
          have hm := SetOccupantFilterOption_mode _ _ _ _ _ _ _ _ hout
          exact ⟨hm.2.1, Or.inr hm.2.2.2⟩
      · injection h with h; subst h; exact ⟨rfl, Or.inl rfl⟩
    · injection h with h; subst h; exact ⟨rfl, Or.inl rfl⟩
  · injection h with h; subst h; exact ⟨rfl, Or.inl rfl⟩

/-- In every reachable mode state, diagonal mode implies that a control is current. -/
theorem Reachable_current (ids : BulldozeCursorIds) (mode : ModeState)
    (h : Reachable ids mode) :
    mode.diagonalMode = true → mode.currentViewControl.isSome = true := by
  induction h with
  | initial => intro h; exact absurd h (by decide)
  | activate mode pThis ctl _ _ =>
    intro _
    unfold Activate
    dsimp only
    split_ifs <;> rfl
  | keyDown mode fuel pThis ctl isOnTop vkCode modifiers res _ hres ih =>
    rcases OnKeyDownHook_current ids fuel mode pThis ctl isOnTop vkCode modifiers res hres
      with h | h
    · rw [h]; exact ih
    · intro _; rw [h]; rfl
  | mouseWheel mode fuel pThis ctl x z modifiers wheelDelta res _ hres ih =>
    obtain ⟨hd, hc⟩ :=
      OnMouseWheelHook_current ids fuel mode pThis ctl x z modifiers wheelDelta res hres
    rcases hc with h | h
    · rw [hd, h]; exact ih
    · intro _; rw [h]; rfl

/-- C26: in every mode state reachable from the load-time state by calls of `Activate`,
`OnKeyDownHook` and `OnMouseWheelHook`, diagonal mode implies that `currentViewControl` is
set; hence in diagonal mode the commit hook returns (with enough fuel) and the region it
passes to the demolition routine is the one `CreateDiagonalRegion` computes with the click
anchor `(clickX, clickZ)` of the current control. -/
theorem C26_diagonal_mode_has_control (ids : BulldozeCursorIds) (mode : ModeState)
    (h : Reachable ids mode) (hdiag : mode.diagonalMode = true) :
    mode.currentViewControl.isSome = true ∧
    ∀ (fuel : Nat) (viewControl : cSC4ViewInputControlDemolish) (host : DemolishCall → Bool)
      (pDemolition : Nat) (cellRegion : SC4CellRegion) (unused : Int) (flags : Nat)
      (clearZonedArea : Bool) (pOccupantFilter : OccupantFilterPtr)
      (rest : DemolishPassThrough),
      regionSpan cellRegion < fuel →
      ∃ out diagonalRegion,
        OnMouseUpLDemolishRegion fuel mode viewControl host pDemolition cellRegion unused
          flags clearZonedArea pOccupantFilter rest = some out ∧
        CreateDiagonalRegion fuel cellRegion.bounds.topLeftX cellRegion.bounds.topLeftY
          cellRegion.bounds.bottomRightX cellRegion.bounds.bottomRightY viewControl.clickX
          viewControl.clickZ mode.diagonalThickness = some diagonalRegion ∧
        out.call.demolish = true ∧
        out.call.cellRegion = diagonalRegion := by
  have hcur := Reachable_current ids mode h hdiag
  refine ⟨hcur, ?_⟩
  intro fuel viewControl host pDemolition cellRegion unused flags clearZonedArea
    pOccupantFilter rest hfuel
  obtain ⟨diag, hcreate⟩ := CreateDiagonalRegion_isSome cellRegion.bounds.topLeftX
    cellRegion.bounds.topLeftY cellRegion.bounds.bottomRightX cellRegion.bounds.bottomRightY
    viewControl.clickX viewControl.clickZ mode.diagonalThickness fuel hfuel
  refine ⟨_, diag, OnMouseUpLDemolishRegion_diagonal fuel mode viewControl host pDemolition
    cellRegion unused flags clearZonedArea pOccupantFilter rest diag hdiag hcur hcreate,
    hcreate, rfl, rfl⟩

/-- Witness of C26: the mode state after activation with the default-diagonal cursor is
reachable and in diagonal mode; the control at address 7 is current. -/
theorem C26_diagonal_mode_has_control_witness :
    Reachable sampleIds (Activate sampleIds ModeState.initial 7 sampleControl) ∧
    (Activate sampleIds ModeState.initial 7 sampleControl).diagonalMode = true ∧
    (Activate sampleIds ModeState.initial 7 sampleControl).currentViewControl.isSome = true :=
  ⟨Reachable.activate _ _ _ Reachable.initial, by decide,
    (C26_diagonal_mode_has_control sampleIds
      (Activate sampleIds ModeState.initial 7 sampleControl)
      (Reachable.activate _ _ _ Reachable.initial) (by decide)).1⟩

end Bulldoze
